import Mathlib

/-!
# CBDebugLib: a shallow embedding of the fault-injection veneers

The C sources are embedded as pure functions over explicit states.

* A call either returns (`Outcome.ret`), stops in `abort()` because an
  `assert` of `Debug.h` failed (`Outcome.abort`, carrying the state at that
  moment), or runs into undefined behaviour (`Outcome.ub`).
* `ndebug` is the build switch `NDEBUG` of `Debug.h`: when it is set, `assert`
  expands to nothing.
* Whatever is decided outside this library (the allocator, the failure
  oracle, the real Wimp/Toolbox/event calls) is passed in as an argument, and
  every call made to the real subsystem is appended to a trace in the state.
* The linked lists of CBUtilLib are Lean lists: `linkedlist_insert(list, NULL,
  item)` puts the item at the head, `linkedlist_for_each` visits the items from
  the head and returns the first one for which the callback returns true.
-/

namespace CBDebug

/-! ## Common definitions -/

/-- Result of running one entry point from a state of type `σ`. -/
inductive Outcome (σ α : Type) where
  | ret (a : α) (s : σ) : Outcome σ α
  | abort (s : σ) : Outcome σ α
  | ub : Outcome σ α

/-- An `assert(c)` of `Debug.h` stops the program: only when `NDEBUG` is not
defined and the condition is false. -/
def assert_fails (ndebug : Bool) (c : Bool) : Bool := !ndebug && !c

/-- Value kept in a C `int` (32 bits, two's complement). -/
def wrap_int (x : Int) : Int := (x + 2 ^ 31) % 2 ^ 32 - 2 ^ 31

/-- Conversion of an `int` to `size_t` (32 bits, unsigned). -/
def to_size_t (x : Int) : Nat := (x % 2 ^ 32).toNat

/-- Pointwise update of a memory seen as a function of the address. -/
def upd {β : Type} (m : Nat → β) (a : Nat) (v : β) : Nat → β :=
  fun x => if x = a then v else m x

/-- The C `_kernel_oserror` block. -/
structure kernel_oserror where
  errnum : Nat
  errmess : String
deriving DecidableEq, Repr

/-- `DUMMY_ERRNO` of `Internal/CBDebMisc.h`. -/
def DUMMY_ERRNO : Nat := 255

/-- The generic out-of-memory error looked up from the token `NoMem`. -/
def NoMem : kernel_oserror := { errnum := DUMMY_ERRNO, errmess := "NoMem" }

/-- `pseudokern_fail`: `allow` is the answer of `Fortify_AllowAllocate` for the
call site; a refusal yields the looked-up error, otherwise `NULL`. -/
def pseudokern_fail (allow : Bool) : Option kernel_oserror :=
  if !allow then some NoMem else none

/-- `memcpy(dst + doff, src + soff, n)` on the contents of two distinct blocks;
`none` when a range leaves its block. -/
def memcpy (dst : List Nat) (doff : Nat) (src : List Nat) (soff n : Nat) :
    Option (List Nat) :=
  if soff + n ≤ src.length ∧ doff + n ≤ dst.length then
    some (dst.take doff ++ (src.drop soff).take n ++ dst.drop (doff + n))
  else none

/-- `memmove(blk + doff, blk + soff, n)` inside one block (the ranges may
overlap: the source bytes are read before any is written). -/
def memmove (blk : List Nat) (doff soff n : Nat) : Option (List Nat) :=
  if soff + n ≤ blk.length ∧ doff + n ≤ blk.length then
    some (blk.take doff ++ (blk.drop soff).take n ++ blk.drop (doff + n))
  else none

/-! ## PseudoFlex.c -/

/-- Record of one flex block (`PseudoFlexRecord`). -/
structure PseudoFlexRecord where
  size : Int
  anchor : Nat
deriving DecidableEq, Repr

/-- What the allocator hands back when it does not return `NULL`: the address
of the block, and the bytes the caller finds there that the allocator does not
specify (the whole block for `malloc`, the part beyond the old content for
`realloc`). -/
structure Fresh where
  addr : Nat
  bytes : List Nat
deriving DecidableEq, Repr

/-- Static data of `PseudoFlex.c` with the memory it works on: `anchors a` is
`*a` for the anchor at address `a` (0 is `NULL`), `heap p` is the content of
the live heap block at address `p`. -/
structure FlexState where
  defer_compact : Int
  budge_state : Int
  block_list : List PseudoFlexRecord
  anchors : Nat → Nat
  heap : Nat → Option (List Nat)

/-- `find_anchor`: the first record whose anchor is the given one. -/
def find_anchor (s : FlexState) (anchor : Nat) : Option PseudoFlexRecord :=
  s.block_list.find? (fun r => r.anchor == anchor)

/-- Assignment `pfr->size = n` through the pointer returned by `find_anchor`. -/
def set_size : List PseudoFlexRecord → Nat → Int → List PseudoFlexRecord
  | [], _, _ => []
  | r :: rs, anchor, n =>
    if r.anchor == anchor then { r with size := n } :: rs
    else r :: set_size rs anchor n

/-- `PseudoFlex_size`. -/
def PseudoFlex_size (ndebug : Bool) (s : FlexState) (anchor : Nat) :
    Outcome FlexState Int :=
  if assert_fails ndebug (anchor != 0) then .abort s else
  match find_anchor s anchor with
  | none => if assert_fails ndebug false then .abort s else .ret 0 s
  | some pfr => .ret pfr.size s

/-- `PseudoFlex_midextend`; `alloc` is what `Fortify_malloc` (when `by_ < 0`)
or `Fortify_realloc` (otherwise) returns. The sum `size + by` and the negation
`-by` are computed in `int`. -/
def PseudoFlex_midextend (ndebug : Bool) (s : FlexState) (anchor : Nat)
    (at_ by_ : Int) (alloc : Option Fresh) : Outcome FlexState Int :=
  if assert_fails ndebug (anchor != 0) then .abort s else
  if assert_fails ndebug (decide (at_ ≥ 0)) then .abort s else
  match find_anchor s anchor with
  | none => if assert_fails ndebug false then .abort s else .ret 0 s
  | some pfr =>
    let size := pfr.size
    let newsize := wrap_int (size + by_)
    let bytes_to_copy := to_size_t (size - at_)
    if assert_fails ndebug (decide (at_ ≤ size)) then .abort s else
    if by_ < 0 then
      if assert_fails ndebug (decide (wrap_int (-by_) ≤ at_)) then .abort s else
      if wrap_int (-by_) > at_ then .ret 0 s else
      match alloc with
      | none => .ret 0 s
      | some f =>
        match s.heap (s.anchors anchor) with
        | none => .ub
        | some old =>
          if at_ < 0 ∨ at_ + by_ < 0 then .ub else
          match memcpy f.bytes 0 old 0 (to_size_t (at_ + by_)) with
          | none => .ub
          | some b1 =>
            match memcpy b1 (at_ + by_).toNat old at_.toNat bytes_to_copy with
            | none => .ub
            | some b2 =>
              let heap1 := upd s.heap f.addr (some b2)
              let heap2 := upd heap1 (s.anchors anchor) none
              .ret 1 { s with
                heap := heap2
                anchors := upd s.anchors anchor f.addr
                block_list := set_size s.block_list anchor newsize }
    else
      match alloc with
      | none => .ret 0 s
      | some f =>
        match s.heap (s.anchors anchor) with
        | none => .ub
        | some old =>
          if at_ < 0 then .ub else
          let blk := (old ++ f.bytes).take (to_size_t newsize)
          match memmove blk (at_ + by_).toNat at_.toNat bytes_to_copy with
          | none => .ub
          | some b2 =>
            let heap1 := upd s.heap (s.anchors anchor) none
            let heap2 := upd heap1 f.addr (some b2)
            .ret 1 { s with
              heap := heap2
              anchors := upd s.anchors anchor f.addr
              block_list := set_size s.block_list anchor newsize }

/-- State with a single 10-byte block holding "HELLOWORLD" at address 100,
anchored at address 1. -/
def helloState : FlexState :=
  { defer_compact := 0
    budge_state := 0
    block_list := [{ size := 10, anchor := 1 }]
    anchors := fun a => if a = 1 then 100 else 0
    heap := fun p => if p = 100 then some [72, 69, 76, 76, 79, 87, 79, 82, 76, 68] else none }

/-- Content of the block of an anchor after a call that returned. -/
def block_of : Outcome FlexState Int → Nat → Option (List Nat)
  | .ret _ s, anchor => s.heap (s.anchors anchor)
  | _, _ => none

/-- Value returned by a call, if it returned. -/
def ret_val {σ α : Type} : Outcome σ α → Option α
  | .ret a _ => some a
  | _ => none

/-- State left by a call that returned. -/
def ret_state {σ α : Type} : Outcome σ α → Option σ
  | .ret _ s => some s
  | _ => none

/-- Sequencing of two steps of a C function body. -/
def Outcome.bind {σ α β : Type} (x : Outcome σ α) (f : α → σ → Outcome σ β) :
    Outcome σ β :=
  match x with
  | .ret a s => f a s
  | .abort s => .abort s
  | .ub => .ub

/-! ## PseudoFlex.c, the other entry points -/

/-- Assignment `pfr->anchor = to` through the pointer returned by
`find_anchor(from)`. -/
def set_anchor : List PseudoFlexRecord → Nat → Nat → List PseudoFlexRecord
  | [], _, _ => []
  | r :: rs, frm, to_ =>
    if r.anchor == frm then { r with anchor := to_ } :: rs
    else r :: set_anchor rs frm to_

/-- `PseudoFlex_alloc`; `mem` tells whether `malloc` gave a record and
`alloc` is what `Fortify_malloc(n)` returns. -/
def PseudoFlex_alloc (ndebug : Bool) (s : FlexState) (anchor : Nat) (n : Int)
    (mem : Bool) (alloc : Option Fresh) : Outcome FlexState Int :=
  if assert_fails ndebug (anchor != 0) then .abort s else
  if assert_fails ndebug (decide (n ≥ 0)) then .abort s else
  if !mem then .ret 0 s else
  match alloc with
  | none => .ret 0 s
  | some f =>
    if anchor = 0 then .ub else
    .ret 1 { s with
      block_list := { size := n, anchor := anchor } :: s.block_list
      anchors := upd s.anchors anchor f.addr
      heap := upd s.heap f.addr (some f.bytes) }

/-- `PseudoFlex_free`. -/
def PseudoFlex_free (ndebug : Bool) (s : FlexState) (anchor : Nat) :
    Outcome FlexState Unit :=
  if assert_fails ndebug (anchor != 0) then .abort s else
  match find_anchor s anchor with
  | none => if assert_fails ndebug false then .abort s else .ret () s
  | some _ =>
    match s.heap (s.anchors anchor) with
    | none => .ub
    | some _ =>
      .ret () { s with
        block_list := s.block_list.eraseP (fun r => r.anchor == anchor)
        heap := upd s.heap (s.anchors anchor) none
        anchors := upd s.anchors anchor 0 }

/-- `PseudoFlex_extend`; `alloc` is what `Fortify_realloc` returns. -/
def PseudoFlex_extend (ndebug : Bool) (s : FlexState) (anchor : Nat) (newsize : Int)
    (alloc : Option Fresh) : Outcome FlexState Int :=
  if assert_fails ndebug (anchor != 0) then .abort s else
  if assert_fails ndebug (decide (newsize ≥ 0)) then .abort s else
  match find_anchor s anchor with
  | none => if assert_fails ndebug false then .abort s else .ret 0 s
  | some _ =>
    match alloc with
    | none => .ret 0 s
    | some f =>
      match s.heap (s.anchors anchor) with
      | none => .ub
      | some old =>
        let blk := (old ++ f.bytes).take (to_size_t newsize)
        let heap1 := upd s.heap (s.anchors anchor) none
        let heap2 := upd heap1 f.addr (some blk)
        .ret 1 { s with
          heap := heap2
          anchors := upd s.anchors anchor f.addr
          block_list := set_size s.block_list anchor newsize }

/-- `PseudoFlex_reanchor`. -/
def PseudoFlex_reanchor (ndebug : Bool) (s : FlexState) (to_ frm : Nat) :
    Outcome FlexState Int :=
  if assert_fails ndebug (frm != 0) then .abort s else
  if assert_fails ndebug (to_ != 0) then .abort s else
  match find_anchor s frm with
  | none => if assert_fails ndebug false then .abort s else .ret 0 s
  | some _ =>
    if to_ = 0 ∨ frm = 0 then .ub else
    .ret 1 { s with
      block_list := set_anchor s.block_list frm to_
      anchors := upd (upd s.anchors to_ (s.anchors frm)) frm 0 }

/-- `PseudoFlex_set_budge`. -/
def PseudoFlex_set_budge (ndebug : Bool) (s : FlexState) (newstate : Int) :
    Outcome FlexState Int :=
  let oldstate := s.budge_state
  if assert_fails ndebug (decide (newstate ≥ -1) && decide (newstate ≤ 1)) then .abort s else
  if newstate ≠ -1 then .ret oldstate { s with budge_state := newstate }
  else .ret oldstate s

/-- `PseudoFlex_set_deferred_compaction`. -/
def PseudoFlex_set_deferred_compaction (ndebug : Bool) (s : FlexState) (newstate : Int) :
    Outcome FlexState Int :=
  let oldstate := s.defer_compact
  if assert_fails ndebug (newstate == 0 || newstate == 1) then .abort s else
  .ret oldstate { s with defer_compact := newstate }

/-- State at program start: no block, every anchor null, empty heap. -/
def flex_start : FlexState :=
  { defer_compact := 0
    budge_state := 0
    block_list := []
    anchors := fun _ => 0
    heap := fun _ => none }

/-- One call of a block operation of `PseudoFlex.c`, with the allocator's
answer where one is asked for. -/
inductive FlexOp where
  | alloc (anchor : Nat) (n : Int) (mem : Bool) (alloc : Option Fresh) : FlexOp
  | free (anchor : Nat) : FlexOp
  | size (anchor : Nat) : FlexOp
  | extend (anchor : Nat) (newsize : Int) (alloc : Option Fresh) : FlexOp
  | midextend (anchor : Nat) (at_ by_ : Int) (alloc : Option Fresh) : FlexOp
  | reanchor (to_ frm : Nat) : FlexOp
deriving DecidableEq, Repr

/-- Runs one operation; `PseudoFlex_free` returns nothing, shown as 0. -/
def run_op (ndebug : Bool) (s : FlexState) : FlexOp → Outcome FlexState Int
  | .alloc anchor n mem alloc => PseudoFlex_alloc ndebug s anchor n mem alloc
  | .free anchor => (PseudoFlex_free ndebug s anchor).bind fun _ s1 => .ret 0 s1
  | .size anchor => PseudoFlex_size ndebug s anchor
  | .extend anchor newsize alloc => PseudoFlex_extend ndebug s anchor newsize alloc
  | .midextend anchor at_ by_ alloc => PseudoFlex_midextend ndebug s anchor at_ by_ alloc
  | .reanchor to_ frm => PseudoFlex_reanchor ndebug s to_ frm

/-- Runs a sequence of operations and collects the values returned. -/
def run_ops (ndebug : Bool) : FlexState → List FlexOp → Outcome FlexState (List Int)
  | s, [] => .ret [] s
  | s, op :: ops =>
    (run_op ndebug s op).bind fun v s1 =>
      (run_ops ndebug s1 ops).bind fun vs s2 => .ret (v :: vs) s2

/-- The same outcome with the state replaced by its image. -/
def Outcome.map_state {σ α : Type} (g : σ → σ) : Outcome σ α → Outcome σ α
  | .ret a s => .ret a (g s)
  | .abort s => .abort (g s)
  | .ub => .ub

/-- The state `s` with other values in the two flags. -/
def with_flags (d b : Int) (s : FlexState) : FlexState :=
  { s with defer_compact := d, budge_state := b }

/-- Values of the C type `int`. -/
def is_int (x : Int) : Prop := -2 ^ 31 ≤ x ∧ x < 2 ^ 31

/-- The preconditions asserted by the block operations, for arguments of
type `int`: `n ≥ 0`, `newsize ≥ 0`, `0 ≤ at ≤ size` and `-by ≤ at` when
`by < 0`; anchors are not null and, except for `alloc`, registered. -/
def FlexOp.pre (s : FlexState) : FlexOp → Prop
  | .alloc anchor n _ _ => anchor ≠ 0 ∧ is_int n ∧ 0 ≤ n
  | .free anchor => anchor ≠ 0 ∧ (find_anchor s anchor).isSome
  | .size anchor => anchor ≠ 0 ∧ (find_anchor s anchor).isSome
  | .extend anchor newsize _ => anchor ≠ 0 ∧ (find_anchor s anchor).isSome ∧
      is_int newsize ∧ 0 ≤ newsize
  | .midextend anchor at_ by_ _ => anchor ≠ 0 ∧ is_int at_ ∧ is_int by_ ∧
      ∃ pfr, find_anchor s anchor = some pfr ∧ 0 ≤ at_ ∧ at_ ≤ pfr.size ∧
        (by_ < 0 → -by_ ≤ at_)
  | .reanchor to_ frm => to_ ≠ 0 ∧ frm ≠ 0 ∧ (find_anchor s frm).isSome

/-- An insertion keeps the size within `int`: `size + by ≤ INT_MAX`. -/
def FlexOp.fits (s : FlexState) : FlexOp → Prop
  | .midextend anchor _ by_ _ =>
      ∀ pfr, find_anchor s anchor = some pfr → pfr.size + by_ < 2 ^ 31
  | _ => True

/-- States reached from the start by operations that satisfy their asserted
preconditions and returned. -/
inductive FlexReachable (ndebug : Bool) : FlexState → Prop where
  | start : FlexReachable ndebug flex_start
  | step (s s' : FlexState) (op : FlexOp) (v : Int) :
      FlexReachable ndebug s → op.pre s → run_op ndebug s op = .ret v s' →
      FlexReachable ndebug s'

/-- As `FlexReachable`, every insertion keeping the size within `int`. -/
inductive FlexReachableFit (ndebug : Bool) : FlexState → Prop where
  | start : FlexReachableFit ndebug flex_start
  | step (s s' : FlexState) (op : FlexOp) (v : Int) :
      FlexReachableFit ndebug s → op.pre s → op.fits s → run_op ndebug s op = .ret v s' →
      FlexReachableFit ndebug s'

/-- The unspecified bytes of a block grown by `2^31 - 1` bytes. -/
def big_fill : List Nat := List.replicate 2147483647 0

/-- Two blocks are allocated at anchor 1, then the anchor is moved to 2. -/
def twice_alloc_ops : List FlexOp :=
  [FlexOp.alloc 1 4 true (some { addr := 100, bytes := [1, 2, 3, 4] }),
   FlexOp.alloc 1 2 true (some { addr := 200, bytes := [5, 6] }),
   FlexOp.reanchor 2 1]

/-- Recorded size of an anchor in the state a run leaves (`none`: the run did
not return, or no record is found). -/
def size_after {α : Type} (o : Outcome FlexState α) (anchor : Nat) : Option Int :=
  match o with
  | .ret _ s => (find_anchor s anchor).map fun r => r.size
  | _ => none

/-- State after `PseudoFlex_alloc(1, 1)` from the start: one block of one
byte at address 100. -/
def one_byte_state : FlexState :=
  { flex_start with
    block_list := [{ size := 1, anchor := 1 }]
    anchors := upd flex_start.anchors 1 100
    heap := upd flex_start.heap 100 (some [0]) }

/-- Every recorded size is a non-negative `int`. -/
def sizes_ok (l : List PseudoFlexRecord) : Prop :=
  ∀ r ∈ l, 0 ≤ r.size ∧ r.size < 2 ^ 31

/-! ## PseudoWimp.c -/

/-- Event code `Wimp_ENull` of the Wimp library. -/
def Wimp_ENull : Int := 0

/-- Event code `Wimp_EUserMessage`. -/
def Wimp_EUserMessage : Int := 17

/-- Event code `Wimp_EUserMessageRecorded`. -/
def Wimp_EUserMessageRecorded : Int := 18

/-- Event code `Wimp_EUserMessageAcknowledge`. -/
def Wimp_EUserMessageAcknowledge : Int := 19

/-- Reason code `TaskHandleAndVersion` passed to `wimp_read_sys_info`. -/
def TaskHandleAndVersion : Int := 5

/-- Message action `Wimp_MPaletteChange`. -/
def Wimp_MPaletteChange : Int := 9

/-- A `WimpPollBlock`, given by its words. For a `WimpMessage` word 0 is
`hdr.size`, word 1 `hdr.sender`, word 2 `hdr.my_ref`, word 3 `hdr.your_ref`
and word 4 `hdr.action_code`. -/
abbrev WimpPollBlock := List Int

/-- One element of the array `msgs`. -/
structure WimpMsg where
  code : Int
  block : WimpPollBlock
  handle : Int
  icon : Int
deriving DecidableEq, Repr

/-- Calls made to the real Wimp library. -/
inductive WimpCall where
  | read_sys_info (reason : Int) : WimpCall
  | send_message (code : Int) (block : Option WimpPollBlock) (handle icon : Int)
      (th : Bool) : WimpCall
  | redraw_window (window_handle : Int) (more : Bool) : WimpCall
  | get_rectangle (window_handle : Int) (more : Bool) : WimpCall
deriving DecidableEq, Repr

/-- Static data of `PseudoWimp.c` used by the message trap (`msgs i` is
`msgs[i]`, meaningful for `i < 32`), the counter `my_ref` local to
`pseudo_wimp_send_message`, and the trace of real calls. -/
structure WimpState where
  capture : Bool
  msg_count : Nat
  msgs : Nat → WimpMsg
  my_ref : Int
  calls : List WimpCall

/-- `ARRAY_SIZE(msgs)`. -/
def msgs_size : Nat := 32

/-- State at program start (static storage is zero-initialised). -/
def wimp_start : WimpState :=
  { capture := false
    msg_count := 0
    msgs := fun _ => { code := 0, block := List.replicate 64 0, handle := 0, icon := 0 }
    my_ref := 0
    calls := [] }

/-- What the world outside answers during one call of `pseudo_wimp_send_message`:
the failure oracle, `wimp_read_sys_info` (its error and `info.r0`) and
`wimp_send_message` (its error and the task handle it stores in `*th`). -/
structure WimpReal where
  allow : Bool
  sys_info : Option kernel_oserror
  r0 : Int
  send : Option kernel_oserror
  task : Int
deriving DecidableEq, Repr

/-- What the caller of `pseudo_wimp_send_message` gets back: the error pointer,
the content of its block after the call and the value stored in `*th` (if one
was stored). -/
structure SendResult where
  e : Option kernel_oserror
  block : Option WimpPollBlock
  th_out : Option Int
deriving DecidableEq, Repr

/-- `pseudo_wimp_reset`. -/
def pseudo_wimp_reset (s : WimpState) : WimpState :=
  { s with msg_count := 0, capture := true }

/-- `pseudo_wimp_get_message_count`. -/
def pseudo_wimp_get_message_count (s : WimpState) : Nat := s.msg_count

/-- `pseudo_wimp_get_message2` called with four non-null output pointers. -/
def pseudo_wimp_get_message2 (ndebug : Bool) (s : WimpState) (index : Nat) :
    Outcome WimpState WimpMsg :=
  if assert_fails ndebug (decide (index < s.msg_count)) then .abort s else
  if index < msgs_size then .ret (s.msgs index) s else .ub

/-- The message built to find the task handle of a window or icon. -/
def query_message : WimpPollBlock :=
  [20, 0, 0, 0, Wimp_MPaletteChange] ++ List.replicate 59 0

/-- First step of the capture branch: for a user message the sender and the
reference are filled in, in the caller's block. Returns `e` and the block. -/
def send_fill_sender (ndebug : Bool) (s : WimpState) (code : Int)
    (block : Option WimpPollBlock) (w : WimpReal) :
    Outcome WimpState (Option kernel_oserror × Option WimpPollBlock) :=
  if code == Wimp_EUserMessage || code == Wimp_EUserMessageRecorded then
    let s1 := { s with calls := s.calls ++ [WimpCall.read_sys_info TaskHandleAndVersion] }
    if assert_fails ndebug w.sys_info.isNone then .abort s1 else
    match block with
    | none => .ub
    | some b =>
      let r := wrap_int (s1.my_ref + 1)
      .ret (w.sys_info, some ((b.set 1 w.r0).set 2 r)) { s1 with my_ref := r }
  else .ret (none, block) s

/-- Second step of the capture branch: the query for the task handle. Returns
`e` and the value stored in `*th`. -/
def send_find_task (ndebug : Bool) (s : WimpState) (e : Option kernel_oserror)
    (handle icon : Int) (th : Bool) (w : WimpReal) :
    Outcome WimpState (Option kernel_oserror × Option Int) :=
  if th && handle != 0 then
    let s1 := { s with calls := s.calls ++
      [WimpCall.send_message Wimp_EUserMessageAcknowledge (some query_message) handle icon true] }
    if assert_fails ndebug w.send.isNone then .abort s1 else
    .ret (w.send, some w.task) s1
  else .ret (e, none) s

/-- Third step of the capture branch: the message is recorded if the array has
room. -/
def send_record (s : WimpState) (code : Int) (block : Option WimpPollBlock)
    (handle icon : Int) : Outcome WimpState Unit :=
  if s.msg_count < msgs_size then
    match block with
    | none => .ub
    | some b =>
      .ret () { s with
        msgs := upd s.msgs s.msg_count
          { code := code, block := b, handle := handle, icon := icon }
        msg_count := s.msg_count + 1 }
  else .ret () s

/-- `pseudo_wimp_send_message`; `th` tells whether the pointer `th` is non-null. -/
def pseudo_wimp_send_message (ndebug : Bool) (s : WimpState) (code : Int)
    (block : Option WimpPollBlock) (handle icon : Int) (th : Bool) (w : WimpReal) :
    Outcome WimpState SendResult :=
  let e := pseudokern_fail w.allow
  if assert_fails ndebug (code == Wimp_ENull || block.isSome) then .abort s else
  match e with
  | some err => .ret { e := some err, block := block, th_out := none } s
  | none =>
    if (code == Wimp_EUserMessage || code == Wimp_EUserMessageRecorded ||
        code == Wimp_EUserMessageAcknowledge) && block.isNone then .ub else
    if s.capture then
      (send_fill_sender ndebug s code block w).bind fun r1 s1 =>
      (send_find_task ndebug s1 r1.1 handle icon th w).bind fun r2 s2 =>
      (send_record s2 code r1.2 handle icon).bind fun _ s3 =>
      .ret { e := r2.1, block := r1.2, th_out := r2.2 } s3
    else
      .ret { e := w.send, block := block, th_out := if th then some w.task else none }
        { s with calls := s.calls ++ [WimpCall.send_message code block handle icon th] }

/-- Arguments of one call of `pseudo_wimp_send_message` with the answers of
the world outside during that call. -/
structure SendCall where
  code : Int
  block : Option WimpPollBlock
  handle : Int
  icon : Int
  th : Bool
  real : WimpReal
deriving DecidableEq, Repr

/-- A run of consecutive calls of `pseudo_wimp_send_message`. -/
def send_all (ndebug : Bool) : WimpState → List SendCall →
    Outcome WimpState (List SendResult)
  | s, [] => .ret [] s
  | s, c :: cs =>
    (pseudo_wimp_send_message ndebug s c.code c.block c.handle c.icon c.th c.real).bind
      fun r s1 => (send_all ndebug s1 cs).bind fun rs s2 => .ret (r :: rs) s2

/-- Conditions under which a captured send goes through: the oracle allows
the call, the block pointer is not null, and the real calls it makes (system
information for a user message, the task handle query when `th` and `handle`
are non-zero) report no error. -/
def SendCall.ok (c : SendCall) : Bool :=
  c.real.allow && c.block.isSome &&
  (!(c.code == Wimp_EUserMessage || c.code == Wimp_EUserMessageRecorded)
    || c.real.sys_info.isNone) &&
  (!(c.th && c.handle != 0) || c.real.send.isNone)

/-- States that a program can reach through `pseudo_wimp_reset` and
`pseudo_wimp_send_message`. -/
inductive WimpReachable : WimpState → Prop where
  | start : WimpReachable wimp_start
  | reset (s : WimpState) : WimpReachable s → WimpReachable (pseudo_wimp_reset s)
  | send (ndebug : Bool) (s s' : WimpState) (c : SendCall) (r : SendResult) :
      WimpReachable s →
      pseudo_wimp_send_message ndebug s c.code c.block c.handle c.icon c.th c.real
        = .ret r s' →
      WimpReachable s'

/-- The array entry `m` is what the send `c`, which handed back `r`, must have
recorded: code, handle and icon as passed, and the block as the call left it
in the caller's buffer, which is the block passed except that for a user
message (codes 17 and 18) word 1 holds the task handle and word 2 a reference
number. -/
def Recorded (c : SendCall) (r : SendResult) (m : WimpMsg) : Prop :=
  ∃ b0 b, c.block = some b0 ∧ r.block = some b ∧
    m = { code := c.code, block := b, handle := c.handle, icon := c.icon } ∧
    ((c.code = Wimp_EUserMessage ∨ c.code = Wimp_EUserMessageRecorded) →
      ∃ ref, b = (b0.set 1 c.real.r0).set 2 ref) ∧
    (¬ (c.code = Wimp_EUserMessage ∨ c.code = Wimp_EUserMessageRecorded) → b = b0)

/-- Message `i` read back with `pseudo_wimp_get_message2` after a run. -/
def message_after {α : Type} (ndebug : Bool) (o : Outcome WimpState α) (i : Nat) :
    Option WimpMsg :=
  match o with
  | .ret _ s => ret_val (pseudo_wimp_get_message2 ndebug s i)
  | _ => none

/-- Value of `pseudo_wimp_get_message_count` after a run. -/
def count_after {α : Type} (o : Outcome WimpState α) : Option Nat :=
  match o with
  | .ret _ s => some (pseudo_wimp_get_message_count s)
  | _ => none

/-- Whether a run stopped in `abort()`. -/
def is_abort {σ α : Type} : Outcome σ α → Bool
  | .abort _ => true
  | _ => false

/-- Answers of a world in which nothing fails; the task handle is 4660. -/
def okReal : WimpReal :=
  { allow := true, sys_info := none, r0 := 4660, send := none, task := 77 }

/-- A user message (code 17) with sender and reference left at zero. -/
def userCall : SendCall :=
  { code := Wimp_EUserMessage, block := some [24, 0, 0, 0, 5, 1], handle := 0, icon := 0,
    th := false, real := okReal }

/-- A send with code 3 to window 9, icon 8, asking for the task handle. -/
def plainCall : SendCall :=
  { code := 3, block := some [1, 2, 3], handle := 9, icon := 8, th := true, real := okReal }

/-- As `plainCall`, in a world where the task handle query reports an error. -/
def queryFailCall : SendCall :=
  { plainCall with real := { okReal with send := some { errnum := 1, errmess := "bad" } } }

/-- As `plainCall`, with the failure oracle refusing the call. -/
def deniedCall : SendCall :=
  { plainCall with real := { okReal with allow := false } }

/-- State left by a run that returned (the start state otherwise). -/
def state_after {α : Type} (o : Outcome WimpState α) : WimpState :=
  match o with
  | .ret _ s => s
  | _ => wimp_start

/-- The trap after `pseudo_wimp_reset` and 32 captured sends. -/
def full_state : WimpState :=
  state_after (send_all false (pseudo_wimp_reset wimp_start) (List.replicate 32 plainCall))

/-- The code is one of the two for which the sender and the reference are
filled in. -/
def SendCall.user (c : SendCall) : Bool :=
  c.code == Wimp_EUserMessage || c.code == Wimp_EUserMessageRecorded

/-- A send that is given a reference number: a user message on which the
oracle does not fail. -/
def SendCall.numbered (c : SendCall) : Bool := c.real.allow && c.user

/-- The message built by `pseudo_wimp_send_message` to ask for a task handle,
as passed to the real `wimp_send_message`. -/
def query_call (handle icon : Int) : WimpCall :=
  WimpCall.send_message Wimp_EUserMessageAcknowledge (some query_message) handle icon true

/-- Two user messages with another send between them. -/
def ref_calls : List SendCall := [userCall, plainCall, userCall]

/-- The trace of real calls at the end of a call that returned or stopped in
`abort()`. -/
def calls_made {α : Type} : Outcome WimpState α → Option (List WimpCall)
  | .ret _ s => some s.calls
  | .abort s => some s.calls
  | .ub => none

/-! ## PseudoWimp.c: redraw, and PseudoKern.c -/

/-- What one real `wimp_redraw_window` or `wimp_get_rectangle` call answers:
the error pointer and the value it stores in `*more`. -/
structure RedrawAnswer where
  e : Option kernel_oserror
  more : Int
deriving DecidableEq, Repr

/-- The `for` loop that completes the redraw protocol when a failure is
simulated: `e2` is the result of the last real call, `k` counts the real
calls made so far in this veneer call (the next one is answered by `real k`)
and `more` tells whether the pointer `more` is non-null. The first argument
bounds the number of further iterations: `none` means that the loop has not
ended within that bound. -/
def redraw_drain (real : Nat → RedrawAnswer) (window : Int) (more : Bool) :
    Nat → Nat → Option kernel_oserror → WimpState → Option WimpState
  | 0, _, e2, s => if e2.isNone && more then none else some s
  | fuel + 1, k, e2, s =>
    if e2.isNone && more then
      redraw_drain real window more fuel (k + 1) (real k).e
        { s with calls := s.calls ++ [WimpCall.get_rectangle window more] }
    else some s

/-- `pseudo_wimp_redraw_window`; `block` is `block->window_handle` (`none` for
a null pointer), `more` tells whether the pointer `more` is non-null. -/
def pseudo_wimp_redraw_window (ndebug : Bool) (fuel : Nat) (s : WimpState)
    (block : Option Int) (more : Bool) (allow : Bool) (real : Nat → RedrawAnswer) :
    Option (Outcome WimpState (Option kernel_oserror)) :=
  let e := pseudokern_fail allow
  if assert_fails ndebug block.isSome then some (.abort s) else
  match block with
  | none => some .ub
  | some window =>
    let s1 := { s with calls := s.calls ++ [WimpCall.redraw_window window more] }
    match e with
    | none => some (.ret (real 0).e s1)
    | some err =>
      (redraw_drain real window more fuel 1 (real 0).e s1).map fun s2 => .ret (some err) s2

/-- `pseudo_wimp_get_rectangle`. -/
def pseudo_wimp_get_rectangle (ndebug : Bool) (fuel : Nat) (s : WimpState)
    (block : Option Int) (more : Bool) (allow : Bool) (real : Nat → RedrawAnswer) :
    Option (Outcome WimpState (Option kernel_oserror)) :=
  let e := pseudokern_fail allow
  if assert_fails ndebug block.isSome then some (.abort s) else
  match block with
  | none => some .ub
  | some window =>
    let s1 := { s with calls := s.calls ++ [WimpCall.get_rectangle window more] }
    match e with
    | none => some (.ret (real 0).e s1)
    | some err =>
      (redraw_drain real window more fuel 1 (real 0).e s1).map fun s2 => .ret (some err) s2

/-- Calls made to the real kernel library. -/
inductive KernCall where
  | swi (no : Nat) : KernCall
  | swi_c (no : Nat) : KernCall
deriving DecidableEq, Repr

/-- `PseudoKern.c` keeps no data of its own: the state is the trace of real
calls. -/
structure KernState where
  calls : List KernCall
deriving DecidableEq, Repr

/-- The bit `_kernel_NONX` of a SWI number. -/
def kernel_NONX : Nat := 0x80000000

/-- `pseudokern_swi`; `no` is the SWI number as a 32-bit pattern, `in_ptr` and
`out_ptr` tell whether the register blocks are non-null. -/
def pseudokern_swi (ndebug : Bool) (s : KernState) (no : Nat) (in_ptr out_ptr : Bool)
    (allow : Bool) (real : Option kernel_oserror) :
    Outcome KernState (Option kernel_oserror) :=
  if assert_fails ndebug in_ptr then .abort s else
  if assert_fails ndebug out_ptr then .abort s else
  let e := if (kernel_NONX &&& no) == 0 then pseudokern_fail allow else none
  match e with
  | some err => .ret (some err) s
  | none =>
    if in_ptr && out_ptr then .ret real { s with calls := s.calls ++ [KernCall.swi no] }
    else .ub

/-- `pseudokern_swi_c`. -/
def pseudokern_swi_c (ndebug : Bool) (s : KernState) (no : Nat)
    (in_ptr out_ptr carry_ptr : Bool) (allow : Bool) (real : Option kernel_oserror) :
    Outcome KernState (Option kernel_oserror) :=
  if assert_fails ndebug in_ptr then .abort s else
  if assert_fails ndebug out_ptr then .abort s else
  if assert_fails ndebug carry_ptr then .abort s else
  let e := if (kernel_NONX &&& no) == 0 then pseudokern_fail allow else none
  match e with
  | some err => .ret (some err) s
  | none =>
    if in_ptr && out_ptr && carry_ptr then
      .ret real { s with calls := s.calls ++ [KernCall.swi_c no] }
    else .ub

/-- The real redraw calls report two rectangles, then an error. -/
def two_rectangles (k : Nat) : RedrawAnswer :=
  if k < 2 then { e := none, more := 1 }
  else { e := some { errnum := 1, errmess := "bad" }, more := 0 }

/-- Real calls made by a veneer call that returned, with the value returned. -/
def redraw_report (s : WimpState)
    (o : Option (Outcome WimpState (Option kernel_oserror))) :
    Option (Option kernel_oserror × List WimpCall) :=
  match o with
  | some (.ret e s') => some (e, s'.calls.drop s.calls.length)
  | _ => none

/-- The real redraw calls report that no rectangle is left (`*more == 0`) and
no error, however often they are called. -/
def no_rectangles (_ : Nat) : RedrawAnswer := { e := none, more := 0 }

/-- The real redraw calls report that no rectangle is left; from the fourth
call on they report an error. -/
def empty_then_error (k : Nat) : RedrawAnswer :=
  if k < 3 then { e := none, more := 0 }
  else { e := some { errnum := 1, errmess := "bad" }, more := 0 }

/-! ## PseudoTbox.c -/

/-- `NULL_ObjectId` of the Toolbox library. -/
def NULL_ObjectId : Nat := 0

/-- Record of one Toolbox object (`PseudoTbox_Object`). -/
structure PseudoTbox_Object where
  object_id : Nat
  is_showing : Bool
deriving DecidableEq, Repr

/-- Calls made to the real Toolbox library. -/
inductive TboxCall where
  | create_object (flags template : Nat) : TboxCall
  | delete_object (flags id : Nat) : TboxCall
  | show_object (flags id : Nat) (show_type : Int) (type parent parent_component : Nat) :
      TboxCall
  | hide_object (flags id : Nat) : TboxCall
  | saveas_buffer_filled (flags saveas : Nat) (buffer : List Nat) (bytes_written : Int) :
      TboxCall
  | saveas_file_save_completed (flags saveas : Nat) (filename : List Char) : TboxCall
  | get_template_name (flags id : Nat) : TboxCall
deriving DecidableEq, Repr

/-- Static data of `PseudoTbox.c` and the trace of real calls.
`buffer_filled_buffer i` is byte `i` of the array of `buffer_size` bytes;
`file_save_completed_filename` is the string held in its character array. -/
structure TboxState where
  objects : List PseudoTbox_Object
  buffer_filled_flags : Nat
  buffer_filled_id : Nat
  buffer_filled_buffer : Nat → Nat
  buffer_filled_bytes_written : Int
  intercept_saveas_buffer_filled : Bool
  file_save_completed_flags : Nat
  file_save_completed_id : Nat
  file_save_completed_filename : List Char
  intercept_file_save_completed : Bool
  calls : List TboxCall

/-- `sizeof(buffer_filled_buffer)`, that is `128 << 10`. -/
def buffer_size : Nat := 131072

/-- State at program start. -/
def tbox_start : TboxState :=
  { objects := []
    buffer_filled_flags := 0
    buffer_filled_id := NULL_ObjectId
    buffer_filled_buffer := fun _ => 0
    buffer_filled_bytes_written := 0
    intercept_saveas_buffer_filled := false
    file_save_completed_flags := 0
    file_save_completed_id := NULL_ObjectId
    file_save_completed_filename := []
    intercept_file_save_completed := false
    calls := [] }

/-- `object_id_matches` with argument `id`. -/
def object_id_matches (id : Nat) (record : PseudoTbox_Object) : Bool :=
  id == record.object_id

/-- Assignment `record->is_showing = v` through the pointer returned by
`linkedlist_for_each(&objects, object_id_matches, &id)`; nothing happens when
the pointer is null. -/
def set_showing : List PseudoTbox_Object → Nat → Bool → List PseudoTbox_Object
  | [], _, _ => []
  | r :: rs, id, v =>
    if object_id_matches id r then { r with is_showing := v } :: rs
    else r :: set_showing rs id v

/-- `pseudo_saveas_reset_buffer_filled`. -/
def pseudo_saveas_reset_buffer_filled (s : TboxState) : TboxState :=
  { s with
    buffer_filled_flags := 0
    buffer_filled_id := NULL_ObjectId
    buffer_filled_buffer := fun _ => 0
    buffer_filled_bytes_written := 0
    intercept_saveas_buffer_filled := true }

/-- `pseudo_saveas_reset_file_save_completed`. -/
def pseudo_saveas_reset_file_save_completed (s : TboxState) : TboxState :=
  { s with
    file_save_completed_flags := 0
    file_save_completed_id := NULL_ObjectId
    file_save_completed_filename := []
    intercept_file_save_completed := true }

/-- What `pseudo_saveas_get_buffer_filled` hands back when all its pointers
are non-null: the object id returned, `*flags`, the bytes copied to `buffer`
and `*nbytes`. -/
structure BufferFilled where
  id : Nat
  flags : Nat
  data : List Nat
  nbytes : Int
deriving DecidableEq, Repr

/-- `LOWEST(a, b)` of `Internal/CBDebMisc.h`. -/
def LOWEST (a b : Int) : Int := if a < b then a else b

/-- `pseudo_saveas_get_buffer_filled` (called with `buff_size ≥ 0`). -/
def pseudo_saveas_get_buffer_filled (s : TboxState) (buff_size : Int) : BufferFilled :=
  { id := s.buffer_filled_id
    flags := s.buffer_filled_flags
    data := (List.range (LOWEST buff_size s.buffer_filled_bytes_written).toNat).map
      s.buffer_filled_buffer
    nbytes := s.buffer_filled_bytes_written }

/-- `pseudo_saveas_buffer_filled`; `buffer` is the content of the caller's
buffer, `allow` the answer of the failure oracle and `real` the result of the
real `saveas_buffer_filled`, both used only if the code asks for them. -/
def pseudo_saveas_buffer_filled (ndebug : Bool) (s : TboxState) (flags saveas : Nat)
    (buffer : List Nat) (bytes_written : Int) (allow : Bool)
    (real : Option kernel_oserror) : Outcome TboxState (Option kernel_oserror) :=
  if s.intercept_saveas_buffer_filled then
    let s1 := { s with buffer_filled_flags := flags }
    if assert_fails ndebug (decide (bytes_written ≥ 0)) then .abort s1 else
    if assert_fails ndebug (decide (to_size_t bytes_written ≤ buffer_size)) then .abort s1 else
    let n := to_size_t bytes_written
    if buffer_size < n ∨ buffer.length < n then .ub else
    .ret none { s1 with
      buffer_filled_buffer := fun i => if i < n then buffer.getD i 0 else s.buffer_filled_buffer i
      buffer_filled_bytes_written := bytes_written
      buffer_filled_id := saveas
      intercept_saveas_buffer_filled := false }
  else
    match pseudokern_fail allow with
    | some e => .ret (some e) s
    | none =>
      .ret real { s with calls := s.calls ++
        [TboxCall.saveas_buffer_filled flags saveas buffer bytes_written] }

/-- What `pseudo_saveas_get_file_save_completed` hands back when all its
pointers are non-null: the object id returned, `*flags`, the string left in
`buffer` (`none` when `buff_size ≤ 0`: the buffer is not written) and `*nbytes`. -/
structure FileSaveCompleted where
  id : Nat
  flags : Nat
  name : Option (List Char)
  nbytes : Nat
deriving DecidableEq, Repr

/-- `pseudo_saveas_get_file_save_completed`. -/
def pseudo_saveas_get_file_save_completed (s : TboxState) (buff_size : Int) :
    FileSaveCompleted :=
  { id := s.file_save_completed_id
    flags := s.file_save_completed_flags
    name := if buff_size > 0 then
        some (s.file_save_completed_filename.take (buff_size - 1).toNat)
      else none
    nbytes := s.file_save_completed_filename.length + 1 }

/-- `pseudo_saveas_file_save_completed`; `name_size` is the size of the array
`file_save_completed_filename`, fixed by the Toolbox header `saveas.h`
(`sizeof(SaveAsSaveToFileEvent) - offsetof(SaveAsSaveToFileEvent, filename)`). -/
def pseudo_saveas_file_save_completed (name_size : Nat) (s : TboxState)
    (flags saveas : Nat) (filename : List Char) (allow : Bool)
    (real : Option kernel_oserror) : Outcome TboxState (Option kernel_oserror) :=
  if s.intercept_file_save_completed then
    .ret none { s with
      file_save_completed_flags := flags
      file_save_completed_id := saveas
      file_save_completed_filename := filename.take (name_size - 1)
      intercept_file_save_completed := false }
  else
    match pseudokern_fail allow with
    | some e => .ret (some e) s
    | none =>
      .ret real { s with calls := s.calls ++
        [TboxCall.saveas_file_save_completed flags saveas filename] }

/-- `pseudo_toolbox_object_created`; `mem` tells whether `malloc` succeeded. -/
def pseudo_toolbox_object_created (s : TboxState) (id : Nat) (mem : Bool) : TboxState :=
  if mem then
    { s with objects := { object_id := id, is_showing := false } :: s.objects }
  else s

/-- `pseudo_toolbox_object_deleted`. -/
def pseudo_toolbox_object_deleted (s : TboxState) (id : Nat) : TboxState :=
  match s.objects.find? (object_id_matches id) with
  | some _ => { s with objects := s.objects.eraseP (object_id_matches id) }
  | none => s

/-- `pseudo_toolbox_create_object`; `mem` tells whether `malloc` succeeded,
`real` is the result of the real `toolbox_create_object` and `new_id` the object
id it stores. Returns the error pointer. -/
def pseudo_toolbox_create_object (s : TboxState) (flags template : Nat) (mem allow : Bool)
    (real : Option kernel_oserror) (new_id : Nat) : Option kernel_oserror × TboxState :=
  if mem then
    match pseudokern_fail allow with
    | some e => (some e, s)
    | none =>
      let s1 := { s with calls := s.calls ++ [TboxCall.create_object flags template] }
      match real with
      | none =>
        (none, { s1 with objects := { object_id := new_id, is_showing := false } :: s1.objects })
      | some e => (some e, s1)
  else (some NoMem, s)

/-- `pseudo_toolbox_delete_object`. -/
def pseudo_toolbox_delete_object (s : TboxState) (flags id : Nat)
    (real : Option kernel_oserror) : Option kernel_oserror × TboxState :=
  let s1 := pseudo_toolbox_object_deleted s id
  (real, { s1 with calls := s1.calls ++ [TboxCall.delete_object flags id] })

/-- `pseudo_toolbox_show_object`. -/
def pseudo_toolbox_show_object (s : TboxState) (flags id : Nat) (show_type : Int)
    (type parent parent_component : Nat) (allow : Bool) (real : Option kernel_oserror) :
    Option kernel_oserror × TboxState :=
  match pseudokern_fail allow with
  | some e => (some e, s)
  | none =>
    (real, { s with
      objects := set_showing s.objects id true
      calls := s.calls ++
        [TboxCall.show_object flags id show_type type parent parent_component] })

/-- `pseudo_toolbox_hide_object`. -/
def pseudo_toolbox_hide_object (s : TboxState) (flags id : Nat) (allow : Bool)
    (real : Option kernel_oserror) : Option kernel_oserror × TboxState :=
  match pseudokern_fail allow with
  | some e => (some e, s)
  | none =>
    (real, { s with
      objects := set_showing s.objects id false
      calls := s.calls ++ [TboxCall.hide_object flags id] })

/-- `pseudo_toolbox_object_is_showing`. -/
def pseudo_toolbox_object_is_showing (s : TboxState) (id : Nat) : Bool :=
  match s.objects.find? (object_id_matches id) with
  | some record => record.is_showing
  | none => false

/-- Object ids of the records held, in list order. -/
def recorded_ids (s : TboxState) : List Nat := s.objects.map fun r => r.object_id

/-- Object 7 is created and shown, then created a second time. -/
def twice_created : TboxState :=
  pseudo_toolbox_object_created
    (pseudo_toolbox_show_object (pseudo_toolbox_object_created tbox_start 7 true)
      0 7 0 0 0 0 true none).2 7 true

/-- What the real `toolbox_get_template_name` answers for an object: the error
pointer, the string written to the buffer and the value stored in `*nbytes`. -/
structure TemplateAnswer where
  e : Option kernel_oserror
  buffer : List Char
  nbytes : Int
deriving DecidableEq, Repr

/-- `linkedlist_for_each(&objects, template_name_matches, template_name)`:
the records are visited from the head, the real Toolbox is asked for the
template name of each (into a buffer of 256 bytes) and the first record whose
name compares equal is returned. -/
def template_name_search (ndebug : Bool) (real : Nat → TemplateAnswer)
    (template_name : List Char) :
    TboxState → List PseudoTbox_Object → Outcome TboxState (Option PseudoTbox_Object)
  | s, [] => .ret none s
  | s, record :: rest =>
    let s1 := { s with calls := s.calls ++ [TboxCall.get_template_name 0 record.object_id] }
    match (real record.object_id).e with
    | some _ => template_name_search ndebug real template_name s1 rest
    | none =>
      if assert_fails ndebug (decide ((real record.object_id).nbytes ≥ 0)) then .abort s1 else
      if assert_fails ndebug (decide (to_size_t (real record.object_id).nbytes ≤ 256))
        then .abort s1 else
      if (real record.object_id).buffer == template_name then .ret (some record) s1
      else template_name_search ndebug real template_name s1 rest

/-- `pseudo_toolbox_find_by_template_name`. -/
def pseudo_toolbox_find_by_template_name (ndebug : Bool) (s : TboxState)
    (template_name : List Char) (real : Nat → TemplateAnswer) : Outcome TboxState Nat :=
  (template_name_search ndebug real template_name s s.objects).bind fun item s1 =>
    match item with
    | none => .ret NULL_ObjectId s1
    | some record => .ret record.object_id s1

/-- The real Toolbox reports, without error, the name `template_name` for the
object of this record. -/
def template_matches (real : Nat → TemplateAnswer) (template_name : List Char)
    (record : PseudoTbox_Object) : Bool :=
  (real record.object_id).e.isNone && (real record.object_id).buffer == template_name

/-- The answers of the real Toolbox for the recorded objects respect the
buffer: `0 ≤ nbytes ≤ 256` whenever no error is returned. -/
def answers_fit (real : Nat → TemplateAnswer) (l : List PseudoTbox_Object) : Prop :=
  ∀ r ∈ l, (real r.object_id).e = none →
    0 ≤ (real r.object_id).nbytes ∧ (real r.object_id).nbytes ≤ 256

/-- Objects 1, 2, 3 were created in this order; 1 and 2 come from the
template "win", 3 from "menu". -/
def three_objects : TboxState :=
  { tbox_start with objects := [⟨3, false⟩, ⟨2, false⟩, ⟨1, false⟩] }

/-- Template names of the objects of `three_objects`; an error for any other id. -/
def three_names (id : Nat) : TemplateAnswer :=
  if id = 3 then { e := none, buffer := ['m', 'e', 'n', 'u'], nbytes := 5 }
  else if id = 1 ∨ id = 2 then { e := none, buffer := ['w', 'i', 'n'], nbytes := 4 }
  else { e := some NoMem, buffer := [], nbytes := 0 }

/-- Arguments of one call of `pseudo_saveas_file_save_completed` with the
answers of the oracle and of the real function. -/
structure FileSaveCall where
  flags : Nat
  saveas : Nat
  filename : List Char
  allow : Bool
  real : Option kernel_oserror
deriving DecidableEq, Repr

/-- Arguments of one call of `pseudo_saveas_buffer_filled` with the answers of
the oracle and of the real function. -/
structure BufferCall where
  flags : Nat
  saveas : Nat
  buffer : List Nat
  bytes_written : Int
  allow : Bool
  real : Option kernel_oserror
deriving DecidableEq, Repr

/-- A run of consecutive calls of `pseudo_saveas_file_save_completed`. -/
def file_save_completed_all (name_size : Nat) : TboxState → List FileSaveCall →
    Outcome TboxState (List (Option kernel_oserror))
  | s, [] => .ret [] s
  | s, c :: cs =>
    (pseudo_saveas_file_save_completed name_size s c.flags c.saveas c.filename c.allow
      c.real).bind
      fun r s1 => (file_save_completed_all name_size s1 cs).bind fun rs s2 => .ret (r :: rs) s2

/-- A run of consecutive calls of `pseudo_saveas_buffer_filled`. -/
def buffer_filled_all (ndebug : Bool) : TboxState → List BufferCall →
    Outcome TboxState (List (Option kernel_oserror))
  | s, [] => .ret [] s
  | s, c :: cs =>
    (pseudo_saveas_buffer_filled ndebug s c.flags c.saveas c.buffer c.bytes_written c.allow
      c.real).bind
      fun r s1 => (buffer_filled_all ndebug s1 cs).bind fun rs s2 => .ret (r :: rs) s2

/-- Two notifications: "a" saved by object 7, then "b" saved by object 8. -/
def two_saves : List FileSaveCall :=
  [{ flags := 1, saveas := 7, filename := ['a'], allow := true, real := none },
   { flags := 2, saveas := 8, filename := ['b'], allow := true, real := none }]

/-- Two buffers: one byte 5 from object 7, then two bytes from object 8. -/
def two_buffers : List BufferCall :=
  [{ flags := 1, saveas := 7, buffer := [5], bytes_written := 1, allow := true, real := none },
   { flags := 2, saveas := 8, buffer := [6, 6], bytes_written := 2, allow := true,
     real := none }]

/-- Result of a call that is not intercepted. -/
def passed_on (allow : Bool) (real : Option kernel_oserror) : Option kernel_oserror :=
  if allow then real else some NoMem

/-! ## PseudoEvnt.c -/

/-- Record of a Wimp event handler (`PseudoEvent_Wimp_Handler`). -/
structure PseudoEvent_Wimp_Handler where
  object_id : Nat
  event_code : Int
  handler : Nat
  handle : Nat
deriving DecidableEq, Repr

/-- Record of a Toolbox event handler (`PseudoEvent_Toolbox_Handler`). -/
structure PseudoEvent_Toolbox_Handler where
  object_id : Nat
  event_code : Int
  handler : Nat
  handle : Nat
deriving DecidableEq, Repr

/-- Record of a message handler (`PseudoEvent_Message_Handler`). -/
structure PseudoEvent_Message_Handler where
  msg_no : Int
  handler : Nat
  handle : Nat
deriving DecidableEq, Repr

/-- Calls made to the real event library. -/
inductive EventCall where
  | register_toolbox_handler (object_id : Nat) (event_code : Int) (handler handle : Nat) :
      EventCall
  | deregister_toolbox_handler (object_id : Nat) (event_code : Int)
      (handler handle : Nat) : EventCall
  | register_message_handler (msg_no : Int) (handler handle : Nat) : EventCall
  | deregister_message_handler (msg_no : Int) (handler handle : Nat) : EventCall
  | register_wimp_handler (object_id : Nat) (event_code : Int) (handler handle : Nat) :
      EventCall
  | deregister_wimp_handler (object_id : Nat) (event_code : Int) (handler handle : Nat) :
      EventCall
  | deregister_toolbox_handlers_for_object (object_id : Nat) : EventCall
  | deregister_wimp_handlers_for_object (object_id : Nat) : EventCall
deriving DecidableEq, Repr

/-- The three handler lists of `PseudoEvnt.c` and the trace of real calls. -/
structure EventState where
  wimp_handlers : List PseudoEvent_Wimp_Handler
  tb_handlers : List PseudoEvent_Toolbox_Handler
  msg_handlers : List PseudoEvent_Message_Handler
  calls : List EventCall
deriving DecidableEq, Repr

/-- `toolbox_handler_matches` with argument `to_match`. -/
def toolbox_handler_matches (to_match record : PseudoEvent_Toolbox_Handler) : Bool :=
  to_match.object_id == record.object_id && to_match.event_code == record.event_code &&
  to_match.handler == record.handler && to_match.handle == record.handle

/-- `message_handler_matches` with argument `to_match`. -/
def message_handler_matches (to_match record : PseudoEvent_Message_Handler) : Bool :=
  to_match.msg_no == record.msg_no && to_match.handler == record.handler &&
  to_match.handle == record.handle

/-- `wimp_handler_matches` with argument `to_match`. -/
def wimp_handler_matches (to_match record : PseudoEvent_Wimp_Handler) : Bool :=
  to_match.object_id == record.object_id && to_match.event_code == record.event_code &&
  to_match.handler == record.handler && to_match.handle == record.handle

/-- `pseudo_event_register_toolbox_handler`; `mem` tells whether
`Fortify_malloc` succeeded, `real` is the result of the real call. -/
def pseudo_event_register_toolbox_handler (s : EventState) (object_id : Nat)
    (event_code : Int) (handler handle : Nat) (mem : Bool) (real : Option kernel_oserror) :
    Option kernel_oserror × EventState :=
  if mem then
    let s1 := { s with calls := s.calls ++
      [EventCall.register_toolbox_handler object_id event_code handler handle] }
    match real with
    | none =>
      (none, { s1 with tb_handlers :=
        { object_id := object_id, event_code := event_code, handler := handler,
          handle := handle } :: s1.tb_handlers })
    | some e => (some e, s1)
  else (some NoMem, s)

/-- `pseudo_event_deregister_toolbox_handler`. With `NDEBUG` defined and no
matching record, a null pointer goes to `linkedlist_remove` and `Fortify_free`. -/
def pseudo_event_deregister_toolbox_handler (ndebug : Bool) (s : EventState)
    (object_id : Nat) (event_code : Int) (handler handle : Nat)
    (real : Option kernel_oserror) : Outcome EventState (Option kernel_oserror) :=
  let to_match : PseudoEvent_Toolbox_Handler :=
    { object_id := object_id, event_code := event_code, handler := handler, handle := handle }
  match s.tb_handlers.find? (toolbox_handler_matches to_match) with
  | none => if assert_fails ndebug false then .abort s else .ub
  | some _ =>
    .ret real { s with
      tb_handlers := s.tb_handlers.eraseP (toolbox_handler_matches to_match)
      calls := s.calls ++
        [EventCall.deregister_toolbox_handler object_id event_code handler handle] }

/-- `pseudo_event_register_message_handler`. -/
def pseudo_event_register_message_handler (s : EventState) (msg_no : Int)
    (handler handle : Nat) (mem : Bool) (real : Option kernel_oserror) :
    Option kernel_oserror × EventState :=
  if mem then
    let s1 := { s with calls := s.calls ++
      [EventCall.register_message_handler msg_no handler handle] }
    match real with
    | none =>
      (none, { s1 with msg_handlers :=
        { msg_no := msg_no, handler := handler, handle := handle } :: s1.msg_handlers })
    | some e => (some e, s1)
  else (some NoMem, s)

/-- `pseudo_event_deregister_message_handler`. -/
def pseudo_event_deregister_message_handler (ndebug : Bool) (s : EventState)
    (msg_no : Int) (handler handle : Nat) (real : Option kernel_oserror) :
    Outcome EventState (Option kernel_oserror) :=
  let to_match : PseudoEvent_Message_Handler :=
    { msg_no := msg_no, handler := handler, handle := handle }
  match s.msg_handlers.find? (message_handler_matches to_match) with
  | none => if assert_fails ndebug false then .abort s else .ub
  | some _ =>
    .ret real { s with
      msg_handlers := s.msg_handlers.eraseP (message_handler_matches to_match)
      calls := s.calls ++ [EventCall.deregister_message_handler msg_no handler handle] }

/-- `pseudo_event_register_wimp_handler`. -/
def pseudo_event_register_wimp_handler (s : EventState) (object_id : Nat)
    (event_code : Int) (handler handle : Nat) (mem : Bool) (real : Option kernel_oserror) :
    Option kernel_oserror × EventState :=
  if mem then
    let s1 := { s with calls := s.calls ++
      [EventCall.register_wimp_handler object_id event_code handler handle] }
    match real with
    | none =>
      (none, { s1 with wimp_handlers :=
        { object_id := object_id, event_code := event_code, handler := handler,
          handle := handle } :: s1.wimp_handlers })
    | some e => (some e, s1)
  else (some NoMem, s)

/-- `pseudo_event_deregister_wimp_handler`. -/
def pseudo_event_deregister_wimp_handler (ndebug : Bool) (s : EventState)
    (object_id : Nat) (event_code : Int) (handler handle : Nat)
    (real : Option kernel_oserror) : Outcome EventState (Option kernel_oserror) :=
  let to_match : PseudoEvent_Wimp_Handler :=
    { object_id := object_id, event_code := event_code, handler := handler, handle := handle }
  match s.wimp_handlers.find? (wimp_handler_matches to_match) with
  | none => if assert_fails ndebug false then .abort s else .ub
  | some _ =>
    .ret real { s with
      wimp_handlers := s.wimp_handlers.eraseP (wimp_handler_matches to_match)
      calls := s.calls ++
        [EventCall.deregister_wimp_handler object_id event_code handler handle] }

/-- The tuple (object 1, event 2, handler 3, handle 4) is registered as a Wimp
handler only. -/
def wimp_only : EventState :=
  { wimp_handlers := [{ object_id := 1, event_code := 2, handler := 3, handle := 4 }]
    tb_handlers := []
    msg_handlers := []
    calls := [] }

/-- One handler of each kind is registered: Toolbox and Wimp handlers for
event 2 on object 1 with handler 3 and handle 4, a handler for message 2. -/
def one_each : EventState :=
  { wimp_handlers := [{ object_id := 1, event_code := 2, handler := 3, handle := 4 }]
    tb_handlers := [{ object_id := 1, event_code := 2, handler := 3, handle := 4 }]
    msg_handlers := [{ msg_no := 2, handler := 3, handle := 4 }]
    calls := [] }

/-! ## PseudoEvnt.c: removal by object, and waiting for idle -/

/-- `linkedlist_for_each(&tb_handlers, deregister_toolbox_handlers_for_object,
&object_id)`: the records are visited once each from the head (the list
library reads the link to the next item before it calls back, so that the item
visited may be removed); the callback unlinks and frees the record when
`*object_id == record->object_id` and always returns `false`. -/
def deregister_toolbox_handlers_for_object (object_id : Nat) :
    List PseudoEvent_Toolbox_Handler → List PseudoEvent_Toolbox_Handler
  | [] => []
  | record :: rest =>
    if object_id == record.object_id then
      deregister_toolbox_handlers_for_object object_id rest
    else record :: deregister_toolbox_handlers_for_object object_id rest

/-- `pseudo_event_deregister_toolbox_handlers_for_object`; `real` is the
result of the real call. -/
def pseudo_event_deregister_toolbox_handlers_for_object (s : EventState) (object_id : Nat)
    (real : Option kernel_oserror) : Option kernel_oserror × EventState :=
  (real, { s with
    tb_handlers := deregister_toolbox_handlers_for_object object_id s.tb_handlers
    calls := s.calls ++ [EventCall.deregister_toolbox_handlers_for_object object_id] })

/-- `linkedlist_for_each(&wimp_handlers, deregister_wimp_handlers_for_object,
&object_id)`. -/
def deregister_wimp_handlers_for_object (object_id : Nat) :
    List PseudoEvent_Wimp_Handler → List PseudoEvent_Wimp_Handler
  | [] => []
  | record :: rest =>
    if object_id == record.object_id then
      deregister_wimp_handlers_for_object object_id rest
    else record :: deregister_wimp_handlers_for_object object_id rest

/-- `pseudo_event_deregister_wimp_handlers_for_object`. -/
def pseudo_event_deregister_wimp_handlers_for_object (s : EventState) (object_id : Nat)
    (real : Option kernel_oserror) : Option kernel_oserror × EventState :=
  (real, { s with
    wimp_handlers := deregister_wimp_handlers_for_object object_id s.wimp_handlers
    calls := s.calls ++ [EventCall.deregister_wimp_handlers_for_object object_id] })

/-- Handlers of both kinds for objects 1, 2, 1, 3, in list order. -/
def four_handlers : EventState :=
  { wimp_handlers := [⟨1, 10, 3, 4⟩, ⟨2, 11, 3, 4⟩, ⟨1, 12, 3, 4⟩, ⟨3, 13, 3, 4⟩]
    tb_handlers := [⟨1, 10, 3, 4⟩, ⟨2, 11, 3, 4⟩, ⟨1, 12, 3, 4⟩, ⟨3, 13, 3, 4⟩]
    msg_handlers := [⟨2, 3, 4⟩]
    calls := [] }

/-- Event code `Wimp_EToolboxEvent`. -/
def Wimp_EToolboxEvent : Int := 0x200

/-- Toolbox event `Toolbox_ObjectAutoCreated`. -/
def Toolbox_ObjectAutoCreated : Int := 0x44ec1

/-- Toolbox event `Toolbox_ObjectDeleted`. -/
def Toolbox_ObjectDeleted : Int := 0x44ec2

/-- Bit `Wimp_Poll_NullMask` of the poll mask. -/
def Wimp_Poll_NullMask : Nat := 1

/-- What the world outside answers during one turn of the loop of
`pseudo_event_wait_for_idle`: the result of `event_get_mask` and the mask it
stores, the result of `wimp_poll` with the event code it stores, the Toolbox
event code found in the poll block and the `self_id` found in the client's id
block, whether `malloc` succeeds in `pseudo_toolbox_object_created`, and the
result of `event_dispatch`. -/
structure IdleAnswer where
  mask_e : Option kernel_oserror
  mask : Nat
  poll_e : Option kernel_oserror
  event_code : Int
  tb_event_code : Int
  self_id : Nat
  mem : Bool
  dispatch_e : Option kernel_oserror
deriving DecidableEq, Repr

/-- Real calls made by `pseudo_event_wait_for_idle`. -/
inductive IdleCall where
  | get_mask : IdleCall
  | wimp_poll (mask : Nat) : IdleCall
  | dispatch (event_code : Int) : IdleCall
deriving DecidableEq, Repr

/-- Data that `pseudo_event_wait_for_idle` works on: whether `client_block` is
non-null, the data of `PseudoTbox.c` (changed by `print_event`) and the trace
of real calls. -/
structure IdleState where
  client_block : Bool
  tbox : TboxState
  calls : List IdleCall

/-- `print_event` (its debugging output left out). -/
def print_event (s : IdleState) (event_code tb_event_code : Int) (self_id : Nat)
    (mem : Bool) : IdleState :=
  if event_code == Wimp_EToolboxEvent then
    if tb_event_code == Toolbox_ObjectAutoCreated then
      if s.client_block then
        { s with tbox := pseudo_toolbox_object_created s.tbox self_id mem }
      else s
    else if tb_event_code == Toolbox_ObjectDeleted then
      if s.client_block then
        { s with tbox := pseudo_toolbox_object_deleted s.tbox self_id }
      else s
    else s
  else s

/-- Values of `e` and `event_code` at the end of one turn of the loop, with
the state. The event code is read by the loop condition only when `e` is null,
and then `wimp_poll` has stored it in this turn. -/
structure IdleStep where
  e : Option kernel_oserror
  event_code : Int
  s : IdleState

/-- Body of the `do` loop of `pseudo_event_wait_for_idle`. -/
def idle_body (a : IdleAnswer) (s : IdleState) : IdleStep :=
  let s1 := { s with calls := s.calls ++ [IdleCall.get_mask] }
  match a.mask_e with
  | some err => { e := some err, event_code := a.event_code, s := s1 }
  | none =>
    let s2 := { s1 with calls := s1.calls ++
      [IdleCall.wimp_poll (a.mask &&& (0xFFFFFFFF - Wimp_Poll_NullMask))] }
    match a.poll_e with
    | some err => { e := some err, event_code := a.event_code, s := s2 }
    | none =>
      if a.event_code != Wimp_ENull then
        let s3 := print_event s2 a.event_code a.tb_event_code a.self_id a.mem
        { e := a.dispatch_e, event_code := a.event_code
          s := { s3 with calls := s3.calls ++ [IdleCall.dispatch a.event_code] } }
      else { e := none, event_code := a.event_code, s := s2 }

/-- The `do ... while (e == NULL && event_code != Wimp_ENull && count-- > 0)`
loop: the first argument is the value of `count` when the body is entered,
the second the number of turns made so far (turn `k` is answered by `real k`). -/
def idle_loop (real : Nat → IdleAnswer) :
    Nat → Nat → IdleState → Option kernel_oserror × IdleState
  | 0, k, s => ((idle_body (real k) s).e, (idle_body (real k) s).s)
  | count + 1, k, s =>
    if (idle_body (real k) s).e.isNone && (idle_body (real k) s).event_code != Wimp_ENull then
      idle_loop real count (k + 1) (idle_body (real k) s).s
    else ((idle_body (real k) s).e, (idle_body (real k) s).s)

/-- `pseudo_event_wait_for_idle`. -/
def pseudo_event_wait_for_idle (s : IdleState) (real : Nat → IdleAnswer) :
    Option kernel_oserror × IdleState :=
  idle_loop real 511 0 s

/-- A turn of the loop in which a null event is received without error. -/
def IdleAnswer.is_null (a : IdleAnswer) : Prop :=
  a.mask_e = none ∧ a.poll_e = none ∧ a.event_code = Wimp_ENull

/-- A turn of the loop in which an event other than the null event is
received and dispatched without error. -/
def IdleAnswer.is_dispatched (a : IdleAnswer) : Prop :=
  a.mask_e = none ∧ a.poll_e = none ∧ a.event_code ≠ Wimp_ENull ∧ a.dispatch_e = none

/-- State at program start, before `pseudo_event_initialise`. -/
def idle_start : IdleState :=
  { client_block := false, tbox := tbox_start, calls := [] }

/-- A world in which a redraw request (event code 1) is always pending. -/
def always_busy (_ : Nat) : IdleAnswer :=
  { mask_e := none, mask := 0, poll_e := none, event_code := 1, tb_event_code := 0,
    self_id := 0, mem := true, dispatch_e := none }

/-- A world in which two redraw requests are pending, then nothing. -/
def two_events (k : Nat) : IdleAnswer :=
  { mask_e := none, mask := 0, poll_e := none, event_code := if k < 2 then 1 else 0,
    tb_event_code := 0, self_id := 0, mem := true, dispatch_e := none }

/-! ## PseudoExit.c -/

/-- Static data of `PseudoExit.c`: the saved `jmp_buf` (named by a number) and
the flag `exit_pending`. -/
structure ExitState where
  exit_target : Nat
  exit_pending : Bool
deriving DecidableEq, Repr

/-- How a call of `pseudo_exit` ends: execution resumes at the `setjmp` that
filled `env`, which returns `value`, or the program terminates with `status`. -/
inductive ExitResult where
  | resumed (env : Nat) (value : Int) : ExitResult
  | terminated (status : Int) : ExitResult
deriving DecidableEq, Repr

/-- Value that `setjmp` returns after `longjmp(env, val)` (ISO C: `val`, or 1
when `val` is 0). -/
def longjmp_value (val : Int) : Int := if val == 0 then 1 else val

/-- State at program start. -/
def exit_start : ExitState := { exit_target := 0, exit_pending := false }

/-- `pseudo_exit`; `status + 1` is computed in `int`. -/
def pseudo_exit (s : ExitState) (status : Int) : ExitResult × ExitState :=
  if s.exit_pending then
    (ExitResult.resumed s.exit_target (longjmp_value (wrap_int (status + 1))),
      { s with exit_pending := false })
  else (ExitResult.terminated status, s)

/-- `pseudo_exit_set_target`. -/
def pseudo_exit_set_target (_ : ExitState) (env : Nat) : ExitState :=
  { exit_target := env, exit_pending := true }

/-! ## Theorems -/

/-! ### Arithmetic and list helpers -/

theorem wrap_int_id (x : Int) (h1 : -2 ^ 31 ≤ x) (h2 : x < 2 ^ 31) : wrap_int x = x := by
  unfold wrap_int
  rw [Int.emod_eq_of_lt (by omega) (by omega)]
  omega

theorem to_size_t_natCast (k : Nat) (h : k < 2 ^ 32) : to_size_t (k : Int) = k := by
  unfold to_size_t
  rw [Int.emod_eq_of_lt (by omega) (by omega)]
  simp

theorem upd_same {β : Type} (m : Nat → β) (a : Nat) (v : β) : upd m a v a = v := by
  simp [upd]

theorem upd_other {β : Type} (m : Nat → β) (a x : Nat) (v : β) (h : x ≠ a) :
    upd m a v x = m x := by
  simp [upd, h]

theorem find_set_size (l : List PseudoFlexRecord) (anchor : Nat) (v : Int)
    (pfr : PseudoFlexRecord) (h : l.find? (fun r => r.anchor == anchor) = some pfr) :
    (set_size l anchor v).find? (fun r => r.anchor == anchor)
      = some { pfr with size := v } := by
  induction l with
  | nil => simp at h
  | cons r rs ih =>
    by_cases hr : r.anchor = anchor
    · simp [List.find?, hr] at h
      subst h
      simp [set_size, List.find?, hr]
    · have hr2 : (r.anchor == anchor) = false := by simpa using hr
      simp only [List.find?, hr2] at h
      simp [set_size, hr2, List.find?, ih h]

/-! ### PseudoFlex_midextend -/

/-- Removal path of `PseudoFlex_midextend` computed in full: the replacement
block holds the old bytes below `a - r` followed by the old bytes from `a`. -/
theorem midextend_remove_state (ndebug : Bool) (s : FlexState) (anchor a r n : Nat)
    (c : List Nat) (f : Fresh) (pfr : PseudoFlexRecord)
    (hanchor : anchor ≠ 0)
    (hrec : find_anchor s anchor = some pfr) (hsize : pfr.size = (n : Int))
    (hn : n < 2 ^ 31)
    (hblk : s.heap (s.anchors anchor) = some c) (hlen : c.length = n)
    (hr : 0 < r) (hra : r ≤ a) (han : a ≤ n)
    (hf : f.bytes.length = n - r) :
    PseudoFlex_midextend ndebug s anchor (a : Int) (-(r : Int)) (some f)
      = .ret 1 { s with
          heap := upd (upd s.heap f.addr (some (c.take (a - r) ++ c.drop a)))
                    (s.anchors anchor) none
          anchors := upd s.anchors anchor f.addr
          block_list := set_size s.block_list anchor ((n - r : Nat) : Int) } := by
  have e1 : (a : Int) + -(r : Int) = ((a - r : Nat) : Int) := by omega
  have e2 : (n : Int) + -(r : Int) = ((n - r : Nat) : Int) := by omega
  have e3 : (n : Int) - (a : Int) = ((n - a : Nat) : Int) := by omega
  have w : wrap_int ((n - r : Nat) : Int) = ((n - r : Nat) : Int) :=
    wrap_int_id _ (by omega) (by omega)
  have t1 : to_size_t ((a - r : Nat) : Int) = a - r := to_size_t_natCast _ (by omega)
  have t2 : to_size_t ((n - a : Nat) : Int) = n - a := to_size_t_natCast _ (by omega)
  have m1 : memcpy f.bytes 0 c 0 (a - r) = some (c.take (a - r) ++ f.bytes.drop (a - r)) := by
    unfold memcpy
    rw [if_pos (by constructor <;> omega)]
    simp
  have m2 : memcpy (c.take (a - r) ++ f.bytes.drop (a - r)) (a - r) c a (n - a)
      = some (c.take (a - r) ++ c.drop a) := by
    unfold memcpy
    rw [if_pos (by
      constructor
      · omega
      · simp only [List.length_append, List.length_take, List.length_drop]; omega)]
    have l1 : (c.take (a - r)).length = a - r := by simp; omega
    have h1 : (c.take (a - r) ++ f.bytes.drop (a - r)).take (a - r) = c.take (a - r) := by
      rw [List.take_append_of_le_length (by omega), List.take_of_length_le (by omega)]
    have h2 : (c.drop a).take (n - a) = c.drop a := by
      apply List.take_of_length_le; simp; omega
    have h3 : (c.take (a - r) ++ f.bytes.drop (a - r)).drop (a - r + (n - a)) = [] := by
      apply List.drop_of_length_le; simp; omega
    rw [h1, h2, h3]; simp
  have wneg : wrap_int (-(-(r : Int))) = (r : Int) := by
    rw [neg_neg]
    exact wrap_int_id _ (by omega) (by omega)
  unfold PseudoFlex_midextend
  have ha0 : assert_fails ndebug (anchor != 0) = false := by
    simp [assert_fails, hanchor]
  simp only [ha0, hrec, hsize, e1, e2, e3, w, wneg, t1, t2, hblk]
  simp [assert_fails, m1, m2]
  rw [if_neg (by rintro ⟨_, h⟩; omega), if_pos hr, if_neg (by rintro ⟨_, h⟩; omega),
    if_neg (by omega), if_neg (by omega)]

/-- `PseudoFlex_size` reads the size written by `set_size`. -/
theorem size_after_set_size (ndebug : Bool) (s s' : FlexState) (anchor : Nat) (v : Int)
    (pfr : PseudoFlexRecord) (hanchor : anchor ≠ 0)
    (hrec : find_anchor s anchor = some pfr)
    (hl : s'.block_list = set_size s.block_list anchor v) :
    PseudoFlex_size ndebug s' anchor = .ret v s' := by
  have h := find_set_size s.block_list anchor v pfr hrec
  unfold PseudoFlex_size find_anchor
  rw [hl, h]
  simp [assert_fails, hanchor]

/-- C1: for a registered block of size `n` with content `c`, removing `r > 0`
bytes at offset `a` (`by = -r`, `r ≤ a ≤ n`) with a successful replacement
allocation (a block of `n - r` bytes that is not the old block, still live at
that moment) returns 1, records the size `n - r`, keeps bytes `[0, a - r)` and
puts the old bytes `[a, n)` at `[a - r, n - r)`. -/
theorem PseudoFlex_midextend_remove (ndebug : Bool) (s : FlexState) (anchor a r n : Nat)
    (c : List Nat) (f : Fresh) (pfr : PseudoFlexRecord)
    (hanchor : anchor ≠ 0)
    (hrec : find_anchor s anchor = some pfr) (hsize : pfr.size = (n : Int))
    (hn : n < 2 ^ 31)
    (hblk : s.heap (s.anchors anchor) = some c) (hlen : c.length = n)
    (hr : 0 < r) (hra : r ≤ a) (han : a ≤ n)
    (hf : f.bytes.length = n - r) (hfresh : f.addr ≠ s.anchors anchor) :
    ∃ s' d, PseudoFlex_midextend ndebug s anchor (a : Int) (-(r : Int)) (some f) = .ret 1 s' ∧
      PseudoFlex_size ndebug s' anchor = .ret ((n : Int) + -(r : Int)) s' ∧
      s'.heap (s'.anchors anchor) = some d ∧
      d.length = n - r ∧
      (∀ i, i < a - r → d[i]? = (c)[i]?) ∧
      (∀ k, k < n - a → d[a - r + k]? = (c)[a + k]?) := by
  refine ⟨_, c.take (a - r) ++ c.drop a,
    midextend_remove_state ndebug s anchor a r n c f pfr hanchor hrec hsize hn hblk hlen
      hr hra han hf, ?_, ?_, ?_, ?_, ?_⟩
  · have e2 : (n : Int) + -(r : Int) = ((n - r : Nat) : Int) := by omega
    rw [e2]
    exact size_after_set_size ndebug s _ anchor _ pfr hanchor hrec rfl
  · simp only [upd_same]
    rw [upd_other _ _ _ _ hfresh, upd_same]
  · simp only [List.length_append, List.length_take, List.length_drop]; omega
  · intro i hi
    rw [List.getElem?_append_left (by simp; omega), List.getElem?_take_of_lt hi]
  · intro k _
    have l1 : (c.take (a - r)).length = a - r := by simp; omega
    rw [List.getElem?_append_right (by omega), l1, List.getElem?_drop]
    congr 1; omega

/-- C1 witness: "HELLOWORLD", `a = 5`, `r = 3`. -/
theorem PseudoFlex_midextend_remove_witness :
    ∃ s' d, PseudoFlex_midextend false helloState 1 (5 : Nat) (-((3 : Nat) : Int))
        (some ⟨200, [0, 0, 0, 0, 0, 0, 0]⟩) = .ret 1 s' ∧
      PseudoFlex_size false s' 1 = .ret (((10 : Nat) : Int) + -((3 : Nat) : Int)) s' ∧
      s'.heap (s'.anchors 1) = some d ∧
      d.length = 10 - 3 ∧
      (∀ i, i < 5 - 3 → d[i]? = [72, 69, 76, 76, 79, 87, 79, 82, 76, 68][i]?) ∧
      (∀ k, k < 10 - 5 → d[5 - 3 + k]? = [72, 69, 76, 76, 79, 87, 79, 82, 76, 68][5 + k]?) :=
  PseudoFlex_midextend_remove false helloState 1 5 3 10
    [72, 69, 76, 76, 79, 87, 79, 82, 76, 68] ⟨200, [0, 0, 0, 0, 0, 0, 0]⟩
    ⟨10, 1⟩ (by decide) (by decide) rfl (by norm_num) (by decide) (by decide)
    (by decide) (by decide) (by decide) (by decide) (by decide)

/-- C2 (as stated, refuted): on "HELLOWORLD" the call `midextend(at = 5, by = -3)`
returns 1 and leaves the 7 bytes "HEWORLD", not "HELLOLD". -/
theorem PseudoFlex_midextend_hello_not_hellold :
    ret_val (PseudoFlex_midextend false helloState 1 5 (-3)
        (some ⟨200, [0, 0, 0, 0, 0, 0, 0]⟩)) = some 1 ∧
      block_of (PseudoFlex_midextend false helloState 1 5 (-3)
        (some ⟨200, [0, 0, 0, 0, 0, 0, 0]⟩)) 1 = some [72, 69, 87, 79, 82, 76, 68] ∧
      block_of (PseudoFlex_midextend false helloState 1 5 (-3)
        (some ⟨200, [0, 0, 0, 0, 0, 0, 0]⟩)) 1 ≠ some [72, 69, 76, 76, 79, 76, 68] := by
  decide

/-- C2 (amended): removing `r` bytes at offset `a` drops the bytes
`[a - r, a)` that lie just below `a`: the block becomes the first `a - r` old
bytes followed by the old bytes from `a` to the end, and its recorded size is
`n - r`. -/
theorem PseudoFlex_midextend_truncate_content (ndebug : Bool) (s : FlexState)
    (anchor a r n : Nat) (c : List Nat) (f : Fresh) (pfr : PseudoFlexRecord)
    (hanchor : anchor ≠ 0)
    (hrec : find_anchor s anchor = some pfr) (hsize : pfr.size = (n : Int))
    (hn : n < 2 ^ 31)
    (hblk : s.heap (s.anchors anchor) = some c) (hlen : c.length = n)
    (hr : 0 < r) (hra : r ≤ a) (han : a ≤ n)
    (hf : f.bytes.length = n - r) (hfresh : f.addr ≠ s.anchors anchor) :
    ∃ s', PseudoFlex_midextend ndebug s anchor (a : Int) (-(r : Int)) (some f) = .ret 1 s' ∧
      PseudoFlex_size ndebug s' anchor = .ret ((n - r : Nat) : Int) s' ∧
      s'.heap (s'.anchors anchor) = some (c.take (a - r) ++ c.drop a) := by
  refine ⟨_, midextend_remove_state ndebug s anchor a r n c f pfr hanchor hrec hsize hn
    hblk hlen hr hra han hf, ?_, ?_⟩
  · exact size_after_set_size ndebug s _ anchor _ pfr hanchor hrec rfl
  · simp only [upd_same]
    rw [upd_other _ _ _ _ hfresh, upd_same]

/-- C2 witness: "HELLOWORLD" with `a = 5`, `r = 3` becomes "HE" ++ "WORLD". -/
theorem PseudoFlex_midextend_truncate_content_witness :
    ∃ s', PseudoFlex_midextend false helloState 1 ((5 : Nat) : Int) (-((3 : Nat) : Int))
        (some ⟨200, [0, 0, 0, 0, 0, 0, 0]⟩) = .ret 1 s' ∧
      PseudoFlex_size false s' 1 = .ret ((10 - 3 : Nat) : Int) s' ∧
      s'.heap (s'.anchors 1)
        = some ([72, 69, 76, 76, 79, 87, 79, 82, 76, 68].take (5 - 3)
            ++ [72, 69, 76, 76, 79, 87, 79, 82, 76, 68].drop 5) :=
  PseudoFlex_midextend_truncate_content false helloState 1 5 3 10
    [72, 69, 76, 76, 79, 87, 79, 82, 76, 68] ⟨200, [0, 0, 0, 0, 0, 0, 0]⟩
    ⟨10, 1⟩ (by decide) (by decide) rfl (by norm_num) (by decide) (by decide)
    (by decide) (by decide) (by decide) (by decide) (by decide)

/-- Insertion path of `PseudoFlex_midextend` computed in full. -/
theorem midextend_insert_state (ndebug : Bool) (s : FlexState) (anchor a b n : Nat)
    (c : List Nat) (f : Fresh) (pfr : PseudoFlexRecord)
    (hanchor : anchor ≠ 0)
    (hrec : find_anchor s anchor = some pfr) (hsize : pfr.size = (n : Int))
    (hnb : n + b < 2 ^ 31)
    (hblk : s.heap (s.anchors anchor) = some c) (hlen : c.length = n)
    (han : a ≤ n) (hf : f.bytes.length = b) :
    PseudoFlex_midextend ndebug s anchor (a : Int) (b : Int) (some f)
      = .ret 1 { s with
          heap := upd (upd s.heap (s.anchors anchor) none) f.addr
                    (some ((c ++ f.bytes).take (a + b) ++ c.drop a))
          anchors := upd s.anchors anchor f.addr
          block_list := set_size s.block_list anchor ((n + b : Nat) : Int) } := by
  have e1 : (a : Int) + (b : Int) = ((a + b : Nat) : Int) := by omega
  have e2 : (n : Int) + (b : Int) = ((n + b : Nat) : Int) := by omega
  have e3 : (n : Int) - (a : Int) = ((n - a : Nat) : Int) := by omega
  have w : wrap_int ((n + b : Nat) : Int) = ((n + b : Nat) : Int) :=
    wrap_int_id _ (by omega) (by omega)
  have t1 : to_size_t ((n + b : Nat) : Int) = n + b := to_size_t_natCast _ (by omega)
  have t2 : to_size_t ((n - a : Nat) : Int) = n - a := to_size_t_natCast _ (by omega)
  have hall : (c ++ f.bytes).take (n + b) = c ++ f.bytes := by
    apply List.take_of_length_le; simp; omega
  have m : memmove (c ++ f.bytes) (a + b) a (n - a)
      = some ((c ++ f.bytes).take (a + b) ++ c.drop a) := by
    unfold memmove
    rw [if_pos (by constructor <;> simp <;> omega)]
    have h2 : ((c ++ f.bytes).drop a).take (n - a) = c.drop a := by
      rw [List.drop_append_of_le_length (by omega),
        List.take_append_of_le_length (by simp; omega)]
      apply List.take_of_length_le; simp; omega
    have h3 : (c ++ f.bytes).drop (a + b + (n - a)) = [] := by
      apply List.drop_of_length_le; simp; omega
    rw [h2, h3]; simp
  unfold PseudoFlex_midextend
  have ha0 : assert_fails ndebug (anchor != 0) = false := by
    simp [assert_fails, hanchor]
  have e4 : ((a : Int) + (b : Int)).toNat = a + b := by omega
  simp only [ha0, hrec, hsize, e1, e2, e3, w, t1, t2, hblk, hall]
  simp [assert_fails, e4, m]
  rw [if_neg (by rintro ⟨_, h⟩; omega), if_neg (by omega), if_neg (by omega)]

/-- C3: for a registered block of size `n` with content `c`, inserting
`b ≥ 0` bytes at offset `a ≤ n` (with `n + b` an `int`) with a successful resize
(the old content followed by `b` more bytes) returns 1, records the size
`n + b`, keeps bytes `[0, a)` and puts the old bytes `[a, n)` at
`[a + b, n + b)`. -/
theorem PseudoFlex_midextend_insert (ndebug : Bool) (s : FlexState) (anchor a b n : Nat)
    (c : List Nat) (f : Fresh) (pfr : PseudoFlexRecord)
    (hanchor : anchor ≠ 0)
    (hrec : find_anchor s anchor = some pfr) (hsize : pfr.size = (n : Int))
    (hnb : n + b < 2 ^ 31)
    (hblk : s.heap (s.anchors anchor) = some c) (hlen : c.length = n)
    (han : a ≤ n) (hf : f.bytes.length = b) :
    ∃ s' d, PseudoFlex_midextend ndebug s anchor (a : Int) (b : Int) (some f) = .ret 1 s' ∧
      PseudoFlex_size ndebug s' anchor = .ret ((n : Int) + (b : Int)) s' ∧
      s'.heap (s'.anchors anchor) = some d ∧
      d.length = n + b ∧
      (∀ i, i < a → d[i]? = (c)[i]?) ∧
      (∀ k, k < n - a → d[a + b + k]? = (c)[a + k]?) := by
  refine ⟨_, (c ++ f.bytes).take (a + b) ++ c.drop a,
    midextend_insert_state ndebug s anchor a b n c f pfr hanchor hrec hsize hnb hblk hlen
      han hf, ?_, ?_, ?_, ?_, ?_⟩
  · have e2 : (n : Int) + (b : Int) = ((n + b : Nat) : Int) := by omega
    rw [e2]
    exact size_after_set_size ndebug s _ anchor _ pfr hanchor hrec rfl
  · simp only [upd_same]
  · simp only [List.length_append, List.length_take, List.length_drop]; omega
  · intro i hi
    rw [List.getElem?_append_left (by simp; omega), List.getElem?_take_of_lt (by omega),
      List.getElem?_append_left (by omega)]
  · intro k _
    have l1 : ((c ++ f.bytes).take (a + b)).length = a + b := by simp; omega
    rw [List.getElem?_append_right (by omega), l1, List.getElem?_drop]
    congr 1; omega

/-- C3 witness: `at = 5`, `by = 2` on the 10-byte block "HELLOWORLD". -/
theorem PseudoFlex_midextend_insert_witness :
    ∃ s' d, PseudoFlex_midextend false helloState 1 ((5 : Nat) : Int) ((2 : Nat) : Int)
        (some ⟨300, [1, 1]⟩) = .ret 1 s' ∧
      PseudoFlex_size false s' 1 = .ret (((10 : Nat) : Int) + ((2 : Nat) : Int)) s' ∧
      s'.heap (s'.anchors 1) = some d ∧
      d.length = 10 + 2 ∧
      (∀ i, i < 5 → d[i]? = [72, 69, 76, 76, 79, 87, 79, 82, 76, 68][i]?) ∧
      (∀ k, k < 10 - 5 → d[5 + 2 + k]? = [72, 69, 76, 76, 79, 87, 79, 82, 76, 68][5 + k]?) :=
  PseudoFlex_midextend_insert false helloState 1 5 2 10
    [72, 69, 76, 76, 79, 87, 79, 82, 76, 68] ⟨300, [1, 1]⟩
    ⟨10, 1⟩ (by decide) (by decide) rfl (by norm_num) (by decide) (by decide)
    (by decide) (by decide)

/-! ### The Wimp message trap -/

theorem SendCall.ok_iff (c : SendCall) : c.ok = true ↔
    c.real.allow = true ∧ (∃ b, c.block = some b) ∧
    ((c.code = Wimp_EUserMessage ∨ c.code = Wimp_EUserMessageRecorded) →
      c.real.sys_info = none) ∧
    ((c.th = true ∧ c.handle ≠ 0) → c.real.send = none) := by
  simp only [SendCall.ok, Bool.and_eq_true, Bool.or_eq_true, Bool.not_eq_true',
    Option.isSome_iff_exists, Option.isNone_iff_eq_none, beq_iff_eq, bne_iff_ne,
    Bool.or_eq_false_iff, beq_eq_false_iff_ne, Bool.and_eq_false_iff]
  constructor
  · rintro ⟨⟨⟨h1, h2⟩, h3⟩, h4⟩
    refine ⟨h1, h2, ?_, ?_⟩
    · intro hu
      rcases h3 with h | h
      · rcases hu with hu | hu
        · exact absurd hu h.1
        · exact absurd hu h.2
      · exact h
    · rintro ⟨ht, hh⟩
      rcases h4 with h | h
      · rcases h with h | h
        · simp [ht] at h
        · simp [hh] at h
      · exact h
  · rintro ⟨h1, h2, h3, h4⟩
    refine ⟨⟨⟨h1, h2⟩, ?_⟩, ?_⟩
    · by_cases hu : c.code = Wimp_EUserMessage ∨ c.code = Wimp_EUserMessageRecorded
      · exact Or.inr (h3 hu)
      · exact Or.inl (not_or.mp hu)
    · by_cases ht : c.th = true ∧ c.handle ≠ 0
      · exact Or.inr (h4 ht)
      · left
        by_cases h5 : c.th = true
        · right
          have : ¬ c.handle ≠ 0 := fun h => ht ⟨h5, h⟩
          simpa using this
        · left; simpa using h5

/-- A captured send that goes through appends exactly one entry. -/
theorem send_captured_step (ndebug : Bool) (s : WimpState) (c : SendCall)
    (hcap : s.capture = true) (hroom : s.msg_count < 32) (hok : c.ok = true) :
    ∃ r s',
      pseudo_wimp_send_message ndebug s c.code c.block c.handle c.icon c.th c.real
        = .ret r s' ∧
      r.e = none ∧ s'.capture = true ∧ s'.msg_count = s.msg_count + 1 ∧
      ∃ m, s'.msgs = upd s.msgs s.msg_count m ∧ Recorded c r m := by
  obtain ⟨hallow, ⟨b0, hb⟩, hsys, hsend⟩ := (SendCall.ok_iff c).mp hok
  obtain ⟨code, block, handle, icon, th, w⟩ := c
  simp only at hallow hb hsys hsend ⊢
  subst hb
  by_cases hu : code = Wimp_EUserMessage ∨ code = Wimp_EUserMessageRecorded
  · have hsys' := hsys hu
    by_cases ht : th = true ∧ handle ≠ 0
    · have hsend' := hsend ht
      simp [pseudo_wimp_send_message, pseudokern_fail, hallow, assert_fails, hcap,
        send_fill_sender, send_find_task, send_record, Outcome.bind, hu, hsys', hsend',
        ht, msgs_size, hroom]
      exact ⟨_, _, ⟨rfl, rfl⟩, rfl, rfl, rfl, _, rfl, b0, _, rfl, rfl, rfl,
        fun _ => ⟨_, rfl⟩, fun h => absurd hu h⟩
    · have ht' : (th && handle != 0) = false := by
        simpa [Bool.and_eq_false_iff, not_and_or] using ht
      simp [pseudo_wimp_send_message, pseudokern_fail, hallow, assert_fails, hcap,
        send_fill_sender, send_find_task, send_record, Outcome.bind, hu, hsys',
        ht', msgs_size, hroom]
      exact ⟨_, _, ⟨rfl, rfl⟩, rfl, rfl, rfl, _, rfl, b0, _, rfl, rfl, rfl,
        fun _ => ⟨_, rfl⟩, fun h => absurd hu h⟩
  · have hu' : (code == Wimp_EUserMessage || code == Wimp_EUserMessageRecorded) = false := by
      simpa [not_or] using hu
    by_cases ht : th = true ∧ handle ≠ 0
    · have hsend' := hsend ht
      simp [pseudo_wimp_send_message, pseudokern_fail, hallow, assert_fails, hcap,
        send_fill_sender, send_find_task, send_record, Outcome.bind, hu', hsend',
        ht, msgs_size, hroom]
      exact ⟨_, _, ⟨rfl, rfl⟩, rfl, rfl, rfl, _, rfl, b0, _, rfl, rfl, rfl,
        fun h => absurd h hu, fun _ => rfl⟩
    · have ht' : (th && handle != 0) = false := by
        simpa [Bool.and_eq_false_iff, not_and_or] using ht
      simp [pseudo_wimp_send_message, pseudokern_fail, hallow, assert_fails, hcap,
        send_fill_sender, send_find_task, send_record, Outcome.bind, hu',
        ht', msgs_size, hroom]
      exact ⟨_, _, ⟨rfl, rfl⟩, rfl, rfl, rfl, _, rfl, b0, _, rfl, rfl, rfl,
        fun h => absurd h hu, fun _ => rfl⟩

/-- A run of captured sends that all go through fills consecutive entries and
leaves the earlier ones alone. -/
theorem send_all_captured (ndebug : Bool) (calls : List SendCall) :
    ∀ s : WimpState, s.capture = true → s.msg_count + calls.length ≤ 32 →
      (∀ c ∈ calls, c.ok = true) →
      ∃ rs s', send_all ndebug s calls = .ret rs s' ∧
        s'.capture = true ∧ s'.msg_count = s.msg_count + calls.length ∧
        (∀ j, j < s.msg_count → s'.msgs j = s.msgs j) ∧
        (∀ i, i < calls.length → ∃ c r, calls[i]? = some c ∧ rs[i]? = some r ∧
          r.e = none ∧ Recorded c r (s'.msgs (s.msg_count + i))) := by
  induction calls with
  | nil =>
    intro s hcap _ _
    exact ⟨[], s, rfl, hcap, rfl, fun _ _ => rfl, fun i hi => absurd hi (by simp)⟩
  | cons c cs ih =>
    intro s hcap hlen hok
    simp only [List.length_cons] at hlen
    obtain ⟨r, s1, hstep, he, hcap1, hcnt1, m, hm, hrec⟩ :=
      send_captured_step ndebug s c hcap (by omega) (hok c (List.mem_cons_self _ _))
    obtain ⟨rs, s2, hrun, hcap2, hcnt2, hkeep, hall⟩ :=
      ih s1 hcap1 (by omega) (fun d hd => hok d (List.mem_cons_of_mem _ hd))
    refine ⟨r :: rs, s2, ?_, hcap2, ?_, ?_, ?_⟩
    · simp [send_all, hstep, hrun, Outcome.bind]
    · simp only [List.length_cons]; omega
    · intro j hj
      rw [hkeep j (by omega), hm, upd_other _ _ _ _ (by omega)]
    · intro i hi
      cases i with
      | zero =>
        refine ⟨c, r, by simp, by simp, he, ?_⟩
        have h0 : s2.msgs (s.msg_count + 0) = m := by
          rw [Nat.add_zero, hkeep _ (by omega), hm, upd_same]
        rw [h0]; exact hrec
      | succ k =>
        simp only [List.length_cons] at hi
        obtain ⟨d, q, hd, hq, hqe, hdq⟩ := hall k (by omega)
        refine ⟨d, q, by simpa using hd, by simpa using hq, hqe, ?_⟩
        have hidx : s.msg_count + (k + 1) = s1.msg_count + k := by omega
        rw [hidx]; exact hdq

/-- C4 (as stated, refuted). After `pseudo_wimp_reset`, with the oracle
allowing every call: the block read back for a user message is not the block
that was passed (sender and reference were filled in), and a send whose task
handle query reports an error stops at the assertion instead of being
counted. -/
theorem pseudo_wimp_capture_not_verbatim :
    userCall.real.allow = true ∧
    userCall.block = some [24, 0, 0, 0, 5, 1] ∧
    count_after (send_all false (pseudo_wimp_reset wimp_start) [userCall]) = some 1 ∧
    (message_after false (send_all false (pseudo_wimp_reset wimp_start) [userCall]) 0).map
        (fun m => m.block) = some [24, 4660, 1, 0, 5, 1] ∧
    queryFailCall.real.allow = true ∧
    is_abort (send_all false (pseudo_wimp_reset wimp_start) [queryFailCall]) = true ∧
    count_after (send_all false (pseudo_wimp_reset wimp_start) [queryFailCall]) = none := by
  decide

/-- C4 (amended). After `pseudo_wimp_reset`, for every sequence of `k ≤ 32`
sends with a non-null block on which the oracle does not fail and the real
calls made while capturing report no error, every send returns no error,
`pseudo_wimp_get_message_count` returns `k` and `pseudo_wimp_get_message2(i)`
returns, in send order, the code, handle and icon of the `i`-th send with the
block as that send left it in the caller's buffer (`Recorded`). -/
theorem pseudo_wimp_capture_in_order (ndebug : Bool) (s0 : WimpState)
    (calls : List SendCall) (hk : calls.length ≤ 32) (hok : ∀ c ∈ calls, c.ok = true) :
    ∃ rs s', send_all ndebug (pseudo_wimp_reset s0) calls = .ret rs s' ∧
      pseudo_wimp_get_message_count s' = calls.length ∧
      ∀ i, i < calls.length → ∃ c r m, calls[i]? = some c ∧ rs[i]? = some r ∧
        r.e = none ∧ pseudo_wimp_get_message2 ndebug s' i = .ret m s' ∧
        Recorded c r m := by
  obtain ⟨rs, s', hrun, _, hcnt, _, hall⟩ :=
    send_all_captured ndebug calls (pseudo_wimp_reset s0) rfl
      (by simp [pseudo_wimp_reset]; exact hk) hok
  have hcnt' : s'.msg_count = calls.length := by
    simpa [pseudo_wimp_reset] using hcnt
  refine ⟨rs, s', hrun, hcnt', ?_⟩
  intro i hi
  obtain ⟨c, r, hc, hr, he, hrec⟩ := hall i hi
  refine ⟨c, r, s'.msgs i, hc, hr, he, ?_, ?_⟩
  · have h1 : i < s'.msg_count := by omega
    have h2 : i < msgs_size := by unfold msgs_size; omega
    simp [pseudo_wimp_get_message2, assert_fails, h1, h2]
  · simpa [pseudo_wimp_reset] using hrec

/-- C4 witness: a user message (code 17) then a message with code 3. -/
theorem pseudo_wimp_capture_in_order_witness :
    ∃ rs s', send_all false (pseudo_wimp_reset wimp_start) [userCall, plainCall]
        = .ret rs s' ∧
      pseudo_wimp_get_message_count s' = [userCall, plainCall].length ∧
      ∀ i, i < [userCall, plainCall].length →
        ∃ c r m, [userCall, plainCall][i]? = some c ∧ rs[i]? = some r ∧
          r.e = none ∧ pseudo_wimp_get_message2 false s' i = .ret m s' ∧
          Recorded c r m :=
  pseudo_wimp_capture_in_order false wimp_start [userCall, plainCall] (by decide)
    (by decide)

theorem bind_eq_ret {σ α β : Type} (x : Outcome σ α) (f : α → σ → Outcome σ β)
    (b : β) (s' : σ) (h : x.bind f = .ret b s') :
    ∃ a s1, x = .ret a s1 ∧ f a s1 = .ret b s' := by
  cases x with
  | ret a s1 => exact ⟨a, s1, rfl, h⟩
  | abort s1 => simp [Outcome.bind] at h
  | ub => simp [Outcome.bind] at h

theorem send_fill_sender_frame (ndebug : Bool) (s s' : WimpState) (code : Int)
    (block : Option WimpPollBlock) (w : WimpReal)
    (r : Option kernel_oserror × Option WimpPollBlock)
    (h : send_fill_sender ndebug s code block w = .ret r s') :
    s'.msg_count = s.msg_count ∧ s'.msgs = s.msgs ∧ s'.capture = s.capture := by
  unfold send_fill_sender at h
  split at h
  · split at h
    · simp at h
    · cases block with
      | none => simp at h
      | some b =>
        simp only [Outcome.ret.injEq] at h
        obtain ⟨_, rfl⟩ := h
        exact ⟨rfl, rfl, rfl⟩
  · simp only [Outcome.ret.injEq] at h
    obtain ⟨_, rfl⟩ := h
    exact ⟨rfl, rfl, rfl⟩

theorem send_find_task_frame (ndebug : Bool) (s s' : WimpState)
    (e : Option kernel_oserror) (handle icon : Int) (th : Bool) (w : WimpReal)
    (r : Option kernel_oserror × Option Int)
    (h : send_find_task ndebug s e handle icon th w = .ret r s') :
    s'.msg_count = s.msg_count ∧ s'.msgs = s.msgs ∧ s'.capture = s.capture := by
  unfold send_find_task at h
  split at h
  · split at h
    · simp at h
    · simp only [Outcome.ret.injEq] at h
      obtain ⟨_, rfl⟩ := h
      exact ⟨rfl, rfl, rfl⟩
  · simp only [Outcome.ret.injEq] at h
    obtain ⟨_, rfl⟩ := h
    exact ⟨rfl, rfl, rfl⟩

theorem send_record_cases (s s' : WimpState) (code : Int)
    (block : Option WimpPollBlock) (handle icon : Int)
    (h : send_record s code block handle icon = .ret () s') :
    (s.msg_count < msgs_size ∧ s'.msg_count = s.msg_count + 1 ∧ s'.capture = s.capture) ∨
    (¬ s.msg_count < msgs_size ∧ s' = s) := by
  unfold send_record at h
  split at h
  · rename_i hlt
    cases block with
    | none => simp at h
    | some b =>
      simp only [Outcome.ret.injEq, true_and] at h
      subst h
      exact Or.inl ⟨hlt, rfl, rfl⟩
  · rename_i hge
    simp only [Outcome.ret.injEq, true_and] at h
    exact Or.inr ⟨hge, h.symm⟩

/-- Every call of `pseudo_wimp_send_message` that returns either leaves the
count and the array as they were, or had room and added one entry. -/
theorem send_message_cases (ndebug : Bool) (s s' : WimpState) (c : SendCall)
    (r : SendResult)
    (h : pseudo_wimp_send_message ndebug s c.code c.block c.handle c.icon c.th c.real
      = .ret r s') :
    (s'.msg_count = s.msg_count ∧ s'.msgs = s.msgs) ∨
    (s.msg_count < msgs_size ∧ s'.msg_count = s.msg_count + 1) := by
  unfold pseudo_wimp_send_message at h
  simp only at h
  split at h
  · simp at h
  · split at h
    · simp only [Outcome.ret.injEq] at h
      obtain ⟨_, rfl⟩ := h
      exact Or.inl ⟨rfl, rfl⟩
    · split at h
      · simp at h
      · split at h
        · obtain ⟨r1, s1, h1, h⟩ := bind_eq_ret _ _ _ _ h
          obtain ⟨r2, s2, h2, h⟩ := bind_eq_ret _ _ _ _ h
          obtain ⟨u, s3, h3, h⟩ := bind_eq_ret _ _ _ _ h
          simp only [Outcome.ret.injEq] at h
          obtain ⟨_, rfl⟩ := h
          obtain ⟨a1, a2, _⟩ := send_fill_sender_frame _ _ _ _ _ _ _ h1
          obtain ⟨b1, b2, _⟩ := send_find_task_frame _ _ _ _ _ _ _ _ _ h2
          rcases send_record_cases _ _ _ _ _ _ h3 with ⟨hlt, hc, _⟩ | ⟨_, rfl⟩
          · right
            rw [b1, a1] at hlt hc
            exact ⟨hlt, hc⟩
          · left
            exact ⟨by rw [b1, a1], by rw [b2, a2]⟩
        · simp only [Outcome.ret.injEq] at h
          obtain ⟨_, rfl⟩ := h
          exact Or.inl ⟨rfl, rfl⟩

/-- The count never exceeds the size of the array. -/
theorem reachable_msg_count_le (s : WimpState) (hs : WimpReachable s) :
    s.msg_count ≤ msgs_size := by
  induction hs with
  | start => simp [wimp_start]
  | reset s _ _ => simp [pseudo_wimp_reset]
  | send ndebug s s' c r _ hstep ih =>
    rcases send_message_cases ndebug s s' c r hstep with ⟨h, _⟩ | ⟨h1, h2⟩
    · omega
    · omega

theorem send_all_reachable (ndebug : Bool) (calls : List SendCall) :
    ∀ (s s' : WimpState) (rs : List SendResult), WimpReachable s →
      send_all ndebug s calls = .ret rs s' → WimpReachable s' := by
  induction calls with
  | nil =>
    intro s s' rs hs h
    simp only [send_all, Outcome.ret.injEq] at h
    obtain ⟨_, rfl⟩ := h
    exact hs
  | cons c cs ih =>
    intro s s' rs hs h
    simp only [send_all] at h
    obtain ⟨r, s1, h1, h⟩ := bind_eq_ret _ _ _ _ h
    obtain ⟨rs1, s2, h2, h⟩ := bind_eq_ret _ _ _ _ h
    simp only [Outcome.ret.injEq] at h
    obtain ⟨_, rfl⟩ := h
    exact ih s1 s2 rs1 (WimpReachable.send ndebug s s1 c r hs h1) h2

/-- The state `full_state` is reachable, armed and holds 32 messages. -/
theorem full_state_props :
    WimpReachable full_state ∧ full_state.capture = true ∧ full_state.msg_count = 32 := by
  obtain ⟨rs, s', h, hcap, hcnt, _⟩ :=
    send_all_captured false (List.replicate 32 plainCall) (pseudo_wimp_reset wimp_start) rfl
      (by simp [pseudo_wimp_reset, wimp_start])
      (by intro c hc; rw [List.eq_of_mem_replicate hc]; decide)
  have hfs : full_state = s' := by unfold full_state; rw [h]; rfl
  rw [hfs]
  refine ⟨send_all_reachable _ _ _ _ _ (WimpReachable.reset _ WimpReachable.start) h,
    hcap, ?_⟩
  simpa [pseudo_wimp_reset] using hcnt

/-- C5 (as stated, refuted): with capture armed and 32 messages recorded, a
further send on which the failure oracle fires does not return success, it
returns the out-of-memory error; and a further send whose task handle query
reports an error stops at the assertion. -/
theorem pseudo_wimp_full_log_send_can_fail :
    WimpReachable full_state ∧ full_state.capture = true ∧ full_state.msg_count = 32 ∧
    (ret_val (pseudo_wimp_send_message false full_state deniedCall.code deniedCall.block
      deniedCall.handle deniedCall.icon deniedCall.th deniedCall.real)).map (fun r => r.e)
      = some (some NoMem) ∧
    is_abort (pseudo_wimp_send_message false full_state queryFailCall.code
      queryFailCall.block queryFailCall.handle queryFailCall.icon queryFailCall.th
      queryFailCall.real) = true := by
  refine ⟨full_state_props.1, full_state_props.2.1, full_state_props.2.2, ?_, ?_⟩
  · simp [pseudo_wimp_send_message, pseudokern_fail, deniedCall, plainCall, okReal,
      assert_fails, ret_val, Wimp_ENull]
  · simp [pseudo_wimp_send_message, pseudokern_fail, queryFailCall, plainCall, okReal,
      assert_fails, is_abort, Wimp_ENull, Wimp_EUserMessage, Wimp_EUserMessageRecorded,
      Wimp_EUserMessageAcknowledge, full_state_props.2.1, send_fill_sender, send_find_task,
      Outcome.bind]

/-- C5 (amended). In every reachable state `msg_count ≤ 32`; with capture
armed and 32 messages recorded, every further send that returns leaves the
count at 32 and the array unchanged; it returns no error when the oracle does
not fail and the real calls it makes report none, and the out-of-memory error,
with nothing changed, when the oracle fails. -/
theorem pseudo_wimp_msgs_capacity (ndebug : Bool) (s : WimpState) (c : SendCall)
    (hs : WimpReachable s) :
    s.msg_count ≤ msgs_size ∧
    (s.capture = true → s.msg_count = msgs_size →
      (∀ r s', pseudo_wimp_send_message ndebug s c.code c.block c.handle c.icon c.th c.real
          = .ret r s' → s'.msg_count = msgs_size ∧ s'.msgs = s.msgs) ∧
      (c.real.allow = true → (c.code = Wimp_ENull ∨ c.block ≠ none) →
        ((c.code = Wimp_EUserMessage ∨ c.code = Wimp_EUserMessageRecorded) →
          c.real.sys_info = none) →
        ((c.th = true ∧ c.handle ≠ 0) → c.real.send = none) →
        ∃ r s', pseudo_wimp_send_message ndebug s c.code c.block c.handle c.icon c.th c.real
          = .ret r s' ∧ r.e = none) ∧
      (c.real.allow = false → (c.code = Wimp_ENull ∨ c.block ≠ none) →
        pseudo_wimp_send_message ndebug s c.code c.block c.handle c.icon c.th c.real
          = .ret { e := some NoMem, block := c.block, th_out := none } s)) := by
  refine ⟨reachable_msg_count_le s hs, fun hcap hfull => ⟨?_, ?_, ?_⟩⟩
  · intro r s' h
    rcases send_message_cases ndebug s s' c r h with ⟨h1, h2⟩ | ⟨h1, _⟩
    · exact ⟨by rw [h1, hfull], h2⟩
    · omega
  · intro hallow hpre hsys hsend
    obtain ⟨code, block, handle, icon, th, w⟩ := c
    simp only at hallow hpre hsys hsend ⊢
    have hpre' : (code == Wimp_ENull || block.isSome) = true := by
      rcases hpre with h | h
      · simp [h]
      · cases block with
        | none => exact absurd rfl h
        | some b => simp
    have hroom : ¬ s.msg_count < msgs_size := by omega
    by_cases hu : code = Wimp_EUserMessage ∨ code = Wimp_EUserMessageRecorded
    · have hsys' := hsys hu
      have hb : ∃ b, block = some b := by
        rcases hpre with h | h
        · rcases hu with hu | hu <;> rw [hu] at h <;> exact absurd h (by decide)
        · cases block with
          | none => exact absurd rfl h
          | some b => exact ⟨b, rfl⟩
      obtain ⟨b, rfl⟩ := hb
      by_cases ht : th = true ∧ handle ≠ 0
      · have hsend' := hsend ht
        simp [pseudo_wimp_send_message, pseudokern_fail, hallow, assert_fails, hcap,
          send_fill_sender, send_find_task, send_record, Outcome.bind, hu, hsys', hsend',
          ht, hroom]
      · have ht' : (th && handle != 0) = false := by
          simpa [Bool.and_eq_false_iff, not_and_or] using ht
        simp [pseudo_wimp_send_message, pseudokern_fail, hallow, assert_fails, hcap,
          send_fill_sender, send_find_task, send_record, Outcome.bind, hu, hsys',
          ht', hroom]
    · have hu' : (code == Wimp_EUserMessage || code == Wimp_EUserMessageRecorded) = false := by
        simpa [not_or] using hu
      have hack : ((code == Wimp_EUserMessage || code == Wimp_EUserMessageRecorded ||
          code == Wimp_EUserMessageAcknowledge) && block.isNone) = false := by
        cases block with
        | some b => simp
        | none =>
          rcases hpre with h | h
          · subst h; decide
          · exact absurd rfl h
      have hack2 : ¬ (code = Wimp_EUserMessageAcknowledge ∧ block = none) := by
        rintro ⟨h1, h2⟩
        rcases hpre with h | h
        · rw [h1] at h; exact absurd h (by decide)
        · exact h h2
      by_cases ht : th = true ∧ handle ≠ 0
      · have hsend' := hsend ht
        simp [pseudo_wimp_send_message, pseudokern_fail, hallow, assert_fails, hcap,
          send_fill_sender, send_find_task, send_record, Outcome.bind, hu', hsend',
          ht, hroom, hpre', hack]
        rw [if_neg hack2]
        exact ⟨_, ⟨_, rfl⟩, rfl⟩
      · have ht' : (th && handle != 0) = false := by
          simpa [Bool.and_eq_false_iff, not_and_or] using ht
        simp [pseudo_wimp_send_message, pseudokern_fail, hallow, assert_fails, hcap,
          send_fill_sender, send_find_task, send_record, Outcome.bind, hu',
          ht', hroom, hpre', hack]
        rw [if_neg hack2]
        exact ⟨_, ⟨_, rfl⟩, rfl⟩
  · intro hallow hpre
    have hpre' : (c.code == Wimp_ENull || c.block.isSome) = true := by
      rcases hpre with h | h
      · simp [h]
      · cases hb : c.block with
        | none => exact absurd hb h
        | some b => simp
    simp [pseudo_wimp_send_message, pseudokern_fail, hallow, assert_fails, hpre']

/-- C5 witness: the state reached by `pseudo_wimp_reset` and 32 sends, and one
more send. -/
theorem pseudo_wimp_msgs_capacity_witness :
    full_state.msg_count ≤ msgs_size ∧ full_state.capture = true ∧
    full_state.msg_count = msgs_size ∧
    (∀ r s', pseudo_wimp_send_message false full_state plainCall.code plainCall.block
        plainCall.handle plainCall.icon plainCall.th plainCall.real = .ret r s' →
      s'.msg_count = msgs_size ∧ s'.msgs = full_state.msgs) ∧
    (∃ r s', pseudo_wimp_send_message false full_state plainCall.code plainCall.block
        plainCall.handle plainCall.icon plainCall.th plainCall.real = .ret r s' ∧
      r.e = none) :=
  have h := pseudo_wimp_msgs_capacity false full_state plainCall full_state_props.1
  have h2 := h.2 full_state_props.2.1 full_state_props.2.2
  ⟨h.1, full_state_props.2.1, full_state_props.2.2, h2.1,
    h2.2.1 (by decide) (by decide) (by decide) (by decide)⟩

/-! ### The one-shot interceptors of PseudoTbox.c -/

theorem LOWEST_self (a : Int) : LOWEST a a = a := by simp [LOWEST]

theorem LOWEST_of_le (a b : Int) (h : b ≤ a) : LOWEST a b = b := by
  unfold LOWEST
  split
  · omega
  · rfl

theorem range_map_take (l : List Nat) (n : Nat) (g : Nat → Nat) (h : n ≤ l.length) :
    (List.range n).map (fun i => if i < n then l.getD i 0 else g i) = l.take n := by
  apply List.ext_getElem?
  intro i
  by_cases hi : i < n
  · have hil : i < l.length := by omega
    simp [List.getElem?_take_of_lt hi, hi, List.getElem?_range hi, List.getD_eq_getElem?_getD,
      List.getElem?_eq_getElem hil]
  · have h1 : ((List.range n).map (fun i => if i < n then l.getD i 0 else g i))[i]? = none := by
      apply List.getElem?_eq_none; simp; omega
    have h2 : (l.take n)[i]? = none := by
      apply List.getElem?_eq_none; simp; omega
    rw [h1, h2]

/-- The interceptor of `saveas_buffer_filled`: armed by the reset, it captures
one call whose data fits, and lets the next one through. -/
theorem buffer_filled_one_shot (ndebug : Bool) (s : TboxState) (flags saveas : Nat)
    (buffer : List Nat) (n : Nat) (allow : Bool) (real : Option kernel_oserror)
    (flags2 saveas2 : Nat) (buffer2 : List Nat) (bw2 : Int) (allow2 : Bool)
    (real2 : Option kernel_oserror) (buff_size : Int)
    (hn : n ≤ buffer_size) (hbuf : n ≤ buffer.length) (hsz : (n : Int) ≤ buff_size) :
    ∃ s2, pseudo_saveas_buffer_filled ndebug (pseudo_saveas_reset_buffer_filled s)
        flags saveas buffer (n : Int) allow real = .ret none s2 ∧
      s2.calls = s.calls ∧
      pseudo_saveas_get_buffer_filled s2 buff_size
        = { id := saveas, flags := flags, data := buffer.take n, nbytes := (n : Int) } ∧
      ∃ s3, pseudo_saveas_buffer_filled ndebug s2 flags2 saveas2 buffer2 bw2 allow2 real2
          = .ret (if allow2 then real2 else some NoMem) s3 ∧
        s3.calls = (if allow2 then
            s2.calls ++ [TboxCall.saveas_buffer_filled flags2 saveas2 buffer2 bw2]
          else s2.calls) ∧
        ∀ k, pseudo_saveas_get_buffer_filled s3 k = pseudo_saveas_get_buffer_filled s2 k := by
  have hbs : buffer_size = 131072 := rfl
  have t : to_size_t (n : Int) = n := to_size_t_natCast n (by omega)
  have h1 : ¬ (buffer_size < n ∨ buffer.length < n) := by omega
  have hcap : pseudo_saveas_buffer_filled ndebug (pseudo_saveas_reset_buffer_filled s)
      flags saveas buffer (n : Int) allow real
      = .ret none { pseudo_saveas_reset_buffer_filled s with
          buffer_filled_flags := flags
          buffer_filled_buffer := fun i => if i < n then buffer.getD i 0 else 0
          buffer_filled_bytes_written := (n : Int)
          buffer_filled_id := saveas
          intercept_saveas_buffer_filled := false } := by
    simp only [pseudo_saveas_buffer_filled, pseudo_saveas_reset_buffer_filled, t]
    simp [assert_fails, hn, h1]
  refine ⟨_, hcap, rfl, ?_, ?_⟩
  · simp only [pseudo_saveas_get_buffer_filled, LOWEST_of_le _ _ hsz, Int.toNat_ofNat]
    rw [range_map_take buffer n _ hbuf]
  · cases allow2 with
    | true =>
      exact ⟨{ pseudo_saveas_reset_buffer_filled s with
          buffer_filled_flags := flags
          buffer_filled_buffer := fun i => if i < n then buffer.getD i 0 else 0
          buffer_filled_bytes_written := (n : Int)
          buffer_filled_id := saveas
          intercept_saveas_buffer_filled := false
          calls := s.calls ++ [TboxCall.saveas_buffer_filled flags2 saveas2 buffer2 bw2] },
        by simp [pseudo_saveas_buffer_filled, pseudokern_fail, pseudo_saveas_reset_buffer_filled],
        rfl, fun k => rfl⟩
    | false =>
      exact ⟨_, by simp [pseudo_saveas_buffer_filled, pseudokern_fail], rfl, fun k => rfl⟩

/-- The interceptor of `saveas_file_save_completed`: armed by the reset, it
captures one call whose file name fits, and lets the next one through. -/
theorem file_save_completed_one_shot (name_size : Nat) (s : TboxState) (flags saveas : Nat)
    (filename : List Char) (allow : Bool) (real : Option kernel_oserror)
    (flags2 saveas2 : Nat) (filename2 : List Char) (allow2 : Bool)
    (real2 : Option kernel_oserror) (buff_size : Int)
    (hname : filename.length < name_size) (hsz : (filename.length : Int) < buff_size) :
    ∃ s2, pseudo_saveas_file_save_completed name_size
        (pseudo_saveas_reset_file_save_completed s) flags saveas filename allow real
        = .ret none s2 ∧
      s2.calls = s.calls ∧
      pseudo_saveas_get_file_save_completed s2 buff_size
        = { id := saveas, flags := flags, name := some filename,
            nbytes := filename.length + 1 } ∧
      ∃ s3, pseudo_saveas_file_save_completed name_size s2 flags2 saveas2 filename2 allow2
          real2 = .ret (if allow2 then real2 else some NoMem) s3 ∧
        s3.calls = (if allow2 then
            s2.calls ++ [TboxCall.saveas_file_save_completed flags2 saveas2 filename2]
          else s2.calls) ∧
        ∀ k, pseudo_saveas_get_file_save_completed s3 k
          = pseudo_saveas_get_file_save_completed s2 k := by
  have htake : filename.take (name_size - 1) = filename :=
    List.take_of_length_le (by omega)
  have hcap : pseudo_saveas_file_save_completed name_size
      (pseudo_saveas_reset_file_save_completed s) flags saveas filename allow real
      = .ret none { pseudo_saveas_reset_file_save_completed s with
          file_save_completed_flags := flags
          file_save_completed_id := saveas
          file_save_completed_filename := filename
          intercept_file_save_completed := false } := by
    simp [pseudo_saveas_file_save_completed, pseudo_saveas_reset_file_save_completed, htake]
  refine ⟨_, hcap, rfl, ?_, ?_⟩
  · have hpos : buff_size > 0 := by omega
    have htk : filename.take (buff_size - 1).toNat = filename :=
      List.take_of_length_le (by omega)
    simp only [pseudo_saveas_get_file_save_completed]
    rw [if_pos hpos, htk]
  · cases allow2 with
    | true =>
      exact ⟨{ pseudo_saveas_reset_file_save_completed s with
          file_save_completed_flags := flags
          file_save_completed_id := saveas
          file_save_completed_filename := filename
          intercept_file_save_completed := false
          calls := s.calls ++ [TboxCall.saveas_file_save_completed flags2 saveas2 filename2] },
        by simp [pseudo_saveas_file_save_completed, pseudokern_fail,
          pseudo_saveas_reset_file_save_completed],
        rfl, fun k => rfl⟩
    | false =>
      exact ⟨_, by simp [pseudo_saveas_file_save_completed, pseudokern_fail], rfl,
        fun k => rfl⟩

set_option maxRecDepth 20000 in
/-- C6 (as stated, refuted), with assertions compiled in and the name array
of 212 bytes: after the arming reset, a `saveas_buffer_filled` call with
131073 bytes stops at the assertion instead of returning `NULL`, and a
`saveas_file_save_completed` call with a name of 300 characters is captured
cut to 211 characters, so the accessor does not hand back the name passed. -/
theorem saveas_interceptors_oversize :
    is_abort (pseudo_saveas_buffer_filled false (pseudo_saveas_reset_buffer_filled tbox_start)
      1 2 (List.replicate 131073 0) 131073 true none) = true ∧
    (List.replicate 300 'a').length + 1 = 301 ∧
    (ret_state (pseudo_saveas_file_save_completed 212
        (pseudo_saveas_reset_file_save_completed tbox_start) 1 2 (List.replicate 300 'a')
        true none)).map (fun s => pseudo_saveas_get_file_save_completed s 1000)
      = some { id := 2, flags := 1, name := some (List.replicate 211 'a'), nbytes := 212 } := by
  refine ⟨by decide, by rw [List.length_replicate], by decide⟩

/-- C6 (amended). For both interceptors: after the arming reset, a first
completion call whose data fits the interceptor's store (`n ≤ 131072` bytes
present in the caller's buffer; a file name shorter than the name array)
returns `NULL` with no real call made, and the accessor (given a buffer that
is large enough) hands back exactly its flags, object id and data; a second
call made without re-arming consults the failure oracle, returns the
out-of-memory error with no real call when the oracle fails and otherwise
makes the real call and returns its result, and in both cases leaves what the
accessor hands back unchanged. -/
theorem saveas_interceptors_one_shot (ndebug : Bool) (name_size : Nat) (s : TboxState)
    (flags saveas : Nat) (buffer : List Nat) (n : Nat) (filename : List Char)
    (allow : Bool) (real : Option kernel_oserror)
    (flags2 saveas2 : Nat) (buffer2 : List Nat) (bw2 : Int) (filename2 : List Char)
    (allow2 : Bool) (real2 : Option kernel_oserror) (buff_size : Int)
    (hn : n ≤ buffer_size) (hbuf : n ≤ buffer.length) (hsz : (n : Int) ≤ buff_size)
    (hname : filename.length < name_size) (hnsz : (filename.length : Int) < buff_size) :
    (∃ s2, pseudo_saveas_buffer_filled ndebug (pseudo_saveas_reset_buffer_filled s)
        flags saveas buffer (n : Int) allow real = .ret none s2 ∧
      s2.calls = s.calls ∧
      pseudo_saveas_get_buffer_filled s2 buff_size
        = { id := saveas, flags := flags, data := buffer.take n, nbytes := (n : Int) } ∧
      ∃ s3, pseudo_saveas_buffer_filled ndebug s2 flags2 saveas2 buffer2 bw2 allow2 real2
          = .ret (if allow2 then real2 else some NoMem) s3 ∧
        s3.calls = (if allow2 then
            s2.calls ++ [TboxCall.saveas_buffer_filled flags2 saveas2 buffer2 bw2]
          else s2.calls) ∧
        ∀ k, pseudo_saveas_get_buffer_filled s3 k = pseudo_saveas_get_buffer_filled s2 k) ∧
    (∃ s2, pseudo_saveas_file_save_completed name_size
        (pseudo_saveas_reset_file_save_completed s) flags saveas filename allow real
        = .ret none s2 ∧
      s2.calls = s.calls ∧
      pseudo_saveas_get_file_save_completed s2 buff_size
        = { id := saveas, flags := flags, name := some filename,
            nbytes := filename.length + 1 } ∧
      ∃ s3, pseudo_saveas_file_save_completed name_size s2 flags2 saveas2 filename2 allow2
          real2 = .ret (if allow2 then real2 else some NoMem) s3 ∧
        s3.calls = (if allow2 then
            s2.calls ++ [TboxCall.saveas_file_save_completed flags2 saveas2 filename2]
          else s2.calls) ∧
        ∀ k, pseudo_saveas_get_file_save_completed s3 k
          = pseudo_saveas_get_file_save_completed s2 k) :=
  ⟨buffer_filled_one_shot ndebug s flags saveas buffer n allow real flags2 saveas2 buffer2
      bw2 allow2 real2 buff_size hn hbuf hsz,
    file_save_completed_one_shot name_size s flags saveas filename allow real flags2 saveas2
      filename2 allow2 real2 buff_size hname hnsz⟩

/-- C6 witness: three bytes, the name "abc", then a second call that the
oracle lets through. -/
theorem saveas_interceptors_one_shot_witness :
    (∃ s2, pseudo_saveas_buffer_filled false (pseudo_saveas_reset_buffer_filled tbox_start)
        1 2 [5, 6, 7] ((3 : Nat) : Int) true none = .ret none s2 ∧
      s2.calls = tbox_start.calls ∧
      pseudo_saveas_get_buffer_filled s2 10
        = { id := 2, flags := 1, data := [5, 6, 7].take 3, nbytes := ((3 : Nat) : Int) } ∧
      ∃ s3, pseudo_saveas_buffer_filled false s2 8 9 [4] 1 true none
          = .ret (if true then none else some NoMem) s3 ∧
        s3.calls = (if true then
            s2.calls ++ [TboxCall.saveas_buffer_filled 8 9 [4] 1]
          else s2.calls) ∧
        ∀ k, pseudo_saveas_get_buffer_filled s3 k = pseudo_saveas_get_buffer_filled s2 k) ∧
    (∃ s2, pseudo_saveas_file_save_completed 212
        (pseudo_saveas_reset_file_save_completed tbox_start) 1 2 ['a', 'b', 'c'] true none
        = .ret none s2 ∧
      s2.calls = tbox_start.calls ∧
      pseudo_saveas_get_file_save_completed s2 10
        = { id := 2, flags := 1, name := some ['a', 'b', 'c'],
            nbytes := ['a', 'b', 'c'].length + 1 } ∧
      ∃ s3, pseudo_saveas_file_save_completed 212 s2 8 9 ['x'] true none
          = .ret (if true then none else some NoMem) s3 ∧
        s3.calls = (if true then
            s2.calls ++ [TboxCall.saveas_file_save_completed 8 9 ['x']]
          else s2.calls) ∧
        ∀ k, pseudo_saveas_get_file_save_completed s3 k
          = pseudo_saveas_get_file_save_completed s2 k) :=
  saveas_interceptors_one_shot false 212 tbox_start 1 2 [5, 6, 7] 3 ['a', 'b', 'c'] true none
    8 9 [4] 1 ['x'] true none 10 (by decide) (by decide) (by decide) (by decide) (by decide)

/-! ### The object records of PseudoTbox.c -/

theorem eraseP_eq_filter_of_unique {α : Type} (p : α → Bool) (l : List α)
    (h : (l.filter p).length ≤ 1) : l.eraseP p = l.filter (fun x => !p x) := by
  induction l with
  | nil => rfl
  | cons x xs ih =>
    by_cases hx : p x = true
    · have hnone : xs.filter p = [] := by
        simp only [List.filter_cons, hx, if_true, List.length_cons] at h
        exact List.length_eq_zero.mp (by omega)
      have hall : xs.filter (fun x => !p x) = xs := by
        rw [List.filter_eq_self]
        intro a ha
        have : ¬ p a = true := fun hp => by
          have hm : a ∈ xs.filter p := List.mem_filter.mpr ⟨ha, hp⟩
          rw [hnone] at hm
          simp at hm
        simpa using this
      simp [List.eraseP_cons, hx, hall]
    · have hx' : p x = false := by simpa using hx
      simp only [List.filter_cons, hx', Bool.false_eq_true, if_false] at h
      simp [List.eraseP_cons, hx', ih h]

theorem deleted_objects (s : TboxState) (id : Nat) :
    (pseudo_toolbox_object_deleted s id).objects
      = s.objects.eraseP (object_id_matches id) := by
  unfold pseudo_toolbox_object_deleted
  cases h : s.objects.find? (object_id_matches id) with
  | some r => rfl
  | none =>
    have : ∀ a ∈ s.objects, ¬ object_id_matches id a = true := by
      simpa [List.find?_eq_none] using h
    exact (List.eraseP_of_forall_not this).symm

/-- C8 (as stated, refuted): object 7 is created and shown, then created
again; after `pseudo_toolbox_object_deleted(7)` a record for 7 remains and
`pseudo_toolbox_object_is_showing(7)` is still true. -/
theorem pseudo_toolbox_object_deleted_leaves_duplicate :
    recorded_ids twice_created = [7, 7] ∧
    recorded_ids (pseudo_toolbox_object_deleted twice_created 7) = [7] ∧
    pseudo_toolbox_object_is_showing (pseudo_toolbox_object_deleted twice_created 7) 7
      = true ∧
    pseudo_toolbox_object_is_showing
      (pseudo_toolbox_delete_object twice_created 0 7 none).2 7 = true := by
  decide

/-- C8 (amended). In a state with at most one record for `id`, after
`pseudo_toolbox_object_deleted(id)` (or `pseudo_toolbox_delete_object`)
`pseudo_toolbox_object_is_showing(id)` is false, no record for `id` remains and
the other records are as before, so the id looks as if never created; when no
record exists nothing changes and no error is raised
(`pseudo_toolbox_delete_object` returns the result of the real call). -/
theorem pseudo_toolbox_object_deleted_unique (s : TboxState) (id flags : Nat)
    (real : Option kernel_oserror)
    (huniq : (s.objects.filter (object_id_matches id)).length ≤ 1) :
    pseudo_toolbox_object_is_showing (pseudo_toolbox_object_deleted s id) id = false ∧
    (∀ r ∈ (pseudo_toolbox_object_deleted s id).objects, r.object_id ≠ id) ∧
    (pseudo_toolbox_object_deleted s id).objects
      = s.objects.filter (fun r => !object_id_matches id r) ∧
    (pseudo_toolbox_delete_object s flags id real).1 = real ∧
    (pseudo_toolbox_delete_object s flags id real).2.objects
      = (pseudo_toolbox_object_deleted s id).objects ∧
    ((∀ r ∈ s.objects, r.object_id ≠ id) → pseudo_toolbox_object_deleted s id = s) := by
  have hobj : (pseudo_toolbox_object_deleted s id).objects
      = s.objects.filter (fun r => !object_id_matches id r) := by
    rw [deleted_objects, eraseP_eq_filter_of_unique _ _ huniq]
  have hnone : ∀ r ∈ (pseudo_toolbox_object_deleted s id).objects, r.object_id ≠ id := by
    intro r hr
    rw [hobj] at hr
    have := (List.mem_filter.mp hr).2
    simp only [object_id_matches, Bool.not_eq_true', beq_eq_false_iff_ne] at this
    exact fun h => this h.symm
  refine ⟨?_, hnone, hobj, rfl, rfl, ?_⟩
  · unfold pseudo_toolbox_object_is_showing
    have hf : (pseudo_toolbox_object_deleted s id).objects.find? (object_id_matches id)
        = none := by
      rw [List.find?_eq_none]
      intro r hr
      have := hnone r hr
      simp only [object_id_matches, beq_iff_eq]
      exact fun h => this h.symm
    rw [hf]
  · intro habs
    unfold pseudo_toolbox_object_deleted
    have hf : s.objects.find? (object_id_matches id) = none := by
      rw [List.find?_eq_none]
      intro r hr
      simp only [object_id_matches, beq_iff_eq]
      exact fun h => habs r hr h.symm
    rw [hf]

/-- C8 witness: objects 3 (showing) and 7 recorded once each, 3 is deleted. -/
theorem pseudo_toolbox_object_deleted_unique_witness :
    pseudo_toolbox_object_is_showing (pseudo_toolbox_object_deleted
      { tbox_start with objects := [⟨7, false⟩, ⟨3, true⟩] } 3) 3 = false ∧
    (∀ r ∈ (pseudo_toolbox_object_deleted
      { tbox_start with objects := [⟨7, false⟩, ⟨3, true⟩] } 3).objects, r.object_id ≠ 3) ∧
    (pseudo_toolbox_object_deleted
      { tbox_start with objects := [⟨7, false⟩, ⟨3, true⟩] } 3).objects
      = [(⟨7, false⟩ : PseudoTbox_Object), ⟨3, true⟩].filter
          (fun r => !object_id_matches 3 r) ∧
    (pseudo_toolbox_delete_object
      { tbox_start with objects := [⟨7, false⟩, ⟨3, true⟩] } 0 3 none).1 = none ∧
    (pseudo_toolbox_delete_object
      { tbox_start with objects := [⟨7, false⟩, ⟨3, true⟩] } 0 3 none).2.objects
      = (pseudo_toolbox_object_deleted
          { tbox_start with objects := [⟨7, false⟩, ⟨3, true⟩] } 3).objects ∧
    ((∀ r ∈ ({ tbox_start with objects := [⟨7, false⟩, ⟨3, true⟩] } : TboxState).objects,
        r.object_id ≠ 3) →
      pseudo_toolbox_object_deleted
        { tbox_start with objects := [⟨7, false⟩, ⟨3, true⟩] } 3
        = { tbox_start with objects := [⟨7, false⟩, ⟨3, true⟩] }) :=
  pseudo_toolbox_object_deleted_unique
    { tbox_start with objects := [⟨7, false⟩, ⟨3, true⟩] } 3 0 none (by decide)

/-! ### The handler lists of PseudoEvnt.c -/

theorem toolbox_handler_matches_iff (a b : PseudoEvent_Toolbox_Handler) :
    toolbox_handler_matches a b = true ↔ a = b := by
  cases a; cases b
  simp [toolbox_handler_matches, and_assoc]

theorem message_handler_matches_iff (a b : PseudoEvent_Message_Handler) :
    message_handler_matches a b = true ↔ a = b := by
  cases a; cases b
  simp [message_handler_matches, and_assoc]

theorem wimp_handler_matches_iff (a b : PseudoEvent_Wimp_Handler) :
    wimp_handler_matches a b = true ↔ a = b := by
  cases a; cases b
  simp [wimp_handler_matches, and_assoc]

/-- C9: for each of the three handler kinds and every state, a successful
register followed by a deregister with the same fields finds the record (no
assertion fails), returns the result of the real deregister call and leaves
the three handler lists exactly as they were before the register; the only
trace left is the two real calls. -/
theorem pseudo_event_register_then_deregister (ndebug : Bool) (s : EventState)
    (object_id : Nat) (event_code : Int) (handler handle : Nat)
    (real : Option kernel_oserror) :
    ((pseudo_event_register_toolbox_handler s object_id event_code handler handle true
        none).1 = none ∧
      pseudo_event_deregister_toolbox_handler ndebug
        (pseudo_event_register_toolbox_handler s object_id event_code handler handle true
          none).2 object_id event_code handler handle real
        = .ret real { s with calls := s.calls ++
            [EventCall.register_toolbox_handler object_id event_code handler handle,
             EventCall.deregister_toolbox_handler object_id event_code handler handle] }) ∧
    ((pseudo_event_register_wimp_handler s object_id event_code handler handle true
        none).1 = none ∧
      pseudo_event_deregister_wimp_handler ndebug
        (pseudo_event_register_wimp_handler s object_id event_code handler handle true
          none).2 object_id event_code handler handle real
        = .ret real { s with calls := s.calls ++
            [EventCall.register_wimp_handler object_id event_code handler handle,
             EventCall.deregister_wimp_handler object_id event_code handler handle] }) ∧
    ((pseudo_event_register_message_handler s event_code handler handle true none).1
        = none ∧
      pseudo_event_deregister_message_handler ndebug
        (pseudo_event_register_message_handler s event_code handler handle true none).2
        event_code handler handle real
        = .ret real { s with calls := s.calls ++
            [EventCall.register_message_handler event_code handler handle,
             EventCall.deregister_message_handler event_code handler handle] }) := by
  refine ⟨⟨rfl, ?_⟩, ⟨rfl, ?_⟩, ⟨rfl, ?_⟩⟩
  · have hm : toolbox_handler_matches ⟨object_id, event_code, handler, handle⟩
        ⟨object_id, event_code, handler, handle⟩ = true :=
      (toolbox_handler_matches_iff _ _).mpr rfl
    simp [pseudo_event_register_toolbox_handler, pseudo_event_deregister_toolbox_handler,
      List.find?, List.eraseP_cons, hm]
  · have hm : wimp_handler_matches ⟨object_id, event_code, handler, handle⟩
        ⟨object_id, event_code, handler, handle⟩ = true :=
      (wimp_handler_matches_iff _ _).mpr rfl
    simp [pseudo_event_register_wimp_handler, pseudo_event_deregister_wimp_handler,
      List.find?, List.eraseP_cons, hm]
  · have hm : message_handler_matches ⟨event_code, handler, handle⟩
        ⟨event_code, handler, handle⟩ = true :=
      (message_handler_matches_iff _ _).mpr rfl
    simp [pseudo_event_register_message_handler, pseudo_event_deregister_message_handler,
      List.find?, List.eraseP_cons, hm]

/-- C10 (as stated, refuted): with `NDEBUG` defined there is no assertion to
halt at; a deregister that agrees with the registered record in every field
but the handle goes on with the null pointer that the search returned, for
each of the three kinds. -/
theorem pseudo_event_deregister_unmatched_ndebug :
    pseudo_event_deregister_toolbox_handler true one_each 1 2 3 5 none = .ub ∧
    pseudo_event_deregister_wimp_handler true one_each 1 2 3 5 none = .ub ∧
    pseudo_event_deregister_message_handler true one_each 2 3 5 none = .ub := by
  refine ⟨rfl, rfl, rfl⟩

/-- C10 (amended). For each handler kind, a deregister whose fields equal
those of no record in the list of that kind (whatever the two other lists
hold): with assertions compiled in it stops in `abort()` at the assertion, in
the state in which it was called, so that no list has changed and the real
deregister call has not been made; with `NDEBUG` defined it hands the null
pointer to `linkedlist_remove` and `Fortify_free`. -/
theorem pseudo_event_deregister_unmatched_aborts (s : EventState)
    (object_id : Nat) (event_code : Int) (handler handle : Nat)
    (real : Option kernel_oserror) :
    ((∀ r ∈ s.tb_handlers,
        r ≠ { object_id := object_id, event_code := event_code, handler := handler,
              handle := handle }) →
      pseudo_event_deregister_toolbox_handler false s object_id event_code handler handle real
        = .abort s ∧
      pseudo_event_deregister_toolbox_handler true s object_id event_code handler handle real
        = .ub) ∧
    ((∀ r ∈ s.wimp_handlers,
        r ≠ { object_id := object_id, event_code := event_code, handler := handler,
              handle := handle }) →
      pseudo_event_deregister_wimp_handler false s object_id event_code handler handle real
        = .abort s ∧
      pseudo_event_deregister_wimp_handler true s object_id event_code handler handle real
        = .ub) ∧
    ((∀ r ∈ s.msg_handlers,
        r ≠ { msg_no := event_code, handler := handler, handle := handle }) →
      pseudo_event_deregister_message_handler false s event_code handler handle real
        = .abort s ∧
      pseudo_event_deregister_message_handler true s event_code handler handle real
        = .ub) := by
  refine ⟨?_, ?_, ?_⟩
  · intro htb
    have hf : s.tb_handlers.find?
        (toolbox_handler_matches ⟨object_id, event_code, handler, handle⟩) = none := by
      rw [List.find?_eq_none]
      intro r hr hm
      exact htb r hr ((toolbox_handler_matches_iff _ _).mp hm).symm
    constructor <;> simp [pseudo_event_deregister_toolbox_handler, hf, assert_fails]
  · intro hwimp
    have hf : s.wimp_handlers.find?
        (wimp_handler_matches ⟨object_id, event_code, handler, handle⟩) = none := by
      rw [List.find?_eq_none]
      intro r hr hm
      exact hwimp r hr ((wimp_handler_matches_iff _ _).mp hm).symm
    constructor <;> simp [pseudo_event_deregister_wimp_handler, hf, assert_fails]
  · intro hmsg
    have hf : s.msg_handlers.find?
        (message_handler_matches ⟨event_code, handler, handle⟩) = none := by
      rw [List.find?_eq_none]
      intro r hr hm
      exact hmsg r hr ((message_handler_matches_iff _ _).mp hm).symm
    constructor <;> simp [pseudo_event_deregister_message_handler, hf, assert_fails]

/-- C10 witness: the registered records have handle 4 and the deregister calls
pass handle 5, agreeing in every other field; and a Toolbox deregister of a
tuple that is registered as a Wimp handler only. -/
theorem pseudo_event_deregister_unmatched_aborts_witness :
    pseudo_event_deregister_toolbox_handler false one_each 1 2 3 5 none = .abort one_each ∧
    pseudo_event_deregister_wimp_handler false one_each 1 2 3 5 none = .abort one_each ∧
    pseudo_event_deregister_message_handler false one_each 2 3 5 none = .abort one_each ∧
    pseudo_event_deregister_toolbox_handler false wimp_only 1 2 3 4 none = .abort wimp_only ∧
    pseudo_event_deregister_message_handler false wimp_only 2 3 4 none = .abort wimp_only :=
  ⟨((pseudo_event_deregister_unmatched_aborts one_each 1 2 3 5 none).1 (by decide)).1,
    ((pseudo_event_deregister_unmatched_aborts one_each 1 2 3 5 none).2.1 (by decide)).1,
    ((pseudo_event_deregister_unmatched_aborts one_each 1 2 3 5 none).2.2 (by decide)).1,
    ((pseudo_event_deregister_unmatched_aborts wimp_only 1 2 3 4 none).1 (by decide)).1,
    ((pseudo_event_deregister_unmatched_aborts wimp_only 1 2 3 4 none).2.2 (by decide)).1⟩

/-! ### PseudoFlex_alloc, PseudoFlex_extend, PseudoFlex_reanchor -/

/-- C12: if the record allocation or the block allocation fails,
`PseudoFlex_alloc` returns 0 and leaves the whole state, the caller's anchor
and the block list included, as it was; if both succeed it returns 1 and
`PseudoFlex_size(anchor)` is the requested `n`, for every `n ≥ 0`. -/
theorem PseudoFlex_alloc_all_or_nothing (ndebug : Bool) (s : FlexState) (anchor n : Nat)
    (mem : Bool) (alloc : Option Fresh) (f : Fresh) (hanchor : anchor ≠ 0) :
    (mem = false ∨ alloc = none →
      PseudoFlex_alloc ndebug s anchor (n : Int) mem alloc = .ret 0 s) ∧
    (∃ s', PseudoFlex_alloc ndebug s anchor (n : Int) true (some f) = .ret 1 s' ∧
      PseudoFlex_size ndebug s' anchor = .ret (n : Int) s') := by
  have ha0 : assert_fails ndebug (anchor != 0) = false := by
    simp [assert_fails, hanchor]
  have hn0 : assert_fails ndebug (decide ((n : Int) ≥ 0)) = false := by
    simp [assert_fails]
  constructor
  · intro h
    unfold PseudoFlex_alloc
    rw [ha0, hn0]
    rcases h with h | h
    · simp [h]
    · subst h
      cases mem <;> simp
  · have hst : PseudoFlex_alloc ndebug s anchor (n : Int) true (some f)
        = .ret 1 { s with
            block_list := { size := (n : Int), anchor := anchor } :: s.block_list
            anchors := upd s.anchors anchor f.addr
            heap := upd s.heap f.addr (some f.bytes) } := by
      unfold PseudoFlex_alloc
      rw [ha0, hn0]
      simp [hanchor]
    refine ⟨_, hst, ?_⟩
    unfold PseudoFlex_size
    rw [ha0]
    simp [find_anchor, List.find?]

/-- C12 witness: a block of 0 bytes at anchor 1. -/
theorem PseudoFlex_alloc_all_or_nothing_witness :
    (false = false ∨ (none : Option Fresh) = none →
      PseudoFlex_alloc false helloState 5 ((0 : Nat) : Int) false none = .ret 0 helloState) ∧
    (∃ s', PseudoFlex_alloc false helloState 5 ((0 : Nat) : Int) true
        (some { addr := 300, bytes := [] }) = .ret 1 s' ∧
      PseudoFlex_size false s' 5 = .ret ((0 : Nat) : Int) s') :=
  PseudoFlex_alloc_all_or_nothing false helloState 5 0 false none
    { addr := 300, bytes := [] } (by decide)

/-- C13: for a registered anchor whose block holds `n` bytes `c` and a new
size `m ≥ 0`: if the resize succeeds `PseudoFlex_extend` returns 1, records the
size `m` and the block has `m` bytes of which the first `min n m` are those of
`c`; if it fails the call returns 0 and the state (the anchor's value, the
recorded size, the content) is as it was. -/
theorem PseudoFlex_extend_resize (ndebug : Bool) (s : FlexState) (anchor n m : Nat)
    (c : List Nat) (f : Fresh) (pfr : PseudoFlexRecord)
    (hanchor : anchor ≠ 0)
    (hrec : find_anchor s anchor = some pfr) (_hsize : pfr.size = (n : Int))
    (hm : m < 2 ^ 31)
    (hblk : s.heap (s.anchors anchor) = some c) (hlen : c.length = n)
    (hf : m - n ≤ f.bytes.length) :
    (∃ s' d, PseudoFlex_extend ndebug s anchor (m : Int) (some f) = .ret 1 s' ∧
      PseudoFlex_size ndebug s' anchor = .ret (m : Int) s' ∧
      s'.heap (s'.anchors anchor) = some d ∧ d.length = m ∧
      d.take (min n m) = c.take (min n m)) ∧
    PseudoFlex_extend ndebug s anchor (m : Int) none = .ret 0 s := by
  have ha0 : assert_fails ndebug (anchor != 0) = false := by
    simp [assert_fails, hanchor]
  have hn0 : assert_fails ndebug (decide ((m : Int) ≥ 0)) = false := by
    simp [assert_fails]
  have t : to_size_t (m : Int) = m := to_size_t_natCast m (by omega)
  constructor
  · have hst : PseudoFlex_extend ndebug s anchor (m : Int) (some f)
        = .ret 1 { s with
            heap := upd (upd s.heap (s.anchors anchor) none) f.addr
              (some ((c ++ f.bytes).take m))
            anchors := upd s.anchors anchor f.addr
            block_list := set_size s.block_list anchor (m : Int) } := by
      unfold PseudoFlex_extend
      rw [ha0, hn0]
      simp only [hrec, hblk, t]
      rfl
    refine ⟨_, (c ++ f.bytes).take m, hst, ?_, ?_, ?_, ?_⟩
    · exact size_after_set_size ndebug s _ anchor _ pfr hanchor hrec rfl
    · simp only [upd_same]
    · simp only [List.length_take, List.length_append]; omega
    · rw [List.take_take, List.take_append_of_le_length (by omega)]
      congr 1
      omega
  · unfold PseudoFlex_extend
    rw [ha0, hn0]
    simp only [hrec]
    rfl

/-- C13 witness: "HELLOWORLD" cut to 4 bytes. -/
theorem PseudoFlex_extend_resize_witness :
    (∃ s' d, PseudoFlex_extend false helloState 1 ((4 : Nat) : Int)
        (some { addr := 100, bytes := [] }) = .ret 1 s' ∧
      PseudoFlex_size false s' 1 = .ret ((4 : Nat) : Int) s' ∧
      s'.heap (s'.anchors 1) = some d ∧ d.length = 4 ∧
      d.take (min 10 4) = [72, 69, 76, 76, 79, 87, 79, 82, 76, 68].take (min 10 4)) ∧
    PseudoFlex_extend false helloState 1 ((4 : Nat) : Int) none = .ret 0 helloState :=
  PseudoFlex_extend_resize false helloState 1 10 4 [72, 69, 76, 76, 79, 87, 79, 82, 76, 68]
    { addr := 100, bytes := [] } ⟨10, 1⟩ (by decide) (by decide) rfl (by norm_num)
    (by decide) (by decide) (by decide)

/-- C15 (as stated, refuted): on the 10-byte block "HELLOWORLD", `at = 5` and
`by = -2147483648` satisfy `at ≥ 0`, `by < 0` and `-by > at`. The negation
`-by` computed in `int` is `-2147483648` again, so the assertion and the guard
are both passed and the allocator is asked for a replacement block: with
assertions compiled in the call returns 0 when the allocator refuses, instead
of stopping in `abort()`, and when the allocator grants a block the copy that
follows reads outside the old block. -/
theorem PseudoFlex_midextend_int_min :
    (5 : Int) ≥ 0 ∧ (-2147483648 : Int) < 0 ∧ -(-2147483648 : Int) > 5 ∧
    wrap_int (-(-2147483648 : Int)) = -2147483648 ∧
    PseudoFlex_midextend false helloState 1 5 (-2147483648) none = .ret 0 helloState ∧
    PseudoFlex_midextend false helloState 1 5 (-2147483648)
      (some { addr := 200, bytes := [] }) = .ub ∧
    PseudoFlex_midextend true helloState 1 5 (-2147483648)
      (some { addr := 200, bytes := [] }) = .ub := by
  refine ⟨by decide, by decide, by decide, by decide, rfl, rfl, rfl⟩

/-- C15 (amended). For a registered block, `at ≥ 0` and `INT_MIN < by < 0` with
`-by > at`, `PseudoFlex_midextend` does not remove anything: with assertions
compiled in it stops in `abort()`, otherwise it returns 0; in both cases the
state is as it was and the answer the allocator would have given plays no
part. -/
theorem PseudoFlex_midextend_below_start (s : FlexState) (anchor : Nat) (at_ by_ : Int)
    (alloc : Option Fresh) (pfr : PseudoFlexRecord)
    (hanchor : anchor ≠ 0) (hrec : find_anchor s anchor = some pfr)
    (hat : 0 ≤ at_) (hmin : -2 ^ 31 < by_) (hby : by_ < 0) (hlow : -by_ > at_) :
    PseudoFlex_midextend false s anchor at_ by_ alloc = .abort s ∧
    PseudoFlex_midextend true s anchor at_ by_ alloc = .ret 0 s := by
  have hw : wrap_int (-by_) = -by_ := wrap_int_id _ (by omega) (by omega)
  constructor
  · unfold PseudoFlex_midextend
    simp only [hrec, hw]
    by_cases hsz : at_ ≤ pfr.size
    · have h3 : ¬ (-by_ ≤ at_) := by omega
      simp [assert_fails, hanchor, hat, hsz, hby, h3]
    · simp [assert_fails, hanchor, hat, hsz]
  · unfold PseudoFlex_midextend
    simp only [hrec, hw]
    simp [assert_fails, hby, hlow]

/-- C15 witness: removing 3 bytes at offset 2 of "HELLOWORLD". -/
theorem PseudoFlex_midextend_below_start_witness :
    PseudoFlex_midextend false helloState 1 2 (-3) (some { addr := 200, bytes := [] })
      = .abort helloState ∧
    PseudoFlex_midextend true helloState 1 2 (-3) (some { addr := 200, bytes := [] })
      = .ret 0 helloState :=
  PseudoFlex_midextend_below_start helloState 1 2 (-3) (some { addr := 200, bytes := [] })
    ⟨10, 1⟩ (by decide) rfl (by decide) (by decide) (by decide) (by decide)

theorem find_set_anchor_to (l : List PseudoFlexRecord) (frm to_ : Nat)
    (pfr : PseudoFlexRecord)
    (hrec : l.find? (fun r => r.anchor == frm) = some pfr)
    (hnot : l.find? (fun r => r.anchor == to_) = none) :
    (set_anchor l frm to_).find? (fun r => r.anchor == to_)
      = some { pfr with anchor := to_ } := by
  induction l with
  | nil => simp at hrec
  | cons r rs ih =>
    by_cases hr : r.anchor = frm
    · simp [List.find?, hr] at hrec
      subst hrec
      simp [set_anchor, List.find?, hr]
    · have hr2 : (r.anchor == frm) = false := by simpa using hr
      have hr3 : (r.anchor == to_) = false := by
        by_contra hc
        simp only [Bool.not_eq_false] at hc
        simp [List.find?, hc] at hnot
      simp only [List.find?, hr2] at hrec
      simp only [List.find?, hr3] at hnot
      simp [set_anchor, hr2, List.find?, hr3, ih hrec hnot]

theorem find_set_anchor_from (l : List PseudoFlexRecord) (frm to_ : Nat) (hne : to_ ≠ frm)
    (huniq : (l.filter (fun r => r.anchor == frm)).length ≤ 1) :
    (set_anchor l frm to_).find? (fun r => r.anchor == frm) = none := by
  induction l with
  | nil => rfl
  | cons r rs ih =>
    by_cases hr : r.anchor = frm
    · have hr1 : (r.anchor == frm) = true := by simpa using hr
      have hnone : rs.filter (fun r => r.anchor == frm) = [] := by
        simp only [List.filter_cons, hr1, if_true, List.length_cons] at huniq
        exact List.length_eq_zero.mp (by omega)
      have hfind : rs.find? (fun r => r.anchor == frm) = none := by
        rw [List.find?_eq_none]
        intro a ha hm
        have hmem : a ∈ rs.filter (fun r => r.anchor == frm) :=
          List.mem_filter.mpr ⟨ha, hm⟩
        rw [hnone] at hmem
        simp at hmem
      simp [set_anchor, hr1, List.find?, hne, hfind]
    · have hr2 : (r.anchor == frm) = false := by simpa using hr
      simp only [List.filter_cons, hr2, Bool.false_eq_true, if_false] at huniq
      simp [set_anchor, hr2, List.find?, ih huniq]

theorem find_set_anchor_other (l : List PseudoFlexRecord) (frm to_ a : Nat)
    (ha1 : a ≠ frm) (ha2 : a ≠ to_) :
    (set_anchor l frm to_).find? (fun r => r.anchor == a)
      = l.find? (fun r => r.anchor == a) := by
  induction l with
  | nil => rfl
  | cons r rs ih =>
    by_cases hr : r.anchor = frm
    · have hr1 : (r.anchor == frm) = true := by simpa using hr
      have h1 : (r.anchor == a) = false := by
        simpa [hr] using fun h : frm = a => ha1 h.symm
      have h2 : (to_ == a) = false := by
        simpa using fun h : to_ = a => ha2 h.symm
      simp [set_anchor, hr1, List.find?, h1, h2]
    · have hr2 : (r.anchor == frm) = false := by simpa using hr
      simp only [set_anchor, hr2, Bool.false_eq_true, if_false, List.find?]
      rw [ih]

/-- C14 (as stated, refuted): anchor 1 is registered by two successive
`PseudoFlex_alloc` calls and anchor 2 is not registered; the three calls
return 1, and after `PseudoFlex_reanchor(2, 1)` a lookup of anchor 1 still
finds a record, that of the first block (4 bytes). -/
theorem PseudoFlex_reanchor_leaves_older_record :
    ret_val (run_ops false flex_start twice_alloc_ops) = some [1, 1, 1] ∧
    size_after (run_ops false flex_start twice_alloc_ops) 2 = some 2 ∧
    size_after (run_ops false flex_start twice_alloc_ops) 1 = some 4 := by
  decide

/-- C14 (amended). For an anchor `from` registered once and an anchor `to`
distinct from it and not registered, both non-null: `PseudoFlex_reanchor(to,
from)` returns 1; afterwards `PseudoFlex_size(to)` is the prior size of `from`,
`*to` is the prior `*from` and the heap is untouched (same storage and
content), `*from` is `NULL`, a lookup of `from` finds no record, and for every
other anchor the record found and the value held are unchanged. -/
theorem PseudoFlex_reanchor_moves (ndebug : Bool) (s : FlexState) (to_ frm : Nat)
    (pfr : PseudoFlexRecord)
    (hto : to_ ≠ 0) (hfrm : frm ≠ 0) (hne : to_ ≠ frm)
    (hrec : find_anchor s frm = some pfr)
    (huniq : (s.block_list.filter (fun r => r.anchor == frm)).length ≤ 1)
    (hnot : find_anchor s to_ = none) :
    ∃ s', PseudoFlex_reanchor ndebug s to_ frm = .ret 1 s' ∧
      PseudoFlex_size ndebug s' to_ = .ret pfr.size s' ∧
      s'.anchors to_ = s.anchors frm ∧ s'.heap = s.heap ∧
      s'.anchors frm = 0 ∧
      find_anchor s' frm = none ∧
      ∀ a, a ≠ frm → a ≠ to_ →
        find_anchor s' a = find_anchor s a ∧ s'.anchors a = s.anchors a := by
  have hst : PseudoFlex_reanchor ndebug s to_ frm
      = .ret 1 { s with
          block_list := set_anchor s.block_list frm to_
          anchors := upd (upd s.anchors to_ (s.anchors frm)) frm 0 } := by
    unfold PseudoFlex_reanchor
    simp [assert_fails, hto, hfrm, hrec]
  refine ⟨_, hst, ?_, ?_, rfl, ?_, ?_, ?_⟩
  · unfold PseudoFlex_size find_anchor
    simp only
    rw [find_set_anchor_to s.block_list frm to_ pfr hrec hnot]
    simp [assert_fails, hto]
  · simp only
    rw [upd_other _ _ _ _ hne, upd_same]
  · simp only [upd_same]
  · exact find_set_anchor_from s.block_list frm to_ hne huniq
  · intro a ha1 ha2
    constructor
    · exact find_set_anchor_other s.block_list frm to_ a ha1 ha2
    · simp only
      rw [upd_other _ _ _ _ ha1, upd_other _ _ _ _ ha2]

/-- C14 witness: the block "HELLOWORLD" moves from anchor 1 to anchor 2. -/
theorem PseudoFlex_reanchor_moves_witness :
    ∃ s', PseudoFlex_reanchor false helloState 2 1 = .ret 1 s' ∧
      PseudoFlex_size false s' 2 = .ret (10 : Int) s' ∧
      s'.anchors 2 = helloState.anchors 1 ∧ s'.heap = helloState.heap ∧
      s'.anchors 1 = 0 ∧
      find_anchor s' 1 = none ∧
      ∀ a, a ≠ 1 → a ≠ 2 →
        find_anchor s' a = find_anchor helloState a ∧ s'.anchors a = helloState.anchors a :=
  PseudoFlex_reanchor_moves false helloState 2 1 ⟨10, 1⟩ (by decide) (by decide) (by decide)
    rfl (by decide) rfl

/-! ### The sizes recorded by PseudoFlex.c -/

theorem big_fill_length : big_fill.length = 2147483647 := by
  unfold big_fill
  rw [List.length_replicate]

theorem alloc_one_byte (ndebug : Bool) :
    run_op ndebug flex_start (FlexOp.alloc 1 1 true (some { addr := 100, bytes := [0] }))
      = .ret 1 one_byte_state := by
  simp [run_op, PseudoFlex_alloc, assert_fails, one_byte_state, flex_start]

/-- Insertion at the end of a block, whatever `size + by` wraps to: the size
recorded is the wrapped sum. -/
theorem midextend_append_state (ndebug : Bool) (s : FlexState) (anchor n b : Nat)
    (c : List Nat) (f : Fresh) (pfr : PseudoFlexRecord)
    (hanchor : anchor ≠ 0)
    (hrec : find_anchor s anchor = some pfr) (hsize : pfr.size = (n : Int))
    (hblk : s.heap (s.anchors anchor) = some c) (hlen : c.length = n)
    (hk : to_size_t (wrap_int ((n : Int) + (b : Int))) ≤ n + f.bytes.length)
    (hk2 : n + b ≤ to_size_t (wrap_int ((n : Int) + (b : Int)))) :
    ∃ s', PseudoFlex_midextend ndebug s anchor (n : Int) (b : Int) (some f) = .ret 1 s' ∧
      s'.block_list = set_size s.block_list anchor (wrap_int ((n : Int) + (b : Int))) := by
  have e4 : ((n : Int) + (b : Int)).toNat = n + b := by omega
  have e5 : ((n : Int)).toNat = n := by omega
  have t0 : to_size_t ((n : Int) - (n : Int)) = 0 := by
    rw [Int.sub_self]; rfl
  have hl : ((c ++ f.bytes).take (to_size_t (wrap_int ((n : Int) + (b : Int))))).length
      = to_size_t (wrap_int ((n : Int) + (b : Int))) := by
    rw [List.length_take, List.length_append]; omega
  obtain ⟨b2, hb2⟩ : ∃ b2, memmove
      ((c ++ f.bytes).take (to_size_t (wrap_int ((n : Int) + (b : Int))))) (n + b) n 0
      = some b2 := by
    unfold memmove
    rw [if_pos (by rw [hl]; omega)]
    exact ⟨_, rfl⟩
  have ha0 : assert_fails ndebug (anchor != 0) = false := by
    simp [assert_fails, hanchor]
  have ha1 : assert_fails ndebug (decide ((n : Int) ≥ 0)) = false := by
    simp [assert_fails]
  have ha2 : assert_fails ndebug (decide ((n : Int) ≤ (n : Int))) = false := by
    simp [assert_fails]
  have hb0 : ¬ ((b : Int) < 0) := by omega
  have hn0 : ¬ ((n : Int) < 0) := by omega
  refine ⟨{ s with
      heap := upd (upd s.heap (s.anchors anchor) none) f.addr (some b2)
      anchors := upd s.anchors anchor f.addr
      block_list := set_size s.block_list anchor (wrap_int ((n : Int) + (b : Int))) },
    ?_, rfl⟩
  unfold PseudoFlex_midextend
  rw [if_neg (by rw [ha0]; decide), if_neg (by rw [ha1]; decide)]
  simp only [hrec, hsize]
  rw [if_neg (by rw [ha2]; decide), if_neg hb0]
  simp only [hblk]
  rw [if_neg hn0]
  simp only [t0, e4, e5, hb2]

theorem overflow_wrap :
    to_size_t (wrap_int (((1 : Nat) : Int) + ((2147483647 : Nat) : Int))) = 2147483648 := by
  have hw : wrap_int (((1 : Nat) : Int) + ((2147483647 : Nat) : Int)) = -2147483648 := by
    decide
  have ht : to_size_t (-2147483648) = 2147483648 := by decide
  rw [hw, ht]

theorem overflow_fill_length :
    (Fresh.mk 200 big_fill).bytes.length = 2147483647 := big_fill_length

theorem overflow_insert :
    ∃ s2, run_op false one_byte_state
        (FlexOp.midextend 1 1 2147483647 (some { addr := 200, bytes := big_fill }))
        = .ret 1 s2 ∧
      s2.block_list = [{ size := -2147483648, anchor := 1 }] := by
  have hw : wrap_int (((1 : Nat) : Int) + ((2147483647 : Nat) : Int)) = -2147483648 := by
    decide
  obtain ⟨s2, h, hl⟩ := midextend_append_state false one_byte_state 1 1 2147483647 [0]
    { addr := 200, bytes := big_fill } { size := 1, anchor := 1 } (by decide) (by decide)
    rfl (by decide) rfl
    (by rw [overflow_wrap, overflow_fill_length])
    (by rw [overflow_wrap])
  refine ⟨s2, h, ?_⟩
  rw [hl, hw]
  rfl

/-- C16 (as stated, refuted): a block of one byte is allocated and
`PseudoFlex_midextend(at = 1, by = 2147483647)` is called on it, both within
the asserted preconditions; when the allocator grants the resize the call
returns 1 and the size recorded is `-2147483648`. -/
theorem PseudoFlex_size_can_go_negative :
    ∃ s2, run_op false flex_start (FlexOp.alloc 1 1 true (some { addr := 100, bytes := [0] }))
        = .ret 1 one_byte_state ∧
      run_op false one_byte_state
        (FlexOp.midextend 1 1 2147483647 (some { addr := 200, bytes := big_fill }))
        = .ret 1 s2 ∧
      FlexReachable false s2 ∧
      s2.block_list = [{ size := -2147483648, anchor := 1 }] := by
  obtain ⟨s2, h2, hl⟩ := overflow_insert
  have h1 := alloc_one_byte false
  refine ⟨s2, h1, h2, ?_, hl⟩
  refine FlexReachable.step one_byte_state s2 _ 1
    (FlexReachable.step flex_start one_byte_state _ 1 FlexReachable.start ?_ h1) ?_ h2
  · exact ⟨by decide, ⟨by decide, by decide⟩, by decide⟩
  · exact ⟨by decide, ⟨by decide, by decide⟩, ⟨by decide, by decide⟩,
      ⟨{ size := 1, anchor := 1 }, by decide, by decide, by decide, by decide⟩⟩

theorem mem_set_size (l : List PseudoFlexRecord) (anchor : Nat) (v : Int)
    (r : PseudoFlexRecord) (h : r ∈ set_size l anchor v) : r ∈ l ∨ r.size = v := by
  induction l with
  | nil => simp [set_size] at h
  | cons x xs ih =>
    unfold set_size at h
    split at h
    · rcases List.mem_cons.mp h with h1 | h1
      · right; rw [h1]
      · left; exact List.mem_cons_of_mem _ h1
    · rcases List.mem_cons.mp h with h1 | h1
      · left; rw [h1]; exact List.mem_cons_self _ _
      · rcases ih h1 with h2 | h2
        · left; exact List.mem_cons_of_mem _ h2
        · right; exact h2

theorem mem_set_anchor (l : List PseudoFlexRecord) (frm to_ : Nat)
    (r : PseudoFlexRecord) (h : r ∈ set_anchor l frm to_) : ∃ r0 ∈ l, r0.size = r.size := by
  induction l with
  | nil => simp [set_anchor] at h
  | cons x xs ih =>
    unfold set_anchor at h
    split at h
    · rcases List.mem_cons.mp h with h1 | h1
      · exact ⟨x, List.mem_cons_self _ _, by rw [h1]⟩
      · exact ⟨r, List.mem_cons_of_mem _ h1, rfl⟩
    · rcases List.mem_cons.mp h with h1 | h1
      · exact ⟨x, List.mem_cons_self _ _, by rw [h1]⟩
      · obtain ⟨r0, hr0, hs⟩ := ih h1
        exact ⟨r0, List.mem_cons_of_mem _ hr0, hs⟩

theorem sizes_ok_set_size (l : List PseudoFlexRecord) (anchor : Nat) (v : Int)
    (hl : sizes_ok l) (hv : 0 ≤ v ∧ v < 2 ^ 31) : sizes_ok (set_size l anchor v) := by
  intro r hr
  rcases mem_set_size l anchor v r hr with h | h
  · exact hl r h
  · rw [h]; exact hv

/-- One returning operation called within its preconditions, and not growing a
block beyond `INT_MAX`, keeps every recorded size a non-negative `int`. -/
theorem step_sizes_ok (ndebug : Bool) (s s' : FlexState) (op : FlexOp) (v : Int)
    (hpre : op.pre s) (hfit : op.fits s) (h : run_op ndebug s op = .ret v s')
    (hinv : sizes_ok s.block_list) : sizes_ok s'.block_list := by
  cases op with
  | alloc anchor n mem alloc =>
    obtain ⟨_, ⟨_, hn2⟩, hn0⟩ := hpre
    simp only [run_op] at h
    unfold PseudoFlex_alloc at h
    repeat' split at h
    all_goals cases h
    all_goals first
      | exact hinv
      | (intro r hr
         rcases List.mem_cons.mp hr with h1 | h1
         · rw [h1]; exact ⟨hn0, hn2⟩
         · exact hinv r h1)
  | free anchor =>
    simp only [run_op] at h
    obtain ⟨u, s1, h1, h2⟩ := bind_eq_ret _ _ _ _ h
    cases h2
    unfold PseudoFlex_free at h1
    repeat' split at h1
    all_goals cases h1
    all_goals first
      | exact hinv
      | (intro r hr; exact hinv r (List.mem_of_mem_eraseP hr))
  | size anchor =>
    simp only [run_op] at h
    unfold PseudoFlex_size at h
    repeat' split at h
    all_goals cases h
    all_goals exact hinv
  | extend anchor newsize alloc =>
    obtain ⟨_, _, ⟨_, hn2⟩, hn0⟩ := hpre
    simp only [run_op] at h
    unfold PseudoFlex_extend at h
    repeat' split at h
    all_goals cases h
    all_goals first
      | exact hinv
      | exact sizes_ok_set_size _ _ _ hinv ⟨hn0, hn2⟩
  | midextend anchor at_ by_ alloc =>
    obtain ⟨_, _, ⟨hby1, _⟩, pfr, hfind, h0, hle, hneg⟩ := hpre
    have hfit' : pfr.size + by_ < 2 ^ 31 := hfit pfr hfind
    have hmem : pfr ∈ s.block_list := List.mem_of_find?_eq_some hfind
    have hp := hinv pfr hmem
    have hrange : 0 ≤ pfr.size + by_ := by
      by_cases hb : by_ < 0
      · have := hneg hb; omega
      · omega
    have hw : wrap_int (pfr.size + by_) = pfr.size + by_ :=
      wrap_int_id _ (by omega) hfit'
    simp only [run_op] at h
    unfold PseudoFlex_midextend at h
    simp only [hfind, hw] at h
    repeat' split at h
    all_goals cases h
    all_goals first
      | exact hinv
      | exact sizes_ok_set_size _ _ _ hinv ⟨hrange, hfit'⟩
  | reanchor to_ frm =>
    simp only [run_op] at h
    unfold PseudoFlex_reanchor at h
    repeat' split at h
    all_goals cases h
    all_goals first
      | exact hinv
      | (intro r hr
         obtain ⟨r0, hr0, hs⟩ := mem_set_anchor _ _ _ r hr
         rw [← hs]; exact hinv r0 hr0)

/-- C16 (amended). In every state reached through `PseudoFlex_alloc`,
`PseudoFlex_free`, `PseudoFlex_size`, `PseudoFlex_extend`,
`PseudoFlex_midextend` and `PseudoFlex_reanchor` called with `int` arguments
that satisfy the asserted preconditions and, for an insertion, keep
`size + by ≤ INT_MAX`, every recorded size is `≥ 0` (and an `int`). -/
theorem PseudoFlex_sizes_non_negative (ndebug : Bool) (s : FlexState)
    (hs : FlexReachableFit ndebug s) :
    ∀ r ∈ s.block_list, 0 ≤ r.size ∧ r.size < 2 ^ 31 := by
  induction hs with
  | start => intro r hr; simp [flex_start] at hr
  | step s s' op v _ hpre hfit hrun ih => exact step_sizes_ok ndebug s s' op v hpre hfit hrun ih

/-- C16 witness: the state after one allocation of one byte. -/
theorem PseudoFlex_sizes_non_negative_witness :
    FlexReachableFit false one_byte_state ∧
    one_byte_state.block_list = [{ size := 1, anchor := 1 }] ∧
    0 ≤ ({ size := 1, anchor := 1 } : PseudoFlexRecord).size ∧
    ({ size := 1, anchor := 1 } : PseudoFlexRecord).size < 2 ^ 31 :=
  have hr : FlexReachableFit false one_byte_state :=
    FlexReachableFit.step flex_start one_byte_state
      (FlexOp.alloc 1 1 true (some { addr := 100, bytes := [0] })) 1
      FlexReachableFit.start ⟨by decide, ⟨by decide, by decide⟩, by decide⟩ trivial
      (alloc_one_byte false)
  ⟨hr, rfl, PseudoFlex_sizes_non_negative false one_byte_state hr
    { size := 1, anchor := 1 } (by decide)⟩

/-! ### The two flags of PseudoFlex.c -/

theorem map_state_bind {σ α β : Type} (g : σ → σ) (x : Outcome σ α)
    (f1 f2 : α → σ → Outcome σ β)
    (h : ∀ a s, f2 a (g s) = (f1 a s).map_state g) :
    (x.map_state g).bind f2 = (x.bind f1).map_state g := by
  cases x with
  | ret a s => exact h a s
  | abort s => rfl
  | ub => rfl

/-- No block operation reads or writes the two flags. -/
theorem run_op_with_flags (ndebug : Bool) (d b : Int) (s : FlexState) (op : FlexOp) :
    run_op ndebug (with_flags d b s) op
      = (run_op ndebug s op).map_state (with_flags d b) := by
  cases op with
  | alloc anchor n mem alloc =>
    simp only [run_op, PseudoFlex_alloc]
    repeat' split
    all_goals rfl
  | free anchor =>
    simp only [run_op, PseudoFlex_free, find_anchor, with_flags]
    repeat' split
    all_goals rfl
  | size anchor =>
    simp only [run_op, PseudoFlex_size, find_anchor, with_flags]
    repeat' split
    all_goals rfl
  | extend anchor newsize alloc =>
    simp only [run_op, PseudoFlex_extend, find_anchor, with_flags]
    repeat' split
    all_goals rfl
  | midextend anchor at_ by_ alloc =>
    simp only [run_op, PseudoFlex_midextend, find_anchor, with_flags]
    repeat' split
    all_goals rfl
  | reanchor to_ frm =>
    simp only [run_op, PseudoFlex_reanchor, find_anchor, with_flags]
    repeat' split
    all_goals rfl

theorem run_ops_with_flags (ndebug : Bool) (d b : Int) (ops : List FlexOp) :
    ∀ s : FlexState, run_ops ndebug (with_flags d b s) ops
      = (run_ops ndebug s ops).map_state (with_flags d b) := by
  induction ops with
  | nil => intro s; rfl
  | cons op ops ih =>
    intro s
    simp only [run_ops]
    rw [run_op_with_flags]
    apply map_state_bind
    intro v s1
    rw [ih s1]
    apply map_state_bind
    intro vs s2
    rfl

/-- C17: called within their asserted ranges, `PseudoFlex_set_budge` and
`PseudoFlex_set_deferred_compaction` return the value stored before and leave
the block list, the anchors and the heap as they were; and for two states
that differ only in the two flags, every sequence of alloc, free, size,
extend, midextend and reanchor calls has the same outcome, with the same
values returned and states that again differ only in the flags. -/
theorem PseudoFlex_flags_inert (ndebug : Bool) (s : FlexState) (d b newb newd : Int)
    (ops : List FlexOp) (hb : -1 ≤ newb ∧ newb ≤ 1) (hd : newd = 0 ∨ newd = 1) :
    (∃ s', PseudoFlex_set_budge ndebug s newb = .ret s.budge_state s' ∧
      s'.block_list = s.block_list ∧ s'.anchors = s.anchors ∧ s'.heap = s.heap) ∧
    (∃ s', PseudoFlex_set_deferred_compaction ndebug s newd = .ret s.defer_compact s' ∧
      s'.block_list = s.block_list ∧ s'.anchors = s.anchors ∧ s'.heap = s.heap) ∧
    run_ops ndebug (with_flags d b s) ops
      = (run_ops ndebug s ops).map_state (with_flags d b) ∧
    (∀ vs s1, run_ops ndebug s ops = .ret vs s1 →
      ∃ s2, run_ops ndebug (with_flags d b s) ops = .ret vs s2 ∧
        s2.block_list = s1.block_list ∧ s2.anchors = s1.anchors ∧ s2.heap = s1.heap) := by
  refine ⟨?_, ?_, run_ops_with_flags ndebug d b ops s, ?_⟩
  · have ha : assert_fails ndebug (decide (newb ≥ -1) && decide (newb ≤ 1)) = false := by
      simp [assert_fails, hb.1, hb.2]
    unfold PseudoFlex_set_budge
    simp only [ha]
    by_cases hn : newb = -1
    · exact ⟨s, by simp [hn], rfl, rfl, rfl⟩
    · exact ⟨{ s with budge_state := newb }, by simp [hn], rfl, rfl, rfl⟩
  · have ha : assert_fails ndebug (newd == 0 || newd == 1) = false := by
      rcases hd with h | h <;> simp [assert_fails, h]
    unfold PseudoFlex_set_deferred_compaction
    simp only [ha]
    exact ⟨{ s with defer_compact := newd }, by simp, rfl, rfl, rfl⟩
  · intro vs s1 h
    refine ⟨with_flags d b s1, ?_, rfl, rfl, rfl⟩
    rw [run_ops_with_flags, h]
    rfl

/-- C17 witness: both flags set to 1 in the state holding "HELLOWORLD", and
a size query followed by a cut to 4 bytes. -/
theorem PseudoFlex_flags_inert_witness :
    (∃ s', PseudoFlex_set_budge false helloState 1 = .ret helloState.budge_state s' ∧
      s'.block_list = helloState.block_list ∧ s'.anchors = helloState.anchors ∧
      s'.heap = helloState.heap) ∧
    (∃ s', PseudoFlex_set_deferred_compaction false helloState 1
        = .ret helloState.defer_compact s' ∧
      s'.block_list = helloState.block_list ∧ s'.anchors = helloState.anchors ∧
      s'.heap = helloState.heap) ∧
    run_ops false (with_flags 1 1 helloState)
        [FlexOp.size 1, FlexOp.extend 1 4 (some { addr := 100, bytes := [] })]
      = (run_ops false helloState
          [FlexOp.size 1, FlexOp.extend 1 4 (some { addr := 100, bytes := [] })]).map_state
          (with_flags 1 1) ∧
    (∀ vs s1, run_ops false helloState
        [FlexOp.size 1, FlexOp.extend 1 4 (some { addr := 100, bytes := [] })] = .ret vs s1 →
      ∃ s2, run_ops false (with_flags 1 1 helloState)
          [FlexOp.size 1, FlexOp.extend 1 4 (some { addr := 100, bytes := [] })] = .ret vs s2 ∧
        s2.block_list = s1.block_list ∧ s2.anchors = s1.anchors ∧ s2.heap = s1.heap) :=
  PseudoFlex_flags_inert false helloState 1 1 1 1
    [FlexOp.size 1, FlexOp.extend 1 4 (some { addr := 100, bytes := [] })]
    (by decide) (by decide)

/-! ### Creation, show and hide, and the search by template name -/

/-- C18 (as stated, refuted): object 7 has a record; a second
`pseudo_toolbox_object_created(7)` adds another one. -/
theorem pseudo_toolbox_object_created_adds_duplicate :
    recorded_ids (pseudo_toolbox_object_created tbox_start 7 true) = [7] ∧
    recorded_ids
      (pseudo_toolbox_object_created (pseudo_toolbox_object_created tbox_start 7 true) 7 true)
      = [7, 7] := by
  decide

/-- C18 (amended). `pseudo_toolbox_object_created(id)` puts a new record, not
showing, at the head of the list whenever the record can be allocated and
whatever the list holds, so two records can carry the same id; when the
allocation fails the state is unchanged. -/
theorem pseudo_toolbox_object_created_inserts (s : TboxState) (id : Nat) :
    (pseudo_toolbox_object_created s id true).objects
      = { object_id := id, is_showing := false } :: s.objects ∧
    pseudo_toolbox_object_created s id false = s := by
  exact ⟨rfl, rfl⟩

theorem set_showing_absent (l : List PseudoTbox_Object) (id : Nat) (v : Bool)
    (h : ∀ r ∈ l, r.object_id ≠ id) : set_showing l id v = l := by
  induction l with
  | nil => rfl
  | cons x xs ih =>
    have hx : object_id_matches id x = false := by
      have := h x (List.mem_cons_self _ _)
      simpa [object_id_matches] using fun h' : id = x.object_id => this h'.symm
    simp only [set_showing, hx, Bool.false_eq_true, if_false]
    rw [ih (fun r hr => h r (List.mem_cons_of_mem _ hr))]

/-- C19: for an id without a record and the oracle not failing,
`pseudo_toolbox_show_object` and `pseudo_toolbox_hide_object` leave the object
records unchanged, make the real call and return its result, and
`pseudo_toolbox_object_is_showing(id)` is false. -/
theorem pseudo_toolbox_show_hide_unknown (s : TboxState) (flags id : Nat) (show_type : Int)
    (type parent parent_component : Nat) (real : Option kernel_oserror)
    (hno : ∀ r ∈ s.objects, r.object_id ≠ id) :
    pseudo_toolbox_show_object s flags id show_type type parent parent_component true real
      = (real, { s with calls := s.calls ++
          [TboxCall.show_object flags id show_type type parent parent_component] }) ∧
    pseudo_toolbox_hide_object s flags id true real
      = (real, { s with calls := s.calls ++ [TboxCall.hide_object flags id] }) ∧
    pseudo_toolbox_object_is_showing s id = false := by
  refine ⟨?_, ?_, ?_⟩
  · simp [pseudo_toolbox_show_object, pseudokern_fail, set_showing_absent _ _ _ hno]
  · simp [pseudo_toolbox_hide_object, pseudokern_fail, set_showing_absent _ _ _ hno]
  · unfold pseudo_toolbox_object_is_showing
    have hf : s.objects.find? (object_id_matches id) = none := by
      rw [List.find?_eq_none]
      intro r hr
      simp only [object_id_matches, beq_iff_eq]
      exact fun h => hno r hr h.symm
    rw [hf]

/-- C19 witness: object 9 has no record among objects 1, 2, 3. -/
theorem pseudo_toolbox_show_hide_unknown_witness :
    pseudo_toolbox_show_object three_objects 0 9 0 0 0 0 true (some NoMem)
      = (some NoMem, { three_objects with calls := three_objects.calls ++
          [TboxCall.show_object 0 9 0 0 0 0] }) ∧
    pseudo_toolbox_hide_object three_objects 0 9 true (some NoMem)
      = (some NoMem, { three_objects with calls := three_objects.calls ++
          [TboxCall.hide_object 0 9] }) ∧
    pseudo_toolbox_object_is_showing three_objects 9 = false :=
  pseudo_toolbox_show_hide_unknown three_objects 0 9 0 0 0 0 (some NoMem) (by decide)

theorem template_search_none (ndebug : Bool) (real : Nat → TemplateAnswer)
    (name : List Char) (l : List PseudoTbox_Object) :
    ∀ s : TboxState, answers_fit real l →
      (∀ r ∈ l, template_matches real name r = false) →
      ∃ s', template_name_search ndebug real name s l = .ret none s' ∧
        s'.objects = s.objects := by
  induction l with
  | nil => intro s _ _; exact ⟨s, rfl, rfl⟩
  | cons x xs ih =>
    intro s hfit hno
    have hfit' : answers_fit real xs := fun r hr => hfit r (List.mem_cons_of_mem _ hr)
    have hno' : ∀ r ∈ xs, template_matches real name r = false :=
      fun r hr => hno r (List.mem_cons_of_mem _ hr)
    have hx := hno x (List.mem_cons_self _ _)
    cases he : (real x.object_id).e with
    | some e =>
      obtain ⟨s', h1, h2⟩ := ih
        { s with calls := s.calls ++ [TboxCall.get_template_name 0 x.object_id] } hfit' hno'
      exact ⟨s', by simp only [template_name_search, he]; exact h1, h2⟩
    | none =>
      obtain ⟨hn0, hn1⟩ := hfit x (List.mem_cons_self _ _) he
      have hbuf : ((real x.object_id).buffer == name) = false := by
        simpa [template_matches, he] using hx
      have ht : to_size_t (real x.object_id).nbytes ≤ 256 := by
        unfold to_size_t
        rw [Int.emod_eq_of_lt hn0 (by omega)]
        omega
      obtain ⟨s', h1, h2⟩ := ih
        { s with calls := s.calls ++ [TboxCall.get_template_name 0 x.object_id] } hfit' hno'
      refine ⟨s', ?_, h2⟩
      simp only [template_name_search, he, hbuf]
      simp [assert_fails, hn0, ht]
      exact h1

theorem template_search_first (ndebug : Bool) (real : Nat → TemplateAnswer)
    (name : List Char) (r : PseudoTbox_Object) (post : List PseudoTbox_Object)
    (pre : List PseudoTbox_Object) :
    ∀ s : TboxState, answers_fit real (pre ++ r :: post) →
      (∀ x ∈ pre, template_matches real name x = false) →
      template_matches real name r = true →
      ∃ s', template_name_search ndebug real name s (pre ++ r :: post) = .ret (some r) s' ∧
        s'.objects = s.objects := by
  induction pre with
  | nil =>
    intro s hfit _ hr
    simp only [template_matches, Bool.and_eq_true, Option.isNone_iff_eq_none] at hr
    obtain ⟨hn0, hn1⟩ := hfit r (List.mem_cons_self _ _) hr.1
    have ht : to_size_t (real r.object_id).nbytes ≤ 256 := by
      unfold to_size_t
      rw [Int.emod_eq_of_lt hn0 (by omega)]
      omega
    refine ⟨{ s with calls := s.calls ++ [TboxCall.get_template_name 0 r.object_id] }, ?_, rfl⟩
    simp only [List.nil_append, template_name_search, hr.1, hr.2]
    simp [assert_fails, hn0, ht]
  | cons x xs ih =>
    intro s hfit hno hr
    have hfit' : answers_fit real (xs ++ r :: post) :=
      fun y hy => hfit y (List.mem_cons_of_mem _ hy)
    have hno' : ∀ y ∈ xs, template_matches real name y = false :=
      fun y hy => hno y (List.mem_cons_of_mem _ hy)
    have hx := hno x (List.mem_cons_self _ _)
    cases he : (real x.object_id).e with
    | some e =>
      obtain ⟨s', h1, h2⟩ := ih
        { s with calls := s.calls ++ [TboxCall.get_template_name 0 x.object_id] } hfit' hno' hr
      exact ⟨s', by simp only [List.cons_append, template_name_search, he]; exact h1, h2⟩
    | none =>
      obtain ⟨hn0, hn1⟩ := hfit x (List.mem_cons_self _ _) he
      have hbuf : ((real x.object_id).buffer == name) = false := by
        simpa [template_matches, he] using hx
      have ht : to_size_t (real x.object_id).nbytes ≤ 256 := by
        unfold to_size_t
        rw [Int.emod_eq_of_lt hn0 (by omega)]
        omega
      obtain ⟨s', h1, h2⟩ := ih
        { s with calls := s.calls ++ [TboxCall.get_template_name 0 x.object_id] } hfit' hno' hr
      refine ⟨s', ?_, h2⟩
      simp only [List.cons_append, template_name_search, he, hbuf]
      simp [assert_fails, hn0, ht]
      exact h1

/-- C20: with the real Toolbox answering within the 256-byte buffer,
`pseudo_toolbox_find_by_template_name(name)` returns `NULL_ObjectId` when no
record's object has the template name `name`, and otherwise the id of the
matching record nearest to the head of the list, that is the most recently
inserted of the matching records still held; the records are left untouched. -/
theorem pseudo_toolbox_find_by_template_name_newest (ndebug : Bool) (s : TboxState)
    (name : List Char) (real : Nat → TemplateAnswer) (hfit : answers_fit real s.objects) :
    ((∀ r ∈ s.objects, template_matches real name r = false) →
      ∃ s', pseudo_toolbox_find_by_template_name ndebug s name real
          = .ret NULL_ObjectId s' ∧ s'.objects = s.objects) ∧
    (∀ pre r post, s.objects = pre ++ r :: post →
      (∀ x ∈ pre, template_matches real name x = false) →
      template_matches real name r = true →
      ∃ s', pseudo_toolbox_find_by_template_name ndebug s name real
          = .ret r.object_id s' ∧ s'.objects = s.objects) := by
  constructor
  · intro hno
    obtain ⟨s', h1, h2⟩ := template_search_none ndebug real name s.objects s hfit hno
    exact ⟨s', by simp [pseudo_toolbox_find_by_template_name, h1, Outcome.bind], h2⟩
  · intro pre r post hl hno hr
    obtain ⟨s', h1, h2⟩ := template_search_first ndebug real name r post pre s
      (by rw [← hl]; exact hfit) hno hr
    refine ⟨s', ?_, h2⟩
    simp only [pseudo_toolbox_find_by_template_name]
    rw [hl, h1]
    rfl

/-- C20 witness: objects 1 and 2 come from "win" and 2 was created later;
the search for "win" returns 2 and the search for "x" returns no object. -/
theorem pseudo_toolbox_find_by_template_name_newest_witness :
    (∃ s', pseudo_toolbox_find_by_template_name false three_objects ['x'] three_names
        = .ret NULL_ObjectId s' ∧ s'.objects = three_objects.objects) ∧
    (∃ s', pseudo_toolbox_find_by_template_name false three_objects ['w', 'i', 'n']
        three_names = .ret 2 s' ∧ s'.objects = three_objects.objects) :=
  ⟨(pseudo_toolbox_find_by_template_name_newest false three_objects ['x'] three_names
      (by unfold answers_fit; decide)).1 (by decide),
    (pseudo_toolbox_find_by_template_name_newest false three_objects ['w', 'i', 'n']
      three_names (by unfold answers_fit; decide)).2 [⟨3, false⟩] ⟨2, false⟩ [⟨1, false⟩] rfl (by decide)
      (by decide)⟩

/-! ### Simulated failures -/

theorem redraw_drain_frame (real : Nat → RedrawAnswer) (window : Int) (more : Bool)
    (fuel : Nat) :
    ∀ (k : Nat) (e2 : Option kernel_oserror) (s s' : WimpState),
      redraw_drain real window more fuel k e2 s = some s' →
      s'.capture = s.capture ∧ s'.msg_count = s.msg_count ∧ s'.msgs = s.msgs ∧
      s'.my_ref = s.my_ref ∧ ∃ rest, s'.calls = s.calls ++ rest := by
  induction fuel with
  | zero =>
    intro k e2 s s' h
    unfold redraw_drain at h
    split at h
    · cases h
    · cases h
      exact ⟨rfl, rfl, rfl, rfl, [], by simp⟩
  | succ n ih =>
    intro k e2 s s' h
    unfold redraw_drain at h
    split at h
    · obtain ⟨h1, h2, h3, h4, rest, h5⟩ := ih _ _ _ _ h
      exact ⟨h1, h2, h3, h4, WimpCall.get_rectangle window more :: rest, by
        rw [h5]; simp⟩
    · cases h
      exact ⟨rfl, rfl, rfl, rfl, [], by simp⟩

/-- C11 (as stated, refuted): the oracle signals failure for a
`pseudo_wimp_redraw_window` call on window 7; the call returns the synthetic
error, and the real `wimp_redraw_window` and `wimp_get_rectangle` were called,
three times in all; with a null `more` the real `wimp_redraw_window` is still
called once, and so is `wimp_get_rectangle` by `pseudo_wimp_get_rectangle`. -/
theorem pseudo_wimp_redraw_failure_calls_real :
    redraw_report wimp_start
      (pseudo_wimp_redraw_window false 5 wimp_start (some 7) true false two_rectangles)
      = some (some NoMem, [WimpCall.redraw_window 7 true, WimpCall.get_rectangle 7 true,
          WimpCall.get_rectangle 7 true]) ∧
    redraw_report wimp_start
      (pseudo_wimp_redraw_window false 0 wimp_start (some 7) false false two_rectangles)
      = some (some NoMem, [WimpCall.redraw_window 7 false]) ∧
    redraw_report wimp_start
      (pseudo_wimp_get_rectangle false 0 wimp_start (some 7) false false two_rectangles)
      = some (some NoMem, [WimpCall.get_rectangle 7 false]) := by
  decide

/-- Once one of the real calls reports an error the loop that completes the
redraw is over: if answer `j` is an error, the loop entered before call `k`
ends within `j + 1 - k` further calls, and it touches nothing but the trace. -/
theorem redraw_drain_returns (real : Nat → RedrawAnswer) (window : Int) (more : Bool)
    (j : Nat) (hj : (real j).e ≠ none) (fuel : Nat) :
    ∀ (k : Nat) (e2 : Option kernel_oserror) (s : WimpState),
      k ≤ j + 1 → (k = j + 1 → e2 = (real j).e) → j + 1 - k ≤ fuel →
      ∃ s', redraw_drain real window more fuel k e2 s = some s' ∧
        s'.capture = s.capture ∧ s'.msg_count = s.msg_count ∧ s'.msgs = s.msgs ∧
        s'.my_ref = s.my_ref ∧
        ∃ rest, s'.calls = s.calls ++ rest ∧ rest.length ≤ j + 1 - k := by
  induction fuel with
  | zero =>
    intro k e2 s hk he hf
    have hkj : k = j + 1 := by omega
    have hne : e2.isNone = false := by
      rw [he hkj]
      cases h : (real j).e with
      | none => exact absurd h hj
      | some _ => rfl
    refine ⟨s, ?_, rfl, rfl, rfl, rfl, [], by simp, by simp⟩
    simp [redraw_drain, hne]
  | succ n ih =>
    intro k e2 s hk he hf
    by_cases hc : (e2.isNone && more) = true
    · have hkj : k ≠ j + 1 := by
        intro hkj
        have h1 := he hkj
        simp only [Bool.and_eq_true, Option.isNone_iff_eq_none] at hc
        rw [hc.1] at h1
        exact hj h1.symm
      obtain ⟨s', h1, c1, c2, c3, c4, rest, c5, c6⟩ :=
        ih (k + 1) (real k).e
          { s with calls := s.calls ++ [WimpCall.get_rectangle window more] }
          (by omega)
          (fun h => by
            have hkj' : k = j := by omega
            rw [hkj'])
          (by omega)
      refine ⟨s', ?_, c1, c2, c3, c4, WimpCall.get_rectangle window more :: rest, ?_, ?_⟩
      · rw [redraw_drain, if_pos hc]
        exact h1
      · rw [c5]; simp
      · simp only [List.length_cons]; omega
    · refine ⟨s, ?_, rfl, rfl, rfl, rfl, [], by simp, by simp⟩
      rw [redraw_drain, if_neg hc]

/-- C11 (amended). When the oracle signals failure:
`pseudo_toolbox_show_object`, `pseudo_toolbox_hide_object`,
`pseudo_wimp_send_message` (called within its asserted precondition) and
`pseudokern_swi` (for a SWI number with the `_kernel_NONX` bit clear) return
the synthetic error, make no real call and leave the whole state as it was,
so that a second failing call does the same again;
`pseudo_wimp_redraw_window` and `pseudo_wimp_get_rectangle` call the real
redraw operation for the window first. With a null `more` they return after
that one call; with any `more`, if the `k`-th answer of the real calls is an
error they return after at most `k` further calls. In both cases they return
the synthetic error, not the error of a real call, and leave the message trap
as it was. -/
theorem pseudo_failure_is_idempotent (ndebug : Bool) (ts : TboxState) (ws : WimpState)
    (ks : KernState) (flags id : Nat) (show_type : Int)
    (type parent parent_component : Nat) (treal : Option kernel_oserror)
    (c : SendCall) (no : Nat) (kreal : Option kernel_oserror)
    (window : Int) (more : Bool) (fuel : Nat) (rreal : Nat → RedrawAnswer)
    (hallow : c.real.allow = false)
    (hpre : c.code = Wimp_ENull ∨ c.block ≠ none)
    (hnonx : kernel_NONX &&& no = 0) :
    (pseudo_toolbox_show_object ts flags id show_type type parent parent_component false
        treal = (some NoMem, ts) ∧
      pseudo_toolbox_show_object
        (pseudo_toolbox_show_object ts flags id show_type type parent parent_component false
          treal).2 flags id show_type type parent parent_component false treal
        = (some NoMem, ts)) ∧
    (pseudo_toolbox_hide_object ts flags id false treal = (some NoMem, ts) ∧
      pseudo_toolbox_hide_object (pseudo_toolbox_hide_object ts flags id false treal).2
        flags id false treal = (some NoMem, ts)) ∧
    (pseudo_wimp_send_message ndebug ws c.code c.block c.handle c.icon c.th c.real
        = .ret { e := some NoMem, block := c.block, th_out := none } ws) ∧
    (pseudokern_swi ndebug ks no true true false kreal = .ret (some NoMem) ks) ∧
    (∀ k, k ≤ fuel → (rreal k).e ≠ none →
      ∃ s', pseudo_wimp_redraw_window ndebug fuel ws (some window) more false rreal
          = some (.ret (some NoMem) s') ∧
        s'.capture = ws.capture ∧ s'.msg_count = ws.msg_count ∧ s'.msgs = ws.msgs ∧
        s'.my_ref = ws.my_ref ∧
        ∃ rest, s'.calls = ws.calls ++ WimpCall.redraw_window window more :: rest ∧
          rest.length ≤ k) ∧
    (∀ k, k ≤ fuel → (rreal k).e ≠ none →
      ∃ s', pseudo_wimp_get_rectangle ndebug fuel ws (some window) more false rreal
          = some (.ret (some NoMem) s') ∧
        s'.capture = ws.capture ∧ s'.msg_count = ws.msg_count ∧ s'.msgs = ws.msgs ∧
        s'.my_ref = ws.my_ref ∧
        ∃ rest, s'.calls = ws.calls ++ WimpCall.get_rectangle window more :: rest ∧
          rest.length ≤ k) ∧
    pseudo_wimp_redraw_window ndebug fuel ws (some window) false false rreal
      = some (.ret (some NoMem)
          { ws with calls := ws.calls ++ [WimpCall.redraw_window window false] }) ∧
    pseudo_wimp_get_rectangle ndebug fuel ws (some window) false false rreal
      = some (.ret (some NoMem)
          { ws with calls := ws.calls ++ [WimpCall.get_rectangle window false] }) := by
  have hshow : pseudo_toolbox_show_object ts flags id show_type type parent parent_component
      false treal = (some NoMem, ts) := by
    simp [pseudo_toolbox_show_object, pseudokern_fail]
  have hhide : pseudo_toolbox_hide_object ts flags id false treal = (some NoMem, ts) := by
    simp [pseudo_toolbox_hide_object, pseudokern_fail]
  refine ⟨⟨hshow, ?_⟩, ⟨hhide, ?_⟩, ?_, ?_, ?_, ?_, ?_, ?_⟩
  · rw [hshow]; exact hshow
  · rw [hhide]; exact hhide
  · have hpre' : (c.code == Wimp_ENull || c.block.isSome) = true := by
      rcases hpre with h | h
      · simp [h]
      · cases hb : c.block with
        | none => exact absurd hb h
        | some b => simp
    simp [pseudo_wimp_send_message, pseudokern_fail, hallow, assert_fails, hpre']
  · have h0 : (kernel_NONX &&& no == 0) = true := by simp [hnonx]
    simp [pseudokern_swi, pseudokern_fail, assert_fails, h0]
  · intro k hk he
    obtain ⟨s', h1, c1, c2, c3, c4, rest, c5, c6⟩ :=
      redraw_drain_returns rreal window more k he fuel 1 (rreal 0).e
        { ws with calls := ws.calls ++ [WimpCall.redraw_window window more] }
        (by omega) (fun h => by
          have hk0 : k = 0 := by omega
          rw [hk0]) (by omega)
    refine ⟨s', ?_, c1, c2, c3, c4, rest, ?_, by omega⟩
    · simp only [pseudo_wimp_redraw_window, pseudokern_fail, assert_fails,
        Option.isSome_some, Bool.not_true, Bool.and_false, Bool.false_eq_true, if_false,
        Bool.not_false, if_true, h1, Option.map_some']
    · rw [c5]; simp
  · intro k hk he
    obtain ⟨s', h1, c1, c2, c3, c4, rest, c5, c6⟩ :=
      redraw_drain_returns rreal window more k he fuel 1 (rreal 0).e
        { ws with calls := ws.calls ++ [WimpCall.get_rectangle window more] }
        (by omega) (fun h => by
          have hk0 : k = 0 := by omega
          rw [hk0]) (by omega)
    refine ⟨s', ?_, c1, c2, c3, c4, rest, ?_, by omega⟩
    · simp only [pseudo_wimp_get_rectangle, pseudokern_fail, assert_fails,
        Option.isSome_some, Bool.not_true, Bool.and_false, Bool.false_eq_true, if_false,
        Bool.not_false, if_true, h1, Option.map_some']
    · rw [c5]; simp
  · cases fuel <;>
      simp [pseudo_wimp_redraw_window, pseudokern_fail, assert_fails, redraw_drain]
  · cases fuel <;>
      simp [pseudo_wimp_get_rectangle, pseudokern_fail, assert_fails, redraw_drain]

/-- C11 witness: a refused send, SWI number 1, object 3, and a redraw of
window 7 during which the third real call reports an error. -/
theorem pseudo_failure_is_idempotent_witness :
    pseudo_wimp_send_message false wimp_start deniedCall.code deniedCall.block
        deniedCall.handle deniedCall.icon deniedCall.th deniedCall.real
        = .ret { e := some NoMem, block := deniedCall.block, th_out := none } wimp_start ∧
    pseudokern_swi false { calls := [] } 1 true true false none
      = .ret (some NoMem) { calls := [] } ∧
    pseudo_toolbox_show_object three_objects 0 3 0 0 0 0 false none
      = (some NoMem, three_objects) ∧
    (∃ s', pseudo_wimp_redraw_window false 5 wimp_start (some 7) true false two_rectangles
        = some (.ret (some NoMem) s') ∧
      s'.capture = wimp_start.capture ∧ s'.msg_count = wimp_start.msg_count ∧
      s'.msgs = wimp_start.msgs ∧ s'.my_ref = wimp_start.my_ref ∧
      ∃ rest, s'.calls = wimp_start.calls ++ WimpCall.redraw_window 7 true :: rest ∧
        rest.length ≤ 2) ∧
    (∃ s', pseudo_wimp_get_rectangle false 5 wimp_start (some 7) true false two_rectangles
        = some (.ret (some NoMem) s') ∧
      s'.capture = wimp_start.capture ∧ s'.msg_count = wimp_start.msg_count ∧
      s'.msgs = wimp_start.msgs ∧ s'.my_ref = wimp_start.my_ref ∧
      ∃ rest, s'.calls = wimp_start.calls ++ WimpCall.get_rectangle 7 true :: rest ∧
        rest.length ≤ 2) :=
  have h := pseudo_failure_is_idempotent false three_objects wimp_start { calls := [] }
    0 3 0 0 0 0 none deniedCall 1 none 7 true 5 two_rectangles (by decide) (by decide)
    (by decide)
  ⟨h.2.2.1, h.2.2.2.1, h.1.1, h.2.2.2.2.1 2 (by decide) (by decide),
    h.2.2.2.2.2.1 2 (by decide) (by decide)⟩

/-! ### Removal of the handlers of an object -/

theorem deregister_toolbox_eq_filter (id : Nat) (l : List PseudoEvent_Toolbox_Handler) :
    deregister_toolbox_handlers_for_object id l
      = l.filter (fun r => decide (r.object_id ≠ id)) := by
  induction l with
  | nil => rfl
  | cons x xs ih =>
    unfold deregister_toolbox_handlers_for_object
    rw [ih]
    by_cases h : id = x.object_id
    · simp [h]
    · have h' : ¬ x.object_id = id := fun e => h e.symm
      simp [h, h']

theorem deregister_wimp_eq_filter (id : Nat) (l : List PseudoEvent_Wimp_Handler) :
    deregister_wimp_handlers_for_object id l
      = l.filter (fun r => decide (r.object_id ≠ id)) := by
  induction l with
  | nil => rfl
  | cons x xs ih =>
    unfold deregister_wimp_handlers_for_object
    rw [ih]
    by_cases h : id = x.object_id
    · simp [h]
    · have h' : ¬ x.object_id = id := fun e => h e.symm
      simp [h, h']

/-- C21: `pseudo_event_deregister_toolbox_handlers_for_object(id)` returns the
result of the real call and leaves in `tb_handlers` exactly the records whose
object id is not `id`, in their original order, the two other lists being
untouched; when no record has that id the list is unchanged and the call
returns all the same. Likewise for the Wimp handlers. -/
theorem pseudo_event_deregister_handlers_for_object (s : EventState) (id : Nat)
    (real : Option kernel_oserror) :
    (pseudo_event_deregister_toolbox_handlers_for_object s id real
      = (real, { s with
          tb_handlers := s.tb_handlers.filter (fun r => decide (r.object_id ≠ id))
          calls := s.calls ++ [EventCall.deregister_toolbox_handlers_for_object id] }) ∧
      ((∀ r ∈ s.tb_handlers, r.object_id ≠ id) →
        pseudo_event_deregister_toolbox_handlers_for_object s id real
          = (real, { s with calls := s.calls ++
              [EventCall.deregister_toolbox_handlers_for_object id] }))) ∧
    (pseudo_event_deregister_wimp_handlers_for_object s id real
      = (real, { s with
          wimp_handlers := s.wimp_handlers.filter (fun r => decide (r.object_id ≠ id))
          calls := s.calls ++ [EventCall.deregister_wimp_handlers_for_object id] }) ∧
      ((∀ r ∈ s.wimp_handlers, r.object_id ≠ id) →
        pseudo_event_deregister_wimp_handlers_for_object s id real
          = (real, { s with calls := s.calls ++
              [EventCall.deregister_wimp_handlers_for_object id] }))) := by
  have ht : pseudo_event_deregister_toolbox_handlers_for_object s id real
      = (real, { s with
          tb_handlers := s.tb_handlers.filter (fun r => decide (r.object_id ≠ id))
          calls := s.calls ++ [EventCall.deregister_toolbox_handlers_for_object id] }) := by
    simp only [pseudo_event_deregister_toolbox_handlers_for_object,
      deregister_toolbox_eq_filter]
  have hw : pseudo_event_deregister_wimp_handlers_for_object s id real
      = (real, { s with
          wimp_handlers := s.wimp_handlers.filter (fun r => decide (r.object_id ≠ id))
          calls := s.calls ++ [EventCall.deregister_wimp_handlers_for_object id] }) := by
    simp only [pseudo_event_deregister_wimp_handlers_for_object,
      deregister_wimp_eq_filter]
  refine ⟨⟨ht, ?_⟩, ⟨hw, ?_⟩⟩
  · intro hno
    rw [ht]
    have hf : s.tb_handlers.filter (fun r => decide (r.object_id ≠ id)) = s.tb_handlers := by
      rw [List.filter_eq_self]
      intro r hr
      simpa using hno r hr
    rw [hf]
  · intro hno
    rw [hw]
    have hf : s.wimp_handlers.filter (fun r => decide (r.object_id ≠ id))
        = s.wimp_handlers := by
      rw [List.filter_eq_self]
      intro r hr
      simpa using hno r hr
    rw [hf]

/-- C21 witness: the handlers of object 1 are removed from `four_handlers`,
and nothing is removed for object 5. -/
theorem pseudo_event_deregister_handlers_for_object_witness :
    (pseudo_event_deregister_toolbox_handlers_for_object four_handlers 1 none).2.tb_handlers
      = [⟨2, 11, 3, 4⟩, ⟨3, 13, 3, 4⟩] ∧
    pseudo_event_deregister_toolbox_handlers_for_object four_handlers 5 none
      = (none, { four_handlers with calls := four_handlers.calls ++
          [EventCall.deregister_toolbox_handlers_for_object 5] }) :=
  ⟨by rw [(pseudo_event_deregister_handlers_for_object four_handlers 1 none).1.1]; decide,
    (pseudo_event_deregister_handlers_for_object four_handlers 5 none).1.2 (by decide)⟩

/-! ### Allocation of the records -/

/-- C22: when the record cannot be allocated, `pseudo_toolbox_create_object`
and the three `pseudo_event_register_*_handler` functions return the "NoMem"
error with the state as it was (no real call, no record), whatever the oracle
answers; and in every case the list gets a new record exactly when the record
was allocated, the oracle (consulted by `pseudo_toolbox_create_object` only)
allowed the call and the real call returned no error. -/
theorem registry_record_allocation (ts : TboxState) (es : EventState) (flags template : Nat)
    (mem allow : Bool) (treal : Option kernel_oserror) (new_id : Nat)
    (object_id : Nat) (event_code msg_no : Int) (handler handle : Nat)
    (real : Option kernel_oserror) :
    pseudo_toolbox_create_object ts flags template false allow treal new_id
      = (some NoMem, ts) ∧
    pseudo_event_register_toolbox_handler es object_id event_code handler handle false real
      = (some NoMem, es) ∧
    pseudo_event_register_message_handler es msg_no handler handle false real
      = (some NoMem, es) ∧
    pseudo_event_register_wimp_handler es object_id event_code handler handle false real
      = (some NoMem, es) ∧
    (pseudo_toolbox_create_object ts flags template mem allow treal new_id).2.objects
      = (if mem && allow && treal.isNone then
          { object_id := new_id, is_showing := false } :: ts.objects
        else ts.objects) ∧
    (pseudo_event_register_toolbox_handler es object_id event_code handler handle mem
        real).2.tb_handlers
      = (if mem && real.isNone then
          { object_id := object_id, event_code := event_code, handler := handler,
            handle := handle } :: es.tb_handlers
        else es.tb_handlers) ∧
    (pseudo_event_register_message_handler es msg_no handler handle mem real).2.msg_handlers
      = (if mem && real.isNone then
          { msg_no := msg_no, handler := handler, handle := handle } :: es.msg_handlers
        else es.msg_handlers) ∧
    (pseudo_event_register_wimp_handler es object_id event_code handler handle mem
        real).2.wimp_handlers
      = (if mem && real.isNone then
          { object_id := object_id, event_code := event_code, handler := handler,
            handle := handle } :: es.wimp_handlers
        else es.wimp_handlers) := by
  refine ⟨rfl, rfl, rfl, rfl, ?_, ?_, ?_, ?_⟩
  · cases mem <;> cases allow <;> cases treal <;>
      simp [pseudo_toolbox_create_object, pseudokern_fail]
  · cases mem <;> cases real <;> simp [pseudo_event_register_toolbox_handler]
  · cases mem <;> cases real <;> simp [pseudo_event_register_message_handler]
  · cases mem <;> cases real <;> simp [pseudo_event_register_wimp_handler]

/-! ### Sends while the trap is not armed -/

/-- C23: with capture disabled, the oracle not failing and the asserted
precondition met, `pseudo_wimp_send_message` makes one real call,
`wimp_send_message` with the arguments it was given, returns its result and
leaves `msgs`, `msg_count` (and `capture`, `my_ref`) as they were. -/
theorem pseudo_wimp_send_message_forwards (ndebug : Bool) (s : WimpState) (c : SendCall)
    (hcap : s.capture = false) (hallow : c.real.allow = true)
    (hpre : c.code = Wimp_ENull ∨ c.block ≠ none) :
    pseudo_wimp_send_message ndebug s c.code c.block c.handle c.icon c.th c.real
      = .ret { e := c.real.send, block := c.block,
               th_out := if c.th then some c.real.task else none }
          { s with calls := s.calls ++
              [WimpCall.send_message c.code c.block c.handle c.icon c.th] } := by
  have hpre' : (c.code == Wimp_ENull || c.block.isSome) = true := by
    rcases hpre with h | h
    · simp [h]
    · cases hb : c.block with
      | none => exact absurd hb h
      | some b => simp
  have hub : ((c.code == Wimp_EUserMessage || c.code == Wimp_EUserMessageRecorded ||
      c.code == Wimp_EUserMessageAcknowledge) && c.block.isNone) = false := by
    rcases hpre with h | h
    · simp [h, Wimp_ENull, Wimp_EUserMessage, Wimp_EUserMessageRecorded,
        Wimp_EUserMessageAcknowledge]
    · cases hb : c.block with
      | none => exact absurd hb h
      | some b => simp
  unfold pseudo_wimp_send_message
  simp only [pseudokern_fail, hallow, assert_fails, hpre', hub, hcap]
  simp

/-- C23 witness: `plainCall` sent before any `pseudo_wimp_reset`. -/
theorem pseudo_wimp_send_message_forwards_witness :
    pseudo_wimp_send_message false wimp_start plainCall.code plainCall.block plainCall.handle
        plainCall.icon plainCall.th plainCall.real
      = .ret { e := plainCall.real.send, block := plainCall.block,
               th_out := if plainCall.th then some plainCall.real.task else none }
          { wimp_start with calls := wimp_start.calls ++
              [WimpCall.send_message plainCall.code plainCall.block plainCall.handle
                plainCall.icon plainCall.th] } :=
  pseudo_wimp_send_message_forwards false wimp_start plainCall rfl rfl (Or.inr (by decide))

/-! ### The SWI veneers -/

/-- C30: called with non-null register blocks, `pseudokern_swi` and
`pseudokern_swi_c` make the real call and return its result when the
`_kernel_NONX` bit of the number is set, whatever the oracle answers, and also
when the bit is clear and the oracle allows the call; when the bit is clear and
the oracle fails they return the "NoMem" error without a real call. -/
theorem pseudokern_swi_nonx (ndebug : Bool) (s : KernState) (no : Nat) (allow : Bool)
    (real : Option kernel_oserror) :
    (kernel_NONX &&& no ≠ 0 →
      pseudokern_swi ndebug s no true true allow real
        = .ret real { s with calls := s.calls ++ [KernCall.swi no] } ∧
      pseudokern_swi_c ndebug s no true true true allow real
        = .ret real { s with calls := s.calls ++ [KernCall.swi_c no] }) ∧
    (kernel_NONX &&& no = 0 →
      pseudokern_swi ndebug s no true true false real = .ret (some NoMem) s ∧
      pseudokern_swi_c ndebug s no true true true false real = .ret (some NoMem) s ∧
      pseudokern_swi ndebug s no true true true real
        = .ret real { s with calls := s.calls ++ [KernCall.swi no] } ∧
      pseudokern_swi_c ndebug s no true true true true real
        = .ret real { s with calls := s.calls ++ [KernCall.swi_c no] }) := by
  constructor
  · intro h
    have h0 : (kernel_NONX &&& no == 0) = false := by simpa using h
    constructor
    · simp [pseudokern_swi, assert_fails, h0]
    · simp [pseudokern_swi_c, assert_fails, h0]
  · intro h
    have h0 : (kernel_NONX &&& no == 0) = true := by simp [h]
    refine ⟨?_, ?_, ?_, ?_⟩
    · simp [pseudokern_swi, pseudokern_fail, assert_fails, h0]
    · simp [pseudokern_swi_c, pseudokern_fail, assert_fails, h0]
    · simp [pseudokern_swi, pseudokern_fail, assert_fails, h0]
    · simp [pseudokern_swi_c, pseudokern_fail, assert_fails, h0]

/-- C30 witness: SWI number `0x80000001` (bit set) with the oracle failing,
and SWI number 1 (bit clear). -/
theorem pseudokern_swi_nonx_witness :
    pseudokern_swi false { calls := [] } 0x80000001 true true false none
      = .ret none { calls := [KernCall.swi 0x80000001] } ∧
    pseudokern_swi false { calls := [] } 1 true true false none
      = .ret (some NoMem) { calls := [] } :=
  ⟨((pseudokern_swi_nonx false { calls := [] } 0x80000001 false none).1 (by decide)).1,
    ((pseudokern_swi_nonx false { calls := [] } 1 false none).2 (by decide)).1⟩

/-! ### Exit -/

/-- C26 (the code at the failing input): `pseudo_exit(-1)` with a target set
passes 0 to `longjmp`, so that `setjmp` returns 1 and not `status + 1 = 0`: the
same value as for `pseudo_exit(0)`. For every other status below `INT_MAX`
`setjmp` returns `status + 1`; the pending target is cleared in all cases, and
without a pending target the program terminates with `status`. -/
theorem pseudo_exit_minus_one :
    pseudo_exit (pseudo_exit_set_target exit_start 5) (-1)
      = (ExitResult.resumed 5 1, { exit_target := 5, exit_pending := false }) ∧
    pseudo_exit (pseudo_exit_set_target exit_start 5) 0
      = (ExitResult.resumed 5 1, { exit_target := 5, exit_pending := false }) ∧
    (∀ (s : ExitState) (env : Nat) (status : Int), status ≠ -1 → -2 ^ 31 ≤ status →
      status < 2 ^ 31 - 1 →
      pseudo_exit (pseudo_exit_set_target s env) status
        = (ExitResult.resumed env (status + 1), { exit_target := env, exit_pending := false }) ∧
      pseudo_exit (pseudo_exit (pseudo_exit_set_target s env) status).2 status
        = (ExitResult.terminated status, { exit_target := env, exit_pending := false })) ∧
    (∀ (s : ExitState) (status : Int), s.exit_pending = false →
      pseudo_exit s status = (ExitResult.terminated status, s)) := by
  refine ⟨by decide, by decide, ?_, ?_⟩
  · intro s env status hne hlow hhigh
    have hw : wrap_int (status + 1) = status + 1 := wrap_int_id _ (by omega) (by omega)
    have hz : ¬ status + 1 = 0 := by omega
    have h1 : pseudo_exit (pseudo_exit_set_target s env) status
        = (ExitResult.resumed env (status + 1),
            { exit_target := env, exit_pending := false }) := by
      simp [pseudo_exit, pseudo_exit_set_target, hw, longjmp_value, hz]
    refine ⟨h1, ?_⟩
    rw [h1]
    simp [pseudo_exit]
  · intro s status hs
    simp [pseudo_exit, hs]

/-! ### The redraw loop -/

theorem redraw_drain_no_error (real : Nat → RedrawAnswer) (window : Int)
    (hreal : ∀ k, (real k).e = none) (fuel : Nat) :
    ∀ (k : Nat) (s : WimpState), redraw_drain real window true fuel k none s = none := by
  induction fuel with
  | zero => intro k s; simp [redraw_drain]
  | succ n ih =>
    intro k s
    unfold redraw_drain
    simp only [Option.isNone_none, Bool.and_self, if_true]
    rw [hreal k]
    exact ih _ _

/-- C28 (the code at the failing input): the oracle fails and the real
calls report no rectangle (`*more == 0`) and no error. With the real calls
going on like that the loop of `pseudo_wimp_redraw_window`, and that of
`pseudo_wimp_get_rectangle`, is not over after any number of turns; and if the
fourth real call reports an error, three calls of `wimp_get_rectangle` have
followed the first call although it had reported that nothing was left. -/
theorem pseudo_wimp_redraw_ignores_more :
    (∀ fuel, pseudo_wimp_redraw_window false fuel wimp_start (some 7) true false
      no_rectangles = none) ∧
    (∀ fuel, pseudo_wimp_get_rectangle false fuel wimp_start (some 7) true false
      no_rectangles = none) ∧
    (empty_then_error 0).more = 0 ∧
    redraw_report wimp_start
      (pseudo_wimp_redraw_window false 5 wimp_start (some 7) true false empty_then_error)
      = some (some NoMem, [WimpCall.redraw_window 7 true, WimpCall.get_rectangle 7 true,
          WimpCall.get_rectangle 7 true, WimpCall.get_rectangle 7 true]) := by
  refine ⟨?_, ?_, by decide, by decide⟩
  · intro fuel
    simp only [pseudo_wimp_redraw_window, pseudokern_fail, assert_fails, Option.isSome_some,
      Bool.not_true, Bool.and_false, Bool.false_eq_true, if_false, Bool.not_false,
      if_true, no_rectangles]
    rw [redraw_drain_no_error _ _ (fun _ => rfl)]
    rfl
  · intro fuel
    simp only [pseudo_wimp_get_rectangle, pseudokern_fail, assert_fails, Option.isSome_some,
      Bool.not_true, Bool.and_false, Bool.false_eq_true, if_false, Bool.not_false,
      if_true, no_rectangles]
    rw [redraw_drain_no_error _ _ (fun _ => rfl)]
    rfl

/-! ### A null block -/

/-- C29 (the code at the failing input): after `pseudo_wimp_reset`, a
`Wimp_ENull` message sent with a null block passes the assertion and the
oracle, and the block is then read to fill `msgs[0]`. -/
theorem pseudo_wimp_send_null_block_read :
    (Wimp_ENull == Wimp_ENull || (none : Option WimpPollBlock).isSome) = true ∧
    (pseudo_wimp_reset wimp_start).capture = true ∧
    (pseudo_wimp_reset wimp_start).msg_count < msgs_size ∧
    pseudo_wimp_send_message false (pseudo_wimp_reset wimp_start) Wimp_ENull none 0 0 false
      okReal = .ub ∧
    pseudo_wimp_send_message true (pseudo_wimp_reset wimp_start) Wimp_ENull none 0 0 false
      okReal = .ub := by
  refine ⟨by decide, rfl, by decide, rfl, rfl⟩

theorem send_fill_sender_inv (ndebug : Bool) (s s' : WimpState) (code : Int)
    (block : Option WimpPollBlock) (w : WimpReal)
    (r : Option kernel_oserror × Option WimpPollBlock)
    (h : send_fill_sender ndebug s code block w = .ret r s') :
    ((code == Wimp_EUserMessage || code == Wimp_EUserMessageRecorded) = true ∧
      ∃ b, block = some b ∧
        r.2 = some ((b.set 1 w.r0).set 2 (wrap_int (s.my_ref + 1))) ∧
        s' = { s with
          calls := s.calls ++ [WimpCall.read_sys_info TaskHandleAndVersion]
          my_ref := wrap_int (s.my_ref + 1) }) ∨
    ((code == Wimp_EUserMessage || code == Wimp_EUserMessageRecorded) = false ∧
      r.2 = block ∧ s' = s) := by
  unfold send_fill_sender at h
  split at h
  · rename_i hu
    split at h
    · simp at h
    · cases block with
      | none => simp at h
      | some b =>
        simp only [Outcome.ret.injEq] at h
        obtain ⟨rfl, rfl⟩ := h
        exact Or.inl ⟨hu, b, rfl, rfl, rfl⟩
  · rename_i hu
    simp only [Outcome.ret.injEq] at h
    obtain ⟨rfl, rfl⟩ := h
    exact Or.inr ⟨by simpa using hu, rfl, rfl⟩

theorem send_find_task_inv (ndebug : Bool) (s s' : WimpState)
    (e : Option kernel_oserror) (handle icon : Int) (th : Bool) (w : WimpReal)
    (r : Option kernel_oserror × Option Int)
    (h : send_find_task ndebug s e handle icon th w = .ret r s') :
    (th = true ∧ handle ≠ 0 ∧ s' = { s with calls := s.calls ++ [query_call handle icon] }) ∨
    (¬ (th = true ∧ handle ≠ 0) ∧ s' = s) := by
  unfold send_find_task at h
  split at h
  · rename_i hq
    split at h
    · simp at h
    · simp only [Outcome.ret.injEq] at h
      obtain ⟨_, rfl⟩ := h
      simp only [Bool.and_eq_true, bne_iff_ne, ne_eq] at hq
      exact Or.inl ⟨hq.1, hq.2, rfl⟩
  · rename_i hq
    simp only [Outcome.ret.injEq] at h
    obtain ⟨_, rfl⟩ := h
    simp only [Bool.and_eq_true, bne_iff_ne, ne_eq] at hq
    exact Or.inr ⟨hq, rfl⟩

theorem send_record_inv (s s' : WimpState) (code : Int)
    (block : Option WimpPollBlock) (handle icon : Int)
    (h : send_record s code block handle icon = .ret () s') :
    (s.msg_count < msgs_size ∧ ∃ b, block = some b ∧
      s' = { s with
        msgs := upd s.msgs s.msg_count
          { code := code, block := b, handle := handle, icon := icon }
        msg_count := s.msg_count + 1 }) ∨
    (¬ s.msg_count < msgs_size ∧ s' = s) := by
  unfold send_record at h
  split at h
  · rename_i hlt
    cases block with
    | none => simp at h
    | some b =>
      simp only [Outcome.ret.injEq] at h
      obtain ⟨_, rfl⟩ := h
      exact Or.inl ⟨hlt, b, rfl, rfl⟩
  · rename_i hlt
    simp only [Outcome.ret.injEq] at h
    obtain ⟨_, rfl⟩ := h
    exact Or.inr ⟨hlt, rfl⟩

/-- What a call that returns has done while the trap is armed. -/
theorem send_captured_inv (ndebug : Bool) (s s' : WimpState) (c : SendCall) (r : SendResult)
    (hcap : s.capture = true)
    (h : pseudo_wimp_send_message ndebug s c.code c.block c.handle c.icon c.th c.real
      = .ret r s') :
    (c.real.allow = false ∧ r = { e := some NoMem, block := c.block, th_out := none } ∧
      s' = s) ∨
    (c.real.allow = true ∧
      ∃ s1 s2, 
        ((c.user = true ∧ ∃ b, c.block = some b ∧
            r.block = some ((b.set 1 c.real.r0).set 2 (wrap_int (s.my_ref + 1))) ∧
            s1 = { s with
              calls := s.calls ++ [WimpCall.read_sys_info TaskHandleAndVersion]
              my_ref := wrap_int (s.my_ref + 1) }) ∨
          (c.user = false ∧ r.block = c.block ∧ s1 = s)) ∧
        ((c.th = true ∧ c.handle ≠ 0 ∧
            s2 = { s1 with calls := s1.calls ++ [query_call c.handle c.icon] }) ∨
          (¬ (c.th = true ∧ c.handle ≠ 0) ∧ s2 = s1)) ∧
        ((s2.msg_count < msgs_size ∧ ∃ b, r.block = some b ∧
            s' = { s2 with
              msgs := upd s2.msgs s2.msg_count
                { code := c.code, block := b, handle := c.handle, icon := c.icon }
              msg_count := s2.msg_count + 1 }) ∨
          (¬ s2.msg_count < msgs_size ∧ s' = s2))) := by
  unfold pseudo_wimp_send_message at h
  simp only at h
  split at h
  · simp at h
  · split at h
    · rename_i err he
      simp only [Outcome.ret.injEq] at h
      obtain ⟨rfl, rfl⟩ := h
      left
      have ha : c.real.allow = false := by
        cases hA : c.real.allow with
        | false => rfl
        | true => simp [pseudokern_fail, hA] at he
      have herr : err = NoMem := by
        simp [pseudokern_fail, ha] at he
        exact he.symm
      exact ⟨ha, by rw [herr], rfl⟩
    · rename_i he
      have ha : c.real.allow = true := by
        cases hA : c.real.allow with
        | true => rfl
        | false => simp [pseudokern_fail, hA] at he
      split at h
      · simp at h
      · try rw [if_pos hcap] at h
        obtain ⟨r1, s1, h1, h⟩ := bind_eq_ret _ _ _ _ h
        obtain ⟨r2, s2, h2, h⟩ := bind_eq_ret _ _ _ _ h
        obtain ⟨u, s3, h3, h⟩ := bind_eq_ret _ _ _ _ h
        simp only [Outcome.ret.injEq] at h
        obtain ⟨rfl, rfl⟩ := h
        right
        refine ⟨ha, s1, s2, ?_, ?_, ?_⟩
        · rcases send_fill_sender_inv _ _ _ _ _ _ _ h1 with ⟨hu, b, hb, hr, hs⟩ | ⟨hu, hr, hs⟩
          · exact Or.inl ⟨hu, b, hb, hr, hs⟩
          · exact Or.inr ⟨hu, hr, hs⟩
        · exact send_find_task_inv _ _ _ _ _ _ _ _ _ h2
        · exact send_record_inv _ _ _ _ _ _ h3

/-- The counter and the flag after a call that returned, the trap being armed. -/
theorem send_captured_ref (ndebug : Bool) (s s' : WimpState) (c : SendCall) (r : SendResult)
    (hcap : s.capture = true)
    (h : pseudo_wimp_send_message ndebug s c.code c.block c.handle c.icon c.th c.real
      = .ret r s') :
    s'.capture = true ∧
    (c.numbered = true → ∃ b0, c.block = some b0 ∧
      r.block = some ((b0.set 1 c.real.r0).set 2 (wrap_int (s.my_ref + 1))) ∧
      s'.my_ref = wrap_int (s.my_ref + 1)) ∧
    (c.numbered = false → r.block = c.block ∧ s'.my_ref = s.my_ref) := by
  rcases send_captured_inv ndebug s s' c r hcap h with
    ⟨ha, hr, hs⟩ | ⟨ha, s1, s2, h1, h2, h3⟩
  · subst hs
    refine ⟨hcap, ?_, ?_⟩
    · intro hn; simp [SendCall.numbered, ha] at hn
    · intro _; rw [hr]; exact ⟨rfl, rfl⟩
  · have e2 : s2.capture = s1.capture ∧ s2.my_ref = s1.my_ref := by
      rcases h2 with ⟨_, _, rfl⟩ | ⟨_, rfl⟩ <;> exact ⟨rfl, rfl⟩
    have e3 : s'.capture = s2.capture ∧ s'.my_ref = s2.my_ref := by
      rcases h3 with ⟨_, b, _, rfl⟩ | ⟨_, rfl⟩ <;> exact ⟨rfl, rfl⟩
    rcases h1 with ⟨hu, b, hb, hr, hs1⟩ | ⟨hu, hr, hs1⟩
    · have c1 : s1.capture = s.capture ∧ s1.my_ref = wrap_int (s.my_ref + 1) := by
        rw [hs1]; exact ⟨rfl, rfl⟩
      refine ⟨by rw [e3.1, e2.1, c1.1]; exact hcap, ?_, ?_⟩
      · intro _
        exact ⟨b, hb, hr, by rw [e3.2, e2.2, c1.2]⟩
      · intro hn; simp [SendCall.numbered, ha, hu] at hn
    · subst hs1
      refine ⟨by rw [e3.1, e2.1]; exact hcap, ?_, ?_⟩
      · intro hn; simp [SendCall.numbered, ha, hu] at hn
      · intro _
        exact ⟨hr, by rw [e3.2, e2.2]⟩

theorem countP_take_lt {α : Type} (p : α → Bool) (l : List α) :
    ∀ (i j : Nat) (a : α), i ≤ j → l[j]? = some a → p a = true →
      (l.take i).countP p < (l.take (j + 1)).countP p := by
  induction l with
  | nil => intro i j a _ h _; simp at h
  | cons x xs ih =>
    intro i j a hij hj hp
    cases i with
    | zero =>
      have hmem : a ∈ (x :: xs).take (j + 1) := by
        have h1 : ((x :: xs).take (j + 1))[j]? = some a := by
          rw [List.getElem?_take_of_lt (Nat.lt_succ_self j)]; exact hj
        exact List.getElem?_mem h1
      have hpos : 0 < ((x :: xs).take (j + 1)).countP p :=
        List.countP_pos_iff.mpr ⟨a, hmem, hp⟩
      simpa using hpos
    | succ i' =>
      cases j with
      | zero => omega
      | succ j' =>
        have hj' : xs[j']? = some a := by simpa using hj
        have := ih i' j' a (by omega) hj' hp
        simp only [List.take_succ_cons, List.countP_cons]
        omega

/-- The references given in a run of sends, the trap being armed and the
counter staying below `INT_MAX`: the `n`-th numbered send gets the counter's
start value plus `n`. -/
theorem send_all_refs (ndebug : Bool) (cs : List SendCall) :
    ∀ (t t' : WimpState) (rs : List SendResult), t.capture = true →
      -2 ^ 31 ≤ t.my_ref → t.my_ref + (cs.countP SendCall.numbered : Nat) < 2 ^ 31 →
      send_all ndebug t cs = .ret rs t' →
      t'.my_ref = t.my_ref + (cs.countP SendCall.numbered : Nat) ∧
      ∀ (i : Nat) (c : SendCall) (r : SendResult),
        cs[i]? = some c → rs[i]? = some r → c.numbered = true →
        ∃ b0, c.block = some b0 ∧
          r.block = some ((b0.set 1 c.real.r0).set 2
            (t.my_ref + (((cs.take (i + 1)).countP SendCall.numbered : Nat) : Int))) := by
  induction cs with
  | nil =>
    intro t t' rs _ _ _ h
    simp only [send_all, Outcome.ret.injEq] at h
    obtain ⟨_, rfl⟩ := h
    exact ⟨by simp, fun i c r hc => by simp at hc⟩
  | cons c cs ih =>
    intro t t' rs hcap hlow hhigh h
    simp only [send_all] at h
    obtain ⟨r, s1, h1, h⟩ := bind_eq_ret _ _ _ _ h
    obtain ⟨rs1, s2, h2, h⟩ := bind_eq_ret _ _ _ _ h
    simp only [Outcome.ret.injEq] at h
    obtain ⟨rfl, rfl⟩ := h
    obtain ⟨hc1, hnum, hnot⟩ := send_captured_ref ndebug t s1 c r hcap h1
    rw [List.countP_cons] at hhigh
    cases hn : c.numbered with
    | true =>
      obtain ⟨b0, hb, hr, hm⟩ := hnum hn
      simp only [hn, if_true] at hhigh
      push_cast at hhigh
      have hw : wrap_int (t.my_ref + 1) = t.my_ref + 1 :=
        wrap_int_id _ (by omega) (by omega)
      rw [hw] at hm hr
      obtain ⟨hfin, hall⟩ := ih s1 s2 rs1 hc1 (by omega) (by omega) h2
      refine ⟨?_, ?_⟩
      · rw [hfin, hm, List.countP_cons]
        simp only [hn, if_true]
        push_cast
        omega
      · intro i d q hd hq hdn
        cases i with
        | zero =>
          simp only [List.getElem?_cons_zero, Option.some.injEq] at hd hq
          subst hd hq
          refine ⟨b0, hb, ?_⟩
          rw [hr]
          simp [List.countP_cons, hn]
        | succ k =>
          simp only [List.getElem?_cons_succ] at hd hq
          obtain ⟨d0, hd0, hq0⟩ := hall k d q hd hq hdn
          refine ⟨d0, hd0, ?_⟩
          rw [hq0, hm]
          simp only [List.take_succ_cons, List.countP_cons, hn, if_true]
          push_cast
          congr 2
          omega
    | false =>
      obtain ⟨_, hm⟩ := hnot hn
      simp only [hn, Bool.false_eq_true, if_false, Nat.add_zero] at hhigh
      obtain ⟨hfin, hall⟩ := ih s1 s2 rs1 hc1 (by omega) (by omega) h2
      refine ⟨?_, ?_⟩
      · rw [hfin, hm, List.countP_cons]
        simp [hn]
      · intro i d q hd hq hdn
        cases i with
        | zero =>
          simp only [List.getElem?_cons_zero, Option.some.injEq] at hd
          subst hd
          rw [hn] at hdn
          exact absurd hdn (by simp)
        | succ k =>
          simp only [List.getElem?_cons_succ] at hd hq
          obtain ⟨d0, hd0, hq0⟩ := hall k d q hd hq hdn
          refine ⟨d0, hd0, ?_⟩
          rw [hq0, hm]
          simp [List.take_succ_cons, List.countP_cons, hn]

theorem bind_eq_abort {σ α β : Type} (x : Outcome σ α) (f : α → σ → Outcome σ β)
    (s' : σ) (h : x.bind f = .abort s') :
    x = .abort s' ∨ ∃ a s1, x = .ret a s1 ∧ f a s1 = .abort s' := by
  cases x with
  | ret a s1 => exact Or.inr ⟨a, s1, rfl, h⟩
  | abort s1 =>
    simp only [Outcome.bind, Outcome.abort.injEq] at h
    exact Or.inl (by rw [h])
  | ub => simp [Outcome.bind] at h

theorem send_fill_sender_abort (ndebug : Bool) (s s' : WimpState) (code : Int)
    (block : Option WimpPollBlock) (w : WimpReal)
    (h : send_fill_sender ndebug s code block w = .abort s') :
    s' = { s with calls := s.calls ++ [WimpCall.read_sys_info TaskHandleAndVersion] } := by
  unfold send_fill_sender at h
  split at h
  · split at h
    · simp only [Outcome.abort.injEq] at h
      exact h.symm
    · cases block with
      | none => simp at h
      | some b => simp at h
  · simp at h

theorem send_find_task_abort (ndebug : Bool) (s s' : WimpState)
    (e : Option kernel_oserror) (handle icon : Int) (th : Bool) (w : WimpReal)
    (h : send_find_task ndebug s e handle icon th w = .abort s') :
    th = true ∧ handle ≠ 0 ∧
      s' = { s with calls := s.calls ++ [query_call handle icon] } := by
  unfold send_find_task at h
  split at h
  · rename_i hq
    simp only [Bool.and_eq_true, bne_iff_ne, ne_eq] at hq
    split at h
    · simp only [Outcome.abort.injEq] at h
      exact ⟨hq.1, hq.2, h.symm⟩
    · simp at h
  · simp at h

theorem send_record_no_abort (s s' : WimpState) (code : Int)
    (block : Option WimpPollBlock) (handle icon : Int) :
    send_record s code block handle icon ≠ .abort s' := by
  unfold send_record
  split
  · cases block <;> simp
  · simp

/-- The real calls made by a call of `pseudo_wimp_send_message` while the trap
is armed, whether it returns or stops at an assertion. -/
theorem send_captured_calls (ndebug : Bool) (s : WimpState) (c : SendCall)
    (hcap : s.capture = true) (l : List WimpCall)
    (h : calls_made (pseudo_wimp_send_message ndebug s c.code c.block c.handle c.icon c.th
      c.real) = some l) :
    ∃ l', l = s.calls ++ l' ∧
      ∀ x ∈ l', x = WimpCall.read_sys_info TaskHandleAndVersion ∨
        (x = query_call c.handle c.icon ∧ c.th = true ∧ c.handle ≠ 0) := by
  cases ho : pseudo_wimp_send_message ndebug s c.code c.block c.handle c.icon c.th c.real with
  | ub => rw [ho] at h; simp [calls_made] at h
  | ret r s' =>
    rw [ho] at h
    simp only [calls_made, Option.some.injEq] at h
    subst h
    rcases send_captured_inv ndebug s s' c r hcap ho with
      ⟨_, _, hs⟩ | ⟨_, s1, s2, h1, h2, h3⟩
    · exact ⟨[], by rw [hs]; simp, fun x hx => by simp at hx⟩
    · have e3 : s'.calls = s2.calls := by
        rcases h3 with ⟨_, b, _, rfl⟩ | ⟨_, rfl⟩ <;> rfl
      have e1 : ∃ l1, s1.calls = s.calls ++ l1 ∧
          ∀ x ∈ l1, x = WimpCall.read_sys_info TaskHandleAndVersion := by
        rcases h1 with ⟨_, b, _, _, rfl⟩ | ⟨_, _, rfl⟩
        · exact ⟨[WimpCall.read_sys_info TaskHandleAndVersion], rfl, fun x hx => by
            simpa using hx⟩
        · exact ⟨[], by simp, fun x hx => by simp at hx⟩
      obtain ⟨l1, hl1, hx1⟩ := e1
      rcases h2 with ⟨hth, hh, rfl⟩ | ⟨_, rfl⟩
      · refine ⟨l1 ++ [query_call c.handle c.icon], ?_, ?_⟩
        · rw [e3]; simp only; rw [hl1, List.append_assoc]
        · intro x hx
          rcases List.mem_append.mp hx with hx | hx
          · exact Or.inl (hx1 x hx)
          · exact Or.inr ⟨by simpa using hx, hth, hh⟩
      · exact ⟨l1, by rw [e3, hl1], fun x hx => Or.inl (hx1 x hx)⟩
  | abort s' =>
    rw [ho] at h
    simp only [calls_made, Option.some.injEq] at h
    subst h
    unfold pseudo_wimp_send_message at ho
    simp only at ho
    split at ho
    · simp only [Outcome.abort.injEq] at ho
      exact ⟨[], by rw [← ho]; simp, fun x hx => by simp at hx⟩
    · split at ho
      · simp at ho
      · split at ho
        · simp at ho
        · try rw [if_pos hcap] at ho
          rcases bind_eq_abort _ _ _ ho with h1 | ⟨r1, s1, h1, ho⟩
          · have := send_fill_sender_abort _ _ _ _ _ _ h1
            exact ⟨[WimpCall.read_sys_info TaskHandleAndVersion], by rw [this],
              fun x hx => Or.inl (by simpa using hx)⟩
          · have e1 : ∃ l1, s1.calls = s.calls ++ l1 ∧
                ∀ x ∈ l1, x = WimpCall.read_sys_info TaskHandleAndVersion := by
              rcases send_fill_sender_inv _ _ _ _ _ _ _ h1 with
                ⟨_, b, _, _, rfl⟩ | ⟨_, _, rfl⟩
              · exact ⟨[WimpCall.read_sys_info TaskHandleAndVersion], rfl, fun x hx => by
                  simpa using hx⟩
              · exact ⟨[], by simp, fun x hx => by simp at hx⟩
            obtain ⟨l1, hl1, hx1⟩ := e1
            rcases bind_eq_abort _ _ _ ho with h2 | ⟨r2, s2, h2, ho⟩
            · obtain ⟨hth, hh, hs'⟩ := send_find_task_abort _ _ _ _ _ _ _ _ h2
              refine ⟨l1 ++ [query_call c.handle c.icon], ?_, ?_⟩
              · rw [hs']; simp only; rw [hl1, List.append_assoc]
              · intro x hx
                rcases List.mem_append.mp hx with hx | hx
                · exact Or.inl (hx1 x hx)
                · exact Or.inr ⟨by simpa using hx, hth, hh⟩
            · rcases bind_eq_abort _ _ _ ho with h3 | ⟨_, _, _, ho⟩
              · exact absurd h3 (send_record_no_abort _ _ _ _ _ _)
              · simp at ho

/-- C24 (as stated, refuted): with capture armed and 32 messages held, a
message with code 5 is sent; the call returns no error and the state is as it
was: the block has not been recorded. -/
theorem pseudo_wimp_full_log_not_recorded :
    full_state.capture = true ∧ full_state.msg_count = 32 ∧
    pseudo_wimp_send_message false full_state 5 (some [7, 7, 7]) 0 0 false okReal
      = .ret { e := none, block := some [7, 7, 7], th_out := none } full_state := by
  refine ⟨full_state_props.2.1, full_state_props.2.2, ?_⟩
  simp [pseudo_wimp_send_message, pseudokern_fail, okReal, assert_fails, Wimp_ENull,
    Wimp_EUserMessage, Wimp_EUserMessageRecorded, Wimp_EUserMessageAcknowledge,
    full_state_props.2.1, full_state_props.2.2, send_fill_sender, send_find_task, send_record,
    msgs_size, Outcome.bind]

/-- C24 (amended). With capture armed, the only real calls made by
`pseudo_wimp_send_message`, whether it returns or stops at an assertion, are
`wimp_read_sys_info` and the query for the task handle (`wimp_send_message`
with the query message, never the caller's), the latter only when `th` and
`handle` are non-zero. For a call that returns: when the oracle fails nothing
changes; otherwise, for codes 17 and 18 the block handed
back is the caller's with `hdr.sender` and `hdr.my_ref` replaced (by the task
handle and by the counter's next value) and for every other code it is the
caller's block unchanged; that block is stored in `msgs[msg_count]` if
`msg_count < 32` and nothing is stored otherwise. In a run of such calls during
which the counter stays below `INT_MAX`, the `n`-th send that is given a
reference gets the counter's start value plus `n`, so each reference is
strictly greater than those given before. -/
theorem pseudo_wimp_send_message_captured (ndebug : Bool) (u s s' : WimpState)
    (d c : SendCall) (r : SendResult) (t t' : WimpState) (cs : List SendCall)
    (rs : List SendResult)
    (hucap : u.capture = true)
    (hcap : s.capture = true)
    (hrun : pseudo_wimp_send_message ndebug s c.code c.block c.handle c.icon c.th c.real
      = .ret r s')
    (htcap : t.capture = true) (hlow : -2 ^ 31 ≤ t.my_ref)
    (hhigh : t.my_ref + (cs.countP SendCall.numbered : Nat) < 2 ^ 31)
    (hruns : send_all ndebug t cs = .ret rs t') :
    (∀ l, calls_made (pseudo_wimp_send_message ndebug u d.code d.block d.handle d.icon d.th
        d.real) = some l →
      ∃ l', l = u.calls ++ l' ∧
        ∀ x ∈ l', x = WimpCall.read_sys_info TaskHandleAndVersion ∨
          (x = query_call d.handle d.icon ∧ d.th = true ∧ d.handle ≠ 0)) ∧
    (c.real.allow = false →
      r = { e := some NoMem, block := c.block, th_out := none } ∧ s' = s) ∧
    (c.real.allow = true →
      (c.user = true → ∃ b0, c.block = some b0 ∧
        r.block = some ((b0.set 1 c.real.r0).set 2 (wrap_int (s.my_ref + 1))) ∧
        s'.my_ref = wrap_int (s.my_ref + 1)) ∧
      (c.user = false → r.block = c.block ∧ s'.my_ref = s.my_ref) ∧
      (s.msg_count < msgs_size → ∃ b, r.block = some b ∧
        s'.msg_count = s.msg_count + 1 ∧
        s'.msgs = upd s.msgs s.msg_count
          { code := c.code, block := b, handle := c.handle, icon := c.icon }) ∧
      (¬ s.msg_count < msgs_size → s'.msg_count = s.msg_count ∧ s'.msgs = s.msgs)) ∧
    (∀ (i : Nat) (d : SendCall) (q : SendResult),
      cs[i]? = some d → rs[i]? = some q → d.numbered = true →
      ∃ b0, d.block = some b0 ∧
        q.block = some ((b0.set 1 d.real.r0).set 2
          (t.my_ref + (((cs.take (i + 1)).countP SendCall.numbered : Nat) : Int)))) ∧
    (∀ (i j : Nat) (d : SendCall), i < j → cs[j]? = some d → d.numbered = true →
      (cs.take (i + 1)).countP SendCall.numbered
        < (cs.take (j + 1)).countP SendCall.numbered) := by
  refine ⟨fun l hl => send_captured_calls ndebug u d hucap l hl, ?_, ?_,
    (send_all_refs ndebug cs t t' rs htcap hlow hhigh hruns).2,
    fun i j d hij hd hn => countP_take_lt _ cs (i + 1) j d hij hd hn⟩
  · intro ha
    rcases send_captured_inv ndebug s s' c r hcap hrun with
      ⟨_, hr, hs⟩ | ⟨ha', _⟩
    · exact ⟨hr, hs⟩
    · rw [ha] at ha'; exact absurd ha' (by simp)
  · intro ha
    rcases send_captured_inv ndebug s s' c r hcap hrun with
      ⟨ha', _⟩ | ⟨_, s1, s2, h1, h2, h3⟩
    · rw [ha] at ha'; exact absurd ha' (by simp)
    · have e1 : s1.msg_count = s.msg_count ∧ s1.msgs = s.msgs := by
        rcases h1 with ⟨_, b, _, _, rfl⟩ | ⟨_, _, rfl⟩ <;> exact ⟨rfl, rfl⟩
      have e2 : s2.msg_count = s1.msg_count ∧ s2.msgs = s1.msgs ∧ s2.my_ref = s1.my_ref := by
        rcases h2 with ⟨_, _, rfl⟩ | ⟨_, rfl⟩ <;> exact ⟨rfl, rfl, rfl⟩
      have e3 : s'.my_ref = s2.my_ref := by
        rcases h3 with ⟨_, b, _, rfl⟩ | ⟨_, rfl⟩ <;> rfl
      have hc2 : s2.msg_count = s.msg_count := by rw [e2.1, e1.1]
      have hm2 : s2.msgs = s.msgs := by rw [e2.2.1, e1.2]
      refine ⟨?_, ?_, ?_, ?_⟩
      · intro hu
        rcases h1 with ⟨_, b, hb, hr, hs1⟩ | ⟨hu', _, _⟩
        · refine ⟨b, hb, hr, ?_⟩
          rw [e3, e2.2.2, hs1]
        · rw [hu] at hu'; exact absurd hu' (by simp)
      · intro hu
        rcases h1 with ⟨hu', _⟩ | ⟨_, hr, hs1⟩
        · rw [hu] at hu'; exact absurd hu' (by simp)
        · exact ⟨hr, by rw [e3, e2.2.2, hs1]⟩
      · intro hlt
        rcases h3 with ⟨_, b, hb, hs'⟩ | ⟨hge, _⟩
        · refine ⟨b, hb, ?_, ?_⟩
          · rw [hs']; simp only; rw [hc2]
          · rw [hs']; simp only; rw [hc2, hm2]
        · rw [hc2] at hge; exact absurd hlt hge
      · intro hge
        rcases h3 with ⟨hlt, _⟩ | ⟨_, hs'⟩
        · rw [hc2] at hlt; exact absurd hlt hge
        · rw [hs']; exact ⟨hc2, hm2⟩

/-- C24 witness: a user message sent first after `pseudo_wimp_reset` gets the
task handle 4660 and the reference 1; in the run `ref_calls` the second user
message gets the reference 2. -/
theorem pseudo_wimp_send_message_captured_witness :
    (∃ b0, userCall.block = some b0 ∧
      (some [24, 4660, 1, 0, 5, 1] : Option WimpPollBlock)
        = some ((b0.set 1 userCall.real.r0).set 2
            (wrap_int ((pseudo_wimp_reset wimp_start).my_ref + 1)))) ∧
    (∃ b0, userCall.block = some b0 ∧
      (some [24, 4660, 2, 0, 5, 1] : Option WimpPollBlock)
        = some ((b0.set 1 userCall.real.r0).set 2
            ((pseudo_wimp_reset wimp_start).my_ref
              + (((ref_calls.take (2 + 1)).countP SendCall.numbered : Nat) : Int)))) :=
  have h := pseudo_wimp_send_message_captured false (pseudo_wimp_reset wimp_start)
    (pseudo_wimp_reset wimp_start)
    (state_after (pseudo_wimp_send_message false (pseudo_wimp_reset wimp_start) userCall.code
      userCall.block userCall.handle userCall.icon userCall.th userCall.real))
    queryFailCall userCall { e := none, block := some [24, 4660, 1, 0, 5, 1], th_out := none }
    (pseudo_wimp_reset wimp_start)
    (state_after (send_all false (pseudo_wimp_reset wimp_start) ref_calls))
    ref_calls
    [{ e := none, block := some [24, 4660, 1, 0, 5, 1], th_out := none },
      { e := none, block := some [1, 2, 3], th_out := some 77 },
      { e := none, block := some [24, 4660, 2, 0, 5, 1], th_out := none }]
    rfl rfl rfl rfl (by decide) (by decide) rfl
  ⟨match (h.2.2.1 rfl).1 rfl with
    | ⟨b0, hb, hr, _⟩ => ⟨b0, hb, hr⟩,
   h.2.2.2.1 2 userCall { e := none, block := some [24, 4660, 2, 0, 5, 1], th_out := none }
    rfl rfl rfl⟩

/-- C25 (the code at the failing input): after each reset two calls are made,
the oracle allowing them. The second call is not intercepted, it goes to the
real function, and the accessor hands back what the first call passed, not
the last. -/
theorem saveas_second_call_not_intercepted :
    (ret_state (file_save_completed_all 212
        (pseudo_saveas_reset_file_save_completed tbox_start) two_saves)).map
        (fun s => (pseudo_saveas_get_file_save_completed s 10, s.calls))
      = some ({ id := 7, flags := 1, name := some ['a'], nbytes := 2 },
          [TboxCall.saveas_file_save_completed 2 8 ['b']]) ∧
    (ret_state (buffer_filled_all false
        (pseudo_saveas_reset_buffer_filled tbox_start) two_buffers)).map
        (fun s => (pseudo_saveas_get_buffer_filled s 10, s.calls))
      = some ({ id := 7, flags := 1, data := [5], nbytes := 1 },
          [TboxCall.saveas_buffer_filled 2 8 [6, 6] 2]) := by
  decide

theorem file_save_completed_idle (name_size : Nat) (s : TboxState) (c : FileSaveCall)
    (hs : s.intercept_file_save_completed = false) :
    ∃ s1, pseudo_saveas_file_save_completed name_size s c.flags c.saveas c.filename c.allow
        c.real = .ret (passed_on c.allow c.real) s1 ∧
      s1.intercept_file_save_completed = false ∧
      s1.calls = s.calls ++ (if c.allow then
        [TboxCall.saveas_file_save_completed c.flags c.saveas c.filename] else []) ∧
      ∀ k, pseudo_saveas_get_file_save_completed s1 k
        = pseudo_saveas_get_file_save_completed s k := by
  cases ha : c.allow with
  | true =>
    exact ⟨{ s with calls := s.calls ++
        [TboxCall.saveas_file_save_completed c.flags c.saveas c.filename] },
      by simp [pseudo_saveas_file_save_completed, hs, pseudokern_fail, passed_on],
      hs, by simp, fun _ => rfl⟩
  | false =>
    exact ⟨s, by simp [pseudo_saveas_file_save_completed, hs, pseudokern_fail, passed_on],
      hs, by simp, fun _ => rfl⟩

theorem file_save_completed_all_idle (name_size : Nat) (cs : List FileSaveCall) :
    ∀ s : TboxState, s.intercept_file_save_completed = false →
      ∃ s', file_save_completed_all name_size s cs
          = .ret (cs.map fun c => passed_on c.allow c.real) s' ∧
        s'.calls = s.calls ++ (cs.filter fun c => c.allow).map
          (fun c => TboxCall.saveas_file_save_completed c.flags c.saveas c.filename) ∧
        ∀ k, pseudo_saveas_get_file_save_completed s' k
          = pseudo_saveas_get_file_save_completed s k := by
  induction cs with
  | nil => intro s _; exact ⟨s, rfl, by simp, fun _ => rfl⟩
  | cons c cs ih =>
    intro s hs
    obtain ⟨s1, hstep, hi1, hc1, hg1⟩ := file_save_completed_idle name_size s c hs
    obtain ⟨s', h1, h2, h3⟩ := ih s1 hi1
    refine ⟨s', ?_, ?_, fun k => by rw [h3 k, hg1 k]⟩
    · simp only [file_save_completed_all, hstep, Outcome.bind, h1, List.map_cons]
    · rw [h2, hc1]
      cases ha : c.allow <;> simp [ha]

theorem buffer_filled_idle (ndebug : Bool) (s : TboxState) (c : BufferCall)
    (hs : s.intercept_saveas_buffer_filled = false) :
    ∃ s1, pseudo_saveas_buffer_filled ndebug s c.flags c.saveas c.buffer c.bytes_written
        c.allow c.real = .ret (passed_on c.allow c.real) s1 ∧
      s1.intercept_saveas_buffer_filled = false ∧
      s1.calls = s.calls ++ (if c.allow then
        [TboxCall.saveas_buffer_filled c.flags c.saveas c.buffer c.bytes_written] else []) ∧
      ∀ k, pseudo_saveas_get_buffer_filled s1 k = pseudo_saveas_get_buffer_filled s k := by
  cases ha : c.allow with
  | true =>
    exact ⟨{ s with calls := s.calls ++
        [TboxCall.saveas_buffer_filled c.flags c.saveas c.buffer c.bytes_written] },
      by simp [pseudo_saveas_buffer_filled, hs, pseudokern_fail, passed_on],
      hs, by simp, fun _ => rfl⟩
  | false =>
    exact ⟨s, by simp [pseudo_saveas_buffer_filled, hs, pseudokern_fail, passed_on],
      hs, by simp, fun _ => rfl⟩

theorem buffer_filled_all_idle (ndebug : Bool) (cs : List BufferCall) :
    ∀ s : TboxState, s.intercept_saveas_buffer_filled = false →
      ∃ s', buffer_filled_all ndebug s cs
          = .ret (cs.map fun c => passed_on c.allow c.real) s' ∧
        s'.calls = s.calls ++ (cs.filter fun c => c.allow).map
          (fun c => TboxCall.saveas_buffer_filled c.flags c.saveas c.buffer c.bytes_written) ∧
        ∀ k, pseudo_saveas_get_buffer_filled s' k = pseudo_saveas_get_buffer_filled s k := by
  induction cs with
  | nil => intro s _; exact ⟨s, rfl, by simp, fun _ => rfl⟩
  | cons c cs ih =>
    intro s hs
    obtain ⟨s1, hstep, hi1, hc1, hg1⟩ := buffer_filled_idle ndebug s c hs
    obtain ⟨s', h1, h2, h3⟩ := ih s1 hi1
    refine ⟨s', ?_, ?_, fun k => by rw [h3 k, hg1 k]⟩
    · simp only [buffer_filled_all, hstep, Outcome.bind, h1, List.map_cons]
    · rw [h2, hc1]
      cases ha : c.allow <;> simp [ha]

/-- The interceptors over any run of calls. After
`pseudo_saveas_reset_file_save_completed` (resp.
`pseudo_saveas_reset_buffer_filled`) the accessor returns `NULL_ObjectId` as
long as no call has been made; the first call made afterwards, if its data
fits the store, is intercepted (it returns `NULL` and no real call is made),
and every later call goes to the oracle and the real function; after any
number of calls the accessor, given a buffer that is large enough, hands back
the object id, flags and data of the first call made since the reset. -/
theorem saveas_first_call_intercepted (ndebug : Bool) (name_size : Nat) (s : TboxState)
    (f : FileSaveCall) (fs : List FileSaveCall) (b : BufferCall) (bs : List BufferCall)
    (n : Nat) (buff_size : Int)
    (hname : f.filename.length < name_size) (hnsz : (f.filename.length : Int) < buff_size)
    (hbw : b.bytes_written = (n : Int)) (hn : n ≤ buffer_size) (hbuf : n ≤ b.buffer.length)
    (hsz : (n : Int) ≤ buff_size) :
    (pseudo_saveas_get_file_save_completed (pseudo_saveas_reset_file_save_completed s)
        buff_size).id = NULL_ObjectId ∧
    (pseudo_saveas_get_buffer_filled (pseudo_saveas_reset_buffer_filled s)
        buff_size).id = NULL_ObjectId ∧
    (∃ s', file_save_completed_all name_size (pseudo_saveas_reset_file_save_completed s)
        (f :: fs) = .ret (none :: fs.map fun c => passed_on c.allow c.real) s' ∧
      s'.calls = s.calls ++ (fs.filter fun c => c.allow).map
        (fun c => TboxCall.saveas_file_save_completed c.flags c.saveas c.filename) ∧
      pseudo_saveas_get_file_save_completed s' buff_size
        = { id := f.saveas, flags := f.flags, name := some f.filename,
            nbytes := f.filename.length + 1 }) ∧
    (∃ s', buffer_filled_all ndebug (pseudo_saveas_reset_buffer_filled s) (b :: bs)
        = .ret (none :: bs.map fun c => passed_on c.allow c.real) s' ∧
      s'.calls = s.calls ++ (bs.filter fun c => c.allow).map
        (fun c => TboxCall.saveas_buffer_filled c.flags c.saveas c.buffer c.bytes_written) ∧
      pseudo_saveas_get_buffer_filled s' buff_size
        = { id := b.saveas, flags := b.flags, data := b.buffer.take n,
            nbytes := (n : Int) }) := by
  refine ⟨rfl, rfl, ?_, ?_⟩
  · obtain ⟨s2, h1, hc, hg, _⟩ := file_save_completed_one_shot name_size s f.flags f.saveas
      f.filename f.allow f.real 0 0 [] true none buff_size hname hnsz
    have hi2 : s2.intercept_file_save_completed = false := by
      simp only [pseudo_saveas_file_save_completed, pseudo_saveas_reset_file_save_completed,
        if_true, Outcome.ret.injEq] at h1
      rw [← h1.2]
    obtain ⟨s', h3, h4, h5⟩ := file_save_completed_all_idle name_size fs s2 hi2
    refine ⟨s', ?_, by rw [h4, hc], by rw [h5, hg]⟩
    simp only [file_save_completed_all, h1, Outcome.bind, h3]
  · obtain ⟨s2, h1, hc, hg, _⟩ := buffer_filled_one_shot ndebug s b.flags b.saveas
      b.buffer n b.allow b.real 0 0 [] 0 true none buff_size hn hbuf hsz
    have hi2 : s2.intercept_saveas_buffer_filled = false := by
      have t : to_size_t (n : Int) = n := to_size_t_natCast n (by unfold buffer_size at hn; omega)
      have h0 : ¬ (buffer_size < n ∨ b.buffer.length < n) := by omega
      simp only [pseudo_saveas_buffer_filled, pseudo_saveas_reset_buffer_filled, t] at h1
      simp [assert_fails, hn, h0] at h1
      rw [← h1]
    obtain ⟨s', h3, h4, h5⟩ := buffer_filled_all_idle ndebug bs s2 hi2
    refine ⟨s', ?_, by rw [h4, hc], by rw [h5, hg]⟩
    simp only [buffer_filled_all, hbw, h1, Outcome.bind, h3]

/-- The runs `two_saves` and `two_buffers` as an instance. -/
theorem saveas_first_call_intercepted_witness :
    (∃ s', file_save_completed_all 212 (pseudo_saveas_reset_file_save_completed tbox_start)
        two_saves = .ret [none, none] s' ∧
      pseudo_saveas_get_file_save_completed s' 10
        = { id := 7, flags := 1, name := some ['a'], nbytes := 2 }) ∧
    (∃ s', buffer_filled_all false (pseudo_saveas_reset_buffer_filled tbox_start) two_buffers
        = .ret [none, none] s' ∧
      pseudo_saveas_get_buffer_filled s' 10
        = { id := 7, flags := 1, data := [5], nbytes := 1 }) :=
  have h := saveas_first_call_intercepted false 212 tbox_start
    { flags := 1, saveas := 7, filename := ['a'], allow := true, real := none }
    [{ flags := 2, saveas := 8, filename := ['b'], allow := true, real := none }]
    { flags := 1, saveas := 7, buffer := [5], bytes_written := 1, allow := true, real := none }
    [{ flags := 2, saveas := 8, buffer := [6, 6], bytes_written := 2, allow := true,
       real := none }]
    1 10 (by decide) (by decide) rfl (by decide) (by decide) (by decide)
  ⟨match h.2.2.1 with
    | ⟨s', h1, _, h3⟩ => ⟨s', h1, h3⟩,
   match h.2.2.2 with
    | ⟨s', h1, _, h3⟩ => ⟨s', h1, h3⟩⟩

/-! ### Waiting for idle -/

theorem idle_body_event_code (a : IdleAnswer) (s : IdleState) :
    (idle_body a s).event_code = a.event_code := by
  unfold idle_body
  split
  · rfl
  · split
    · rfl
    · split <;> rfl

theorem idle_body_none_iff (a : IdleAnswer) (s : IdleState) :
    (idle_body a s).e = none ↔ a.is_null ∨ a.is_dispatched := by
  unfold idle_body IdleAnswer.is_null IdleAnswer.is_dispatched
  cases hm : a.mask_e <;> cases hp : a.poll_e <;> simp
  by_cases hc : a.event_code = Wimp_ENull
  · simp [hc]
  · simp [hc]

/-- When the loop ends without error, a null event was received in one of the
turns, every turn before it having dispatched an event, or every turn allowed
by the counter has dispatched an event. -/
theorem idle_loop_none (real : Nat → IdleAnswer) (count : Nat) :
    ∀ (k : Nat) (s : IdleState), (idle_loop real count k s).1 = none →
      (∃ i, i ≤ count ∧ (real (k + i)).is_null ∧
        ∀ j, j < i → (real (k + j)).is_dispatched) ∨
      (∀ j, j ≤ count → (real (k + j)).is_dispatched) := by
  induction count with
  | zero =>
    intro k s h
    simp only [idle_loop] at h
    rcases (idle_body_none_iff _ _).mp h with hn | hd
    · exact Or.inl ⟨0, Nat.le_refl 0, hn, fun j hj => absurd hj (Nat.not_lt_zero j)⟩
    · right
      intro j hj
      have : j = 0 := by omega
      subst this
      exact hd
  | succ n ih =>
    intro k s h
    simp only [idle_loop] at h
    split at h
    · rename_i hc
      simp only [Bool.and_eq_true, Option.isNone_iff_eq_none, bne_iff_ne, ne_eq,
        idle_body_event_code] at hc
      have hd : (real k).is_dispatched := by
        rcases (idle_body_none_iff _ _).mp hc.1 with hn | hd
        · exact absurd hn.2.2 hc.2
        · exact hd
      rcases ih (k + 1) _ h with ⟨i, hi, hn, hall⟩ | hall
      · left
        refine ⟨i + 1, by omega, ?_, ?_⟩
        · have e : k + (i + 1) = k + 1 + i := by omega
          rw [e]; exact hn
        · intro j hj
          cases j with
          | zero => exact hd
          | succ j' =>
            have e : k + (j' + 1) = k + 1 + j' := by omega
            rw [e]; exact hall j' (by omega)
      · right
        intro j hj
        cases j with
        | zero => exact hd
        | succ j' =>
          have e : k + (j' + 1) = k + 1 + j' := by omega
          rw [e]; exact hall j' (by omega)
    · rename_i hc
      simp only at h
      simp only [Bool.and_eq_true, Option.isNone_iff_eq_none, bne_iff_ne, ne_eq,
        idle_body_event_code, not_and, Decidable.not_not] at hc
      have he := hc h
      rcases (idle_body_none_iff _ _).mp h with hn | hd
      · exact Or.inl ⟨0, Nat.zero_le _, hn, fun j hj => absurd hj (Nat.not_lt_zero j)⟩
      · exact absurd he hd.2.2.1

/-- A null event received within the turns allowed, after events that were all
dispatched without error, ends the loop without error. -/
theorem idle_loop_null (real : Nat → IdleAnswer) (count : Nat) :
    ∀ (k i : Nat) (s : IdleState), i ≤ count → (real (k + i)).is_null →
      (∀ j, j < i → (real (k + j)).is_dispatched) →
      (idle_loop real count k s).1 = none := by
  induction count with
  | zero =>
    intro k i s hi hn _
    have : i = 0 := by omega
    subst this
    simp only [idle_loop]
    exact (idle_body_none_iff _ _).mpr (Or.inl hn)
  | succ n ih =>
    intro k i s hi hn hall
    cases i with
    | zero =>
      have hn' : (real k).is_null := hn
      have he : (idle_body (real k) s).e = none := (idle_body_none_iff _ _).mpr (Or.inl hn')
      simp only [idle_loop, idle_body_event_code, hn'.2.2, he]
      simp
    | succ i' =>
      have hd : (real k).is_dispatched := hall 0 (by omega)
      have he : (idle_body (real k) s).e = none := (idle_body_none_iff _ _).mpr (Or.inr hd)
      have hc : ((real k).event_code != Wimp_ENull) = true := by
        simpa using hd.2.2.1
      simp only [idle_loop, idle_body_event_code, he, hc]
      simp only [Option.isNone_none, Bool.and_self, if_true]
      apply ih (k + 1) i' _ (by omega)
      · have e : k + 1 + i' = k + (i' + 1) := by omega
        rw [e]; exact hn
      · intro j hj
        have e : k + 1 + j = k + (j + 1) := by omega
        rw [e]; exact hall (j + 1) (by omega)

theorem idle_loop_busy (real : Nat → IdleAnswer) (hreal : ∀ j, (real j).is_dispatched)
    (count : Nat) :
    ∀ (k : Nat) (s : IdleState), (idle_loop real count k s).1 = none := by
  induction count with
  | zero =>
    intro k s
    simp only [idle_loop]
    exact (idle_body_none_iff _ _).mpr (Or.inr (hreal k))
  | succ n ih =>
    intro k s
    have he : (idle_body (real k) s).e = none :=
      (idle_body_none_iff _ _).mpr (Or.inr (hreal k))
    have hc : ((real k).event_code != Wimp_ENull) = true := by
      simpa using (hreal k).2.2.1
    simp only [idle_loop, idle_body_event_code, he, hc]
    simp only [Option.isNone_none, Bool.and_self, if_true]
    exact ih _ _

theorem print_event_calls (s : IdleState) (event_code tb_event_code : Int) (self_id : Nat)
    (mem : Bool) : (print_event s event_code tb_event_code self_id mem).calls = s.calls := by
  unfold print_event
  split
  · split
    · split <;> rfl
    · split
      · split <;> rfl
      · rfl
  · rfl

theorem idle_body_dispatched_calls (a : IdleAnswer) (s : IdleState) (h : a.is_dispatched) :
    (idle_body a s).s.calls.length = s.calls.length + 3 := by
  obtain ⟨h1, h2, h3, _⟩ := h
  have hc : (a.event_code != Wimp_ENull) = true := by simpa using h3
  simp only [idle_body, h1, h2, hc, if_true, List.length_append, List.length_singleton,
    print_event_calls]

theorem idle_loop_busy_calls (real : Nat → IdleAnswer) (hreal : ∀ j, (real j).is_dispatched)
    (count : Nat) :
    ∀ (k : Nat) (s : IdleState),
      (idle_loop real count k s).2.calls.length = s.calls.length + 3 * (count + 1) := by
  induction count with
  | zero =>
    intro k s
    simp only [idle_loop]
    rw [idle_body_dispatched_calls _ _ (hreal k)]
  | succ n ih =>
    intro k s
    have he : (idle_body (real k) s).e = none :=
      (idle_body_none_iff _ _).mpr (Or.inr (hreal k))
    have hc : ((real k).event_code != Wimp_ENull) = true := by
      simpa using (hreal k).2.2.1
    simp only [idle_loop, idle_body_event_code, he, hc]
    simp only [Option.isNone_none, Bool.and_self, if_true]
    rw [ih, idle_body_dispatched_calls _ _ (hreal k)]
    omega

/-- C27 (the code at the failing input): a redraw request is pending at every
poll and nothing reports an error; `pseudo_event_wait_for_idle` returns `NULL`
after 512 turns of its loop (three real calls each), and no null event has
been received: every answer of `wimp_poll` carried event code 1. -/
theorem pseudo_event_wait_for_idle_gives_up :
    (pseudo_event_wait_for_idle idle_start always_busy).1 = none ∧
    (pseudo_event_wait_for_idle idle_start always_busy).2.calls.length = 3 * 512 ∧
    ∀ k, (always_busy k).poll_e = none ∧ (always_busy k).event_code = 1 := by
  have hbusy : ∀ j, (always_busy j).is_dispatched :=
    fun _ => ⟨rfl, rfl, by simp [always_busy, Wimp_ENull], rfl⟩
  refine ⟨?_, ?_, fun _ => ⟨rfl, rfl⟩⟩
  · unfold pseudo_event_wait_for_idle
    exact idle_loop_busy always_busy hbusy 511 0 idle_start
  · unfold pseudo_event_wait_for_idle
    rw [idle_loop_busy_calls always_busy hbusy 511 0 idle_start]
    rfl

/-- The loop over any answers. Whenever `pseudo_event_wait_for_idle` returns `NULL`, either
a null event has been received in one of its first 512 polls, every poll
before that one having delivered an event that was dispatched without error,
or all 512 polls have delivered events other than the null event, which were
dispatched without error; and it does return `NULL` in the first case. -/
theorem pseudo_event_wait_for_idle_null (s : IdleState) (real : Nat → IdleAnswer) :
    ((pseudo_event_wait_for_idle s real).1 = none →
      (∃ i, i ≤ 511 ∧ (real i).is_null ∧ ∀ j, j < i → (real j).is_dispatched) ∨
      (∀ j, j ≤ 511 → (real j).is_dispatched)) ∧
    (∀ i, i ≤ 511 → (real i).is_null → (∀ j, j < i → (real j).is_dispatched) →
      (pseudo_event_wait_for_idle s real).1 = none) := by
  constructor
  · intro h
    have := idle_loop_none real 511 0 s h
    simpa using this
  · intro i hi hn hall
    unfold pseudo_event_wait_for_idle
    apply idle_loop_null real 511 0 i s hi
    · simpa using hn
    · intro j hj; simpa using hall j hj

/-- Two redraw requests are pending, then nothing: an instance. -/
theorem pseudo_event_wait_for_idle_null_witness :
    (pseudo_event_wait_for_idle idle_start two_events).1 = none :=
  (pseudo_event_wait_for_idle_null idle_start two_events).2 2 (by decide)
    ⟨rfl, rfl, rfl⟩
    (fun j hj => by
      have h : two_events j = two_events 0 := by
        unfold two_events
        have h1 : j < 2 := hj
        simp [h1]
      rw [h]
      exact ⟨rfl, rfl, by decide, rfl⟩)

end CBDebug
